import Mathlib

/-!
# quickfix: logon state, trailer field order and the session state machine

A shallow embedding of

* `message/basic/trailer.go`  (`trailerFieldOrder`),
* `session/logon_state.go`    (`logonState.FixMsgIn`, `Timeout`, `handleLogon`),
* `session_state.go`          (`stateMachine` and the state mix-ins).

Go `int`, `int64` and `time.Duration` are 64-bit two's complement integers; they are
modelled by `Int` with an explicit wrap (`wrap64`) where arithmetic is performed. The one
`float64` product (`1.2 * HeartBtInt`) is modelled exactly, on integer significands with
rounding to nearest, ties to even (`float64.product12`), and its conversion to `int64` by
`float64.toInt64` (`float64.scale12` is the two together).
Calls into collaborators that are declared outside the embedded files are taken as
parameters (`Env`), and every such call made by the embedded code is recorded, in order,
in a list of `Call`s.
-/

/-- Two's complement wrap of an integer to 64 bits (Go `int`, `int64`, `time.Duration`). -/
def wrap64 (x : Int) : Int := (x + 2 ^ 63) % 2 ^ 64 - 2 ^ 63

/-- Range of a 64-bit signed integer. -/
def inInt64 (x : Int) : Prop := -(2 ^ 63) ≤ x ∧ x < 2 ^ 63

instance (x : Int) : Decidable (inInt64 x) := by unfold inInt64; infer_instance

namespace tag

/-- Go `type Tag int`. -/
abbrev Tag := Int

/-- Modelled from the spec: the FIX tag numbers (`BeginString(8)`, `CheckSum(10)`,
`MsgSeqNum` 34, `MsgType(35)`, `49=CLIENT`, `56=SERVER`, `98=0`, `108=30`;
`DefaultApplVerID` is 1137 in the FIX standard); the `tag` package is outside the
embedded files. -/
def BeginString : Tag := 8
def CheckSum : Tag := 10
def MsgSeqNum : Tag := 34
def MsgType : Tag := 35
def SenderCompID : Tag := 49
def TargetCompID : Tag := 56
def EncryptMethod : Tag := 98
def HeartBtInt : Tag := 108
def DefaultApplVerID : Tag := 1137

end tag

namespace message

/-- The value carried by a field. The codec is outside the embedded files and is
abstracted: `int v` is a value that reads as the integer `v` (what `NewIntField` stores
and `IntValue` parses), `str v` is any other value. -/
inductive FieldValue where
  | str (v : String)
  | int (v : Int)
  deriving DecidableEq, Repr

/-- A tagged field. -/
structure Field where
  tag : tag.Tag
  value : FieldValue
  deriving DecidableEq, Repr

/-- A field map: at most one field per tag is observable (the first one found). -/
abbrev FieldMap := List Field

/-- `FieldMap.SetField`: store the field under its tag, replacing a previous one. -/
def FieldMap.SetField (m : FieldMap) (f : Field) : FieldMap :=
  f :: m.filter (fun g => g.tag != f.tag)

/-- The field stored under a tag, if any. -/
def FieldMap.lookup (m : FieldMap) (t : tag.Tag) : Option FieldValue :=
  (m.find? (fun g => g.tag == t)).map (fun g => g.value)

/-- `FieldMap.StringValue`: Go returns `(string, bool)`; `none` stands for `ok = false`. -/
def FieldMap.StringValue (m : FieldMap) (t : tag.Tag) : Option String :=
  match m.lookup t with
  | some (.str v) => some v
  | some (.int v) => some (toString v)
  | none => none

/-- `FieldMap.IntValue`: Go returns `(int, error)`; `none` stands for a non-nil error
(field missing, not an integer, or out of the range of `int`). -/
def FieldMap.IntValue (m : FieldMap) (t : tag.Tag) : Option Int :=
  match m.lookup t with
  | some (.int v) => if inInt64 v then some v else none
  | _ => none

/-- A message: header, body and trailer field maps. -/
structure Message where
  Header : FieldMap
  Body : FieldMap
  Trailer : FieldMap
  deriving DecidableEq, Repr

end message

namespace basic

open message

/-- `basic.NewStringField`. -/
def NewStringField (t : tag.Tag) (v : String) : Field := ⟨t, .str v⟩

/-- `basic.NewIntField`. -/
def NewIntField (t : tag.Tag) (v : Int) : Field := ⟨t, .int v⟩

/-- `basic.NewMessage`: a message with empty header, body and trailer. -/
def NewMessage : Message := ⟨[], [], []⟩

/-- `trailerFieldOrder` (trailer.go): field 10 must be last in the trailer. -/
def trailerFieldOrder (i j : tag.Tag) : Bool :=
  if i = tag.CheckSum then false
  else if j = tag.CheckSum then true
  else decide (i < j)

end basic

namespace time

/-- `time.Second` in nanoseconds. -/
def Second : Int := 1000000000

/-- `time.Duration(n) * time.Second` on `int64`. -/
def seconds (n : Int) : Int := wrap64 (wrap64 n * Second)

end time

namespace float64

/-- The significand of `float64(1.2)`: the float64 nearest to 1.2 is `mant12 / 2 ^ 52`. -/
def mant12 : Nat := 5404319552844595

/-- The number of binary digits of `m`, with `fuel` halvings allowed. -/
def bitLenAux : Nat → Nat → Nat
  | 0, _ => 0
  | fuel + 1, m => if m = 0 then 0 else bitLenAux fuel (m / 2) + 1

/-- The number of binary digits of `m`. -/
def bitLen (m : Nat) : Nat := bitLenAux m m

/-- Round a natural number to 53 significant bits, to nearest, ties to even: the float64
nearest to `m` (the exponent range of float64 is not reached by the values below). -/
def round53 (m : Nat) : Nat :=
  let k := bitLen m - 53
  if k = 0 then m
  else
    let q := m / 2 ^ k
    let r := m % 2 ^ k
    let half := 2 ^ (k - 1)
    let q1 := if half < r ∨ (r = half ∧ q % 2 = 1) then q + 1 else q
    q1 * 2 ^ k

/-- The float64 product `float64(1.2) * float64(d)` truncated toward zero, as an integer
that is not yet narrowed to 64 bits: `d` is converted to float64, and the product with
`float64(1.2)` is rounded to float64 (`round53` of the exact product, in units of
`2 ^ -52`). -/
def product12 (d : Int) : Int :=
  let a := round53 d.natAbs
  let p := round53 (mant12 * a)
  let t : Int := ((p / 2 ^ 52 : Nat) : Int)
  if d < 0 then -t else t

/-- The conversion of a float64 to `int64`, on the truncated value `v`: `v` itself when it
is an `int64`. When it is not, the Go specification leaves the result to the
implementation; the value taken here is the one of amd64, whose conversion instruction
yields the smallest `int64` for every operand that is out of range. -/
def toInt64 (v : Int) : Int := if inInt64 v then v else -(2 ^ 63)

/-- `time.Duration(float64(1.2) * float64(d))` for a duration `d`. -/
def scale12 (d : Int) : Int := toInt64 (product12 d)

end float64

/-! ## Package `session` (logon_state.go) -/

set_option linter.dupNamespace false

namespace session

open message

/-- Modelled from the spec: the closed set of states (§3); the state types other than
`logonState` are declared outside the embedded files. -/
inductive state where
  | latentState
  | notSessionTime
  | logonState
  | inSession
  | resendState
  | pendingTimeout
  | logoutState
  deriving DecidableEq, Repr

/-- Modelled from the spec: the timer events (§4.3, §5 Timers); their declaration is
outside the embedded files. -/
inductive event where
  | peerTimeout
  | needHeartbeat
  | logonTimeout
  | logoutTimeout
  deriving DecidableEq, Repr

/-- An `error` value; `reject.TargetTooHigh` is the one type the code switches on. -/
inductive Err where
  | TargetTooHigh (text : String)
  | other (text : String)
  deriving DecidableEq, Repr

/-- `err.Error()`. -/
def Err.Error : Err → String
  | .TargetTooHigh t => t
  | .other t => t

/-- The session identity embedded in the session (`session.ID`, `session.BeginString`, ...). -/
structure ID where
  BeginString : String
  TargetCompID : String
  SenderCompID : String
  DefaultApplVerID : String
  deriving DecidableEq, Repr

/-- The fields of `session` that logon_state.go reads or writes. -/
structure session where
  ID : ID
  expectedSeqNum : Int
  seqNum : Int
  heartBeatTimeout : Int
  deriving DecidableEq, Repr

/-- A call made by the embedded code into a collaborator. `send` records the session
it is invoked on. -/
inductive Call where
  | OnEvent (text : String)
  | OnEventf (format : String) (msg : Message)
  | send (receiver : session) (msg : Message)
  | OnLogon (id : ID)
  | DoTargetTooHigh (err : Err)
  deriving DecidableEq, Repr

/-- The collaborators of logon_state.go that are declared elsewhere. The two checks
report an error or `none`; `send`, `OnLogon` and `DoTargetTooHigh` may update the session. -/
structure Env where
  verifyIgnoreSeqNumTooHigh : session → Message → Option Err
  checkTargetTooHigh : session → Message → Option Err
  send : session → Message → session
  OnLogon : session → ID → session
  DoTargetTooHigh : session → Err → session

/-- The outcome of a method: the session afterwards, the calls made, the returned value. -/
structure Result (α : Type) where
  session : session
  calls : List Call
  ret : α

/-- Lines 38-39 of `handleLogon`: reset on logon. -/
def resetOnLogon (s : session) : session :=
  { s with expectedSeqNum := 1, seqNum := 1 }

/-- Lines 45-59 of `handleLogon`: build the reply and take over `HeartBtInt`. -/
def logonReply (s : session) (msg : Message) : session × Message :=
  let reply := basic.NewMessage
  let reply := { reply with Header := reply.Header.SetField (basic.NewStringField tag.MsgType "A") }
  let reply := { reply with Header := reply.Header.SetField (basic.NewStringField tag.BeginString s.ID.BeginString) }
  let reply := { reply with Header := reply.Header.SetField (basic.NewStringField tag.TargetCompID s.ID.TargetCompID) }
  let reply := { reply with Header := reply.Header.SetField (basic.NewStringField tag.SenderCompID s.ID.SenderCompID) }
  let reply := { reply with Body := reply.Body.SetField (basic.NewIntField tag.EncryptMethod 0) }
  let sr : session × Message :=
    match msg.Body.IntValue tag.HeartBtInt with
    | some HeartBtInt =>
      ({ s with heartBeatTimeout := time.seconds HeartBtInt },
       { reply with Body := reply.Body.SetField (basic.NewIntField tag.HeartBtInt HeartBtInt) })
    | none => (s, reply)
  let s := sr.1
  let reply := sr.2
  let reply :=
    if s.ID.DefaultApplVerID ≠ "" then
      { reply with Trailer := reply.Trailer.SetField (basic.NewStringField tag.DefaultApplVerID s.ID.DefaultApplVerID) }
    else reply
  (s, reply)

/-- Lines 67-72 of `handleLogon`: the target-sequence check after the reply. -/
def targetCheck (env : Env) (s : session) (msg : Message) : session × List Call :=
  match env.checkTargetTooHigh s msg with
  | some (.TargetTooHigh t) => (env.DoTargetTooHigh s (.TargetTooHigh t), [.DoTargetTooHigh (.TargetTooHigh t)])
  | _ => (s, [])

/-- `logonState.handleLogon`. -/
def logonState.handleLogon (env : Env) (s : session) (msg : Message) : Result (Option Err) :=
  let s := resetOnLogon s
  match env.verifyIgnoreSeqNumTooHigh s msg with
  | some err => ⟨s, [], some err⟩
  | none =>
    let sr := logonReply s msg
    let s1 := env.send sr.1 sr.2
    let s2 := env.OnLogon s1 s1.ID
    let tc := targetCheck env s2 msg
    ⟨{ tc.1 with expectedSeqNum := wrap64 (tc.1.expectedSeqNum + 1) },
     [.OnEvent "Received logon request", .send sr.1 sr.2,
      .OnEvent "Responding to logon request", .OnLogon s1.ID] ++ tc.2,
     none⟩

/-- `logonState.FixMsgIn`. -/
def logonState.FixMsgIn (env : Env) (s : session) (msg : Message) : Result state :=
  if msg.Header.StringValue tag.MsgType = some "A" then
    let r := logonState.handleLogon env s msg
    match r.ret with
    | some err => ⟨r.session, r.calls ++ [.OnEvent err.Error], .latentState⟩
    | none => ⟨r.session, r.calls, .inSession⟩
  else
    ⟨s, [.OnEventf "Invalid Session State: Received Msg %v while waiting for Logon" msg],
     .latentState⟩

/-- `logonState.Timeout`. -/
def logonState.Timeout (s : session) (e : event) : Result state :=
  if e = .logonTimeout then
    ⟨s, [.OnEvent "Timed out waiting for logon response"], .latentState⟩
  else
    ⟨s, [], .logonState⟩

/-- The session handed to `checkTargetTooHigh` by `handleLogon` (after `send` and
`OnLogon`). -/
def sessionAtTargetCheck (env : Env) (s : session) (msg : Message) : session :=
  let sr := logonReply (resetOnLogon s) msg
  let s1 := env.send sr.1 sr.2
  env.OnLogon s1 s1.ID

/-- The collaborators that may update the session leave `heartBeatTimeout` alone. -/
def Env.keepsHeartBeatTimeout (env : Env) : Prop :=
  (∀ s m, (env.send s m).heartBeatTimeout = s.heartBeatTimeout) ∧
  (∀ s i, (env.OnLogon s i).heartBeatTimeout = s.heartBeatTimeout) ∧
  (∀ s e, (env.DoTargetTooHigh s e).heartBeatTimeout = s.heartBeatTimeout)

/-- Whether a call is `OnLogon`. -/
def Call.isOnLogon : Call → Bool
  | .OnLogon _ => true
  | _ => false

/-- Whether a call is `send`. -/
def Call.isSend : Call → Bool
  | .send _ _ => true
  | _ => false

/-! ### A concrete acceptor, for the scenarios -/

/-- An example environment: a Logon verifies when its SenderCompID is the session's
TargetCompID; the target check reports `TargetTooHigh` when MsgSeqNum is ahead of
`expectedSeqNum`; `send` and `DoTargetTooHigh` (which sends a ResendRequest) consume a
sender sequence number. -/
def exampleEnv : Env where
  verifyIgnoreSeqNumTooHigh := fun s msg =>
    if msg.Header.StringValue tag.SenderCompID = some s.ID.TargetCompID then none
    else some (.other "CompID problem")
  checkTargetTooHigh := fun s msg =>
    match msg.Header.IntValue tag.MsgSeqNum with
    | some n => if s.expectedSeqNum < n then some (.TargetTooHigh "MsgSeqNum too high") else none
    | none => some (.other "Required tag missing")
  send := fun s _ => { s with seqNum := wrap64 (s.seqNum + 1) }
  OnLogon := fun s _ => s
  DoTargetTooHigh := fun s _ => { s with seqNum := wrap64 (s.seqNum + 1) }

/-- The acceptor session SERVER, with counters left over from an earlier connection. -/
def exampleSession : session :=
  { ID := ⟨"FIX.4.2", "CLIENT", "SERVER", ""⟩, expectedSeqNum := 5, seqNum := 7,
    heartBeatTimeout := 0 }

/-- A Logon from CLIENT to SERVER with the given MsgSeqNum and HeartBtInt
(scenario S1 is `exampleLogon 1 30`). -/
def exampleLogon (seq hb : Int) : Message :=
  { Header := [⟨tag.BeginString, .str "FIX.4.2"⟩, ⟨tag.MsgType, .str "A"⟩,
               ⟨tag.MsgSeqNum, .int seq⟩, ⟨tag.SenderCompID, .str "CLIENT"⟩,
               ⟨tag.TargetCompID, .str "SERVER"⟩],
    Body := [⟨tag.EncryptMethod, .int 0⟩, ⟨tag.HeartBtInt, .int hb⟩],
    Trailer := [] }

/-- A Logon from an unknown counterparty. -/
def strangerLogon : Message :=
  { Header := [⟨tag.BeginString, .str "FIX.4.2"⟩, ⟨tag.MsgType, .str "A"⟩,
               ⟨tag.MsgSeqNum, .int 1⟩, ⟨tag.SenderCompID, .str "MALLORY"⟩,
               ⟨tag.TargetCompID, .str "SERVER"⟩],
    Body := [⟨tag.EncryptMethod, .int 0⟩],
    Trailer := [] }

end session

/-! ## Package `quickfix` (session_state.go) -/

namespace internal

/-- Modelled from the spec: the timer events (§4.3, §5 Timers); `internal.Event` is
declared outside the embedded files. -/
inductive Event where
  | PeerTimeout
  | NeedHeartbeat
  | LogonTimeout
  | LogoutTimeout
  deriving DecidableEq, Repr

end internal

namespace quickfix

/-- An instant (`time.Time`), as a number of time units since an epoch. -/
abbrev Time := Int

/-- An `error` value, by its text. -/
abbrev Err := String

/-- A channel (`chan interface{}`), by its identity. -/
abbrev Chan := Nat

/-- Modelled from the spec: the closed set of states (§3); the state types are declared
outside the embedded files. -/
inductive sessionState where
  | latentState
  | notSessionTime
  | logonState
  | inSession
  | resendState
  | pendingTimeout
  | logoutState
  deriving DecidableEq, Repr

/-- The mix-ins of session_state.go that a state embeds; `none` for a state that embeds
none of them. -/
inductive mixin where
  | inSessionTime
  | connectedNotLoggedOn
  | loggedOn
  | none
  deriving DecidableEq, Repr

/-- Modelled from the spec: the mix-in each state embeds (§3: `inSession`, `resendState`
and `pendingTimeout` are logged on; `logonState` and `logoutState` are connected and wait
for the counterparty; `latentState` is not connected; `notSessionTime` is outside the
session window; §9: the base predicates default to false). -/
def sessionState.mixin : sessionState → mixin
  | .latentState => .inSessionTime
  | .notSessionTime => .none
  | .logonState => .connectedNotLoggedOn
  | .inSession => .loggedOn
  | .resendState => .loggedOn
  | .pendingTimeout => .loggedOn
  | .logoutState => .connectedNotLoggedOn

/-- `inSessionTime.IsSessionTime`. -/
def inSessionTime.IsSessionTime : Bool := true

/-- `connected.IsConnected`. -/
def connected.IsConnected : Bool := true

/-- `connected.IsSessionTime`. -/
def connected.IsSessionTime : Bool := true

/-- `connectedNotLoggedOn.IsLoggedOn`. -/
def connectedNotLoggedOn.IsLoggedOn : Bool := false

/-- `loggedOn.IsLoggedOn`. -/
def loggedOn.IsLoggedOn : Bool := true

/-- `IsLoggedOn` of a state. -/
def sessionState.IsLoggedOn (st : sessionState) : Bool :=
  match st.mixin with
  | .loggedOn => loggedOn.IsLoggedOn
  | .connectedNotLoggedOn => connectedNotLoggedOn.IsLoggedOn
  | _ => false

/-- `IsConnected` of a state. -/
def sessionState.IsConnected (st : sessionState) : Bool :=
  match st.mixin with
  | .loggedOn => connected.IsConnected
  | .connectedNotLoggedOn => connected.IsConnected
  | _ => false

/-- `IsSessionTime` of a state. -/
def sessionState.IsSessionTime (st : sessionState) : Bool :=
  match st.mixin with
  | .loggedOn => connected.IsSessionTime
  | .connectedNotLoggedOn => connected.IsSessionTime
  | .inSessionTime => inSessionTime.IsSessionTime
  | .none => false

/-- An inbound unit from the transport. -/
structure fixIn where
  bytes : List Nat
  receiveTime : Time
  deriving DecidableEq, Repr

/-- A parsed message. -/
structure Message where
  fields : List (Int × String)
  ReceiveTime : Time
  deriving DecidableEq, Repr

/-- A call made by the embedded code: into a collaborator declared elsewhere, on a
channel, or on the current state. -/
inductive Call where
  | OnEvent (text : String)
  | OnEventParams (text currentState nextState : String)
  | logError (text : String) (err : Err)
  | ShutdownNow (st : sessionState)
  | Stop (st : sessionState)
  | FixMsgIn (st : sessionState) (msg : Message)
  | Timeout (st : sessionState) (e : internal.Event)
  | sendLogout (reason : String)
  | initiateLogout (reason : String)
  | OnLogout
  | onDisconnect
  | CreationTime
  | dropAndReset
  | make (c : Chan)
  | close (c : Chan)
  | Refresh
  | sendLogon
  | AfterFunc (delay : Int)
  | OnIncoming (bytes : List Nat)
  | OnErrorEventParams (text : String) (err : Err)
  | peerTimerReset (d : Int)
  | Lock
  | Unlock
  | sendQueued
  | dropQueued
  deriving DecidableEq, Repr

/-- `stateMachine`: `log` records whether the `*Log` pointer is non-nil. -/
structure stateMachine where
  State : Option sessionState
  pendingStop : Bool
  stopped : Bool
  notifyOnInSessionTime : Option Chan
  log : Bool
  deriving DecidableEq, Repr

/-- The session: its embedded state machine (the receiver `sm` of the methods below is
the state machine of the `session` argument), the configuration read by session_state.go,
the rest of the session (`world`: store, queue, transport, application), the calls made so
far, and the number of channels allocated so far. -/
structure session (σ : Type) where
  stateMachine : stateMachine
  InitiateLogon : Bool
  RefreshOnLogon : Bool
  LogonTimeout : Int
  world : σ
  calls : List Call
  chans : Nat

/-- The collaborators declared outside session_state.go. Those that act on the session
act on its `world`; the methods of a state that no mix-in of session_state.go provides
are `ShutdownNow`, `Stop`, `FixMsgIn` and `Timeout`. `HeartBtInt` reads the session's
`HeartBtInt` (a `time.Duration`), which the handling of a message may set. -/
structure Env (σ : Type) where
  HeartBtInt : σ → Int
  IsInRange : Time → Bool
  IsInSameRange : Time → Time → Bool
  CreationTime : σ → Time
  dropAndReset : σ → σ × Option Err
  sendLogout : σ → String → σ × Option Err
  initiateLogout : σ → String → σ × Option Err
  OnLogout : σ → σ
  onDisconnect : σ → σ
  Refresh : σ → σ × Option Err
  sendLogon : σ → σ × Option Err
  sendQueued : σ → σ
  dropQueued : σ → σ
  ParseMessageWithDataDictionary : σ → List Nat → Except Err Message
  String : sessionState → String
  ShutdownNow : sessionState → σ → σ
  Stop : sessionState → σ → σ × sessionState
  FixMsgIn : sessionState → σ → Message → σ × sessionState
  Timeout : sessionState → σ → internal.Event → σ × sessionState

variable {σ : Type}

/-- Record a call. -/
def session.call (s : session σ) (c : Call) : session σ :=
  { s with calls := s.calls ++ [c] }

/-- `stateMachine.IsLoggedOn`. -/
def stateMachine.IsLoggedOn (sm : stateMachine) : Bool :=
  match sm.State with
  | none => false
  | some st => st.IsLoggedOn

/-- `stateMachine.IsConnected`. -/
def stateMachine.IsConnected (sm : stateMachine) : Bool :=
  match sm.State with
  | none => false
  | some st => st.IsConnected

/-- `stateMachine.IsSessionTime`. -/
def stateMachine.IsSessionTime (sm : stateMachine) : Bool :=
  match sm.State with
  | none => false
  | some st => st.IsSessionTime

/-- `stateMachine.Stopped`. -/
def stateMachine.Stopped (sm : stateMachine) : Bool := sm.stopped

/-- `s.logError(text, err)`. -/
def session.logError (s : session σ) (text : String) (err : Err) : session σ :=
  s.call (.logError text err)

/-- `handleStateError`. -/
def handleStateError (s : session σ) (err : Err) : session σ × sessionState :=
  (s.logError "session state error" err, .latentState)

/-- `connectedNotLoggedOn.ShutdownNow`. -/
def connectedNotLoggedOn.ShutdownNow (s : session σ) : session σ := s

/-- `loggedOn.ShutdownNow`. -/
def loggedOn.ShutdownNow (env : Env σ) (s : session σ) : session σ :=
  let r := env.sendLogout s.world ""
  let s := { s.call (.sendLogout "") with world := r.1 }
  match r.2 with
  | some err => s.logError "sendLogout failed" err
  | none => s

/-- `loggedOn.Stop`. -/
def loggedOn.Stop (env : Env σ) (s : session σ) : session σ × sessionState :=
  let r := env.initiateLogout s.world ""
  let s := { s.call (.initiateLogout "") with world := r.1 }
  match r.2 with
  | some err => handleStateError s err
  | none => (s, .logoutState)

/-- `ShutdownNow` of a state, on the session. -/
def sessionState.ShutdownNow (env : Env σ) (st : sessionState) (s : session σ) : session σ :=
  let s := s.call (.ShutdownNow st)
  match st.mixin with
  | .loggedOn => loggedOn.ShutdownNow env s
  | .connectedNotLoggedOn => connectedNotLoggedOn.ShutdownNow s
  | _ => { s with world := env.ShutdownNow st s.world }

/-- `Stop` of a state, on the session. -/
def sessionState.Stop (env : Env σ) (st : sessionState) (s : session σ) :
    session σ × sessionState :=
  let s := s.call (.Stop st)
  match st.mixin with
  | .loggedOn => loggedOn.Stop env s
  | _ => let r := env.Stop st s.world
         ({ s with world := r.1 }, r.2)

/-- `FixMsgIn` of a state, on the session. -/
def sessionState.FixMsgIn (env : Env σ) (st : sessionState) (s : session σ) (msg : Message) :
    session σ × sessionState :=
  let s := s.call (.FixMsgIn st msg)
  let r := env.FixMsgIn st s.world msg
  ({ s with world := r.1 }, r.2)

/-- `Timeout` of a state, on the session. -/
def sessionState.Timeout (env : Env σ) (st : sessionState) (s : session σ)
    (e : internal.Event) : session σ × sessionState :=
  let s := s.call (.Timeout st e)
  let r := env.Timeout st s.world e
  ({ s with world := r.1 }, r.2)

/-- `stateMachine.notifyInSessionTime`. -/
def stateMachine.notifyInSessionTime (s : session σ) : session σ :=
  let s := match s.stateMachine.notifyOnInSessionTime with
    | some c => s.call (.close c)
    | none => s
  { s with stateMachine := { s.stateMachine with notifyOnInSessionTime := none } }

/-- `stateMachine.forceStop`. -/
def stateMachine.forceStop (s : session σ) : session σ :=
  let s := { s with stateMachine := { s.stateMachine with stopped := true } }
  stateMachine.notifyInSessionTime s

/-- Lines 169-178 of `handleDisconnectState`: the value of `doOnLogout`. -/
def stateMachine.doOnLogout (s : session σ) : Bool :=
  let doOnLogout := s.stateMachine.IsLoggedOn
  match s.stateMachine.State with
  | some .logoutState => true
  | some .logonState => if s.InitiateLogon then true else doOnLogout
  | _ => doOnLogout

/-- `stateMachine.handleDisconnectState`. -/
def stateMachine.handleDisconnectState (env : Env σ) (s : session σ) : session σ :=
  let s :=
    if stateMachine.doOnLogout s then { s.call .OnLogout with world := env.OnLogout s.world }
    else s
  { s.call .onDisconnect with world := env.onDisconnect s.world }

/-- Lines 144-152 of `setState`: leaving the connected states. -/
def stateMachine.leaveConnected (env : Env σ) (s : session σ) (nextState : sessionState) :
    session σ :=
  if !nextState.IsConnected then
    let s := if s.stateMachine.IsConnected then stateMachine.handleDisconnectState env s else s
    if s.stateMachine.pendingStop then stateMachine.forceStop s else s
  else s

/-- `stateMachine.setState`; `none` is the nil dereference of `sm.State.String()`. -/
def stateMachine.setState (env : Env σ) (s : session σ) (nextState : sessionState) :
    Option (session σ) :=
  let s := stateMachine.leaveConnected env s nextState
  match s.stateMachine.State with
  | none => none
  | some cur =>
    let s :=
      if env.String cur != env.String nextState && s.stateMachine.log then
        s.call (.OnEventParams "change state" (env.String cur) (env.String nextState))
      else s
    some { s with stateMachine := { s.stateMachine with State := some nextState } }

/-- Lines 116-118 of `CheckSessionTime`: make the notification channel if there is none. -/
def stateMachine.ensureNotify (s : session σ) : session σ :=
  match s.stateMachine.notifyOnInSessionTime with
  | none =>
    { s.call (.make s.chans) with
      stateMachine := { s.stateMachine with notifyOnInSessionTime := some s.chans },
      chans := s.chans + 1 }
  | some _ => s

/-- Lines 128-135 of `CheckSessionTime`: reset the session when the store's creation time
and `now` are not in the same range; `none` is the nil dereference of
`sm.State.ShutdownNow`. -/
def stateMachine.checkReset (env : Env σ) (s : session σ) (now : Time) : Option (session σ) :=
  let s := s.call .CreationTime
  if !env.IsInSameRange (env.CreationTime s.world) now then
    let s := s.call (.OnEvent "Session reset")
    match s.stateMachine.State with
    | none => none
    | some cur =>
      let s := cur.ShutdownNow env s
      let r := env.dropAndReset s.world
      let s := { s.call .dropAndReset with world := r.1 }
      let s := match r.2 with
        | some err => s.logError "dropAndReset failed" err
        | none => s
      stateMachine.setState env s .latentState
  else some s

/-- `stateMachine.CheckSessionTime`; `none` is a nil dereference of `sm.State`. -/
def stateMachine.CheckSessionTime (env : Env σ) (s : session σ) (now : Time) :
    Option (session σ) :=
  if !env.IsInRange now then
    let s := if s.stateMachine.IsSessionTime then s.call (.OnEvent "Not in session") else s
    match s.stateMachine.State with
    | none => none
    | some cur =>
      match stateMachine.setState env (cur.ShutdownNow env s) .notSessionTime with
      | none => none
      | some s => some (stateMachine.ensureNotify s)
  else
    let r : Option (session σ) :=
      if !s.stateMachine.IsSessionTime then
        stateMachine.setState env
          (stateMachine.notifyInSessionTime (s.call (.OnEvent "In session"))) .latentState
      else some s
    match r with
    | none => none
    | some s => stateMachine.checkReset env s now

/-- `stateMachine.Start`, with the value of `time.Now()`. -/
def stateMachine.Start (env : Env σ) (s : session σ) (now : Time) : Option (session σ) :=
  let s := { s with stateMachine :=
    { s.stateMachine with pendingStop := false, stopped := false, State := some .latentState } }
  stateMachine.CheckSessionTime env s now

/-- `stateMachine.Connect`. -/
def stateMachine.Connect (env : Env σ) (s : session σ) : Option (session σ) :=
  if !s.InitiateLogon then stateMachine.setState env s .logonState
  else
    let refreshed : session σ × Bool :=
      if s.RefreshOnLogon then
        let r := env.Refresh s.world
        let s := { s.call .Refresh with world := r.1 }
        match r.2 with
        | some err => (s.logError "store.Refresh failed" err, false)
        | none => (s, true)
      else (s, true)
    if !refreshed.2 then some refreshed.1
    else
      let s := refreshed.1.call (.OnEvent "Sending logon request")
      let r := env.sendLogon s.world
      let s := { s.call .sendLogon with world := r.1 }
      match r.2 with
      | some err => some (s.logError "sendLogon failed" err)
      | none =>
        match stateMachine.setState env s .logonState with
        | none => none
        | some s => some (s.call (.AfterFunc s.LogonTimeout))

/-- `stateMachine.Stop`; `none` is the nil dereference of `sm.State.Stop`. -/
def stateMachine.Stop (env : Env σ) (s : session σ) : Option (session σ) :=
  let s := s.call (.OnEvent "call Stop")
  let s := { s with stateMachine := { s.stateMachine with pendingStop := true } }
  match s.stateMachine.State with
  | none => none
  | some cur =>
    let r := cur.Stop env s
    stateMachine.setState env r.1 r.2

/-- `stateMachine.Disconnected`. -/
def stateMachine.Disconnected (env : Env σ) (s : session σ) : Option (session σ) :=
  if s.stateMachine.IsConnected then stateMachine.setState env s .latentState else some s

/-- `stateMachine.fixMsgIn`; `none` is the nil dereference of `sm.State.FixMsgIn`. -/
def stateMachine.fixMsgIn (env : Env σ) (s : session σ) (m : Message) : Option (session σ) :=
  match s.stateMachine.State with
  | none => none
  | some cur =>
    let r := cur.FixMsgIn env s m
    stateMachine.setState env r.1 r.2

/-- `stateMachine.Incoming`, with the value of `time.Now()`. The argument of
`peerTimer.Reset` is `time.Duration(float64(1.2) * float64(session.HeartBtInt))`. -/
def stateMachine.Incoming (env : Env σ) (s : session σ) (m : fixIn) (now : Time) :
    Option (session σ) :=
  match stateMachine.CheckSessionTime env s now with
  | none => none
  | some s =>
    if !s.stateMachine.IsConnected then some s
    else
      let s := s.call (.OnIncoming m.bytes)
      let r : Option (session σ) :=
        match env.ParseMessageWithDataDictionary s.world m.bytes with
        | .error err => some (s.call (.OnErrorEventParams "Msg Parse Error" err))
        | .ok msg => stateMachine.fixMsgIn env s { msg with ReceiveTime := m.receiveTime }
      match r with
      | none => none
      | some s => some (s.call (.peerTimerReset (float64.scale12 (env.HeartBtInt s.world))))

/-- `stateMachine.SendAppMessages`, with the value of `time.Now()`. -/
def stateMachine.SendAppMessages (env : Env σ) (s : session σ) (now : Time) :
    Option (session σ) :=
  match stateMachine.CheckSessionTime env s now with
  | none => none
  | some s =>
    let s := s.call .Lock
    let s :=
      if s.stateMachine.IsLoggedOn then { s.call .sendQueued with world := env.sendQueued s.world }
      else { s.call .dropQueued with world := env.dropQueued s.world }
    some (s.call .Unlock)

/-- `stateMachine.Timeout`, with the value of `time.Now()`; `none` is the nil dereference
of `sm.State.Timeout`. -/
def stateMachine.Timeout (env : Env σ) (s : session σ) (e : internal.Event) (now : Time) :
    Option (session σ) :=
  match stateMachine.CheckSessionTime env s now with
  | none => none
  | some s =>
    match s.stateMachine.State with
    | none => none
    | some cur =>
      let r := cur.Timeout env s e
      stateMachine.setState env r.1 r.2

/-! ### The calls the session-time check is about -/

/-- Whether a call is `ShutdownNow` on a state. -/
def Call.isShutdownNow : Call → Bool
  | .ShutdownNow _ => true
  | _ => false

/-- Whether a call is made on the store by `CheckSessionTime`: `CreationTime` or
`dropAndReset`. -/
def Call.isStoreCall : Call → Bool
  | .CreationTime => true
  | .dropAndReset => true
  | _ => false

/-- Whether a call makes or closes a channel. -/
def Call.isChanCall : Call → Bool
  | .make _ => true
  | .close _ => true
  | _ => false

/-- The calls followed through the session-time check: `ShutdownNow` on a state, the
store calls and the channel calls. -/
def Call.tracked (c : Call) : Bool := c.isShutdownNow || c.isStoreCall || c.isChanCall

/-- The call `notifyInSessionTime` makes on the notification channel: it closes the
channel when there is one. -/
def closeCalls : Option Chan → List Call
  | some c => [.close c]
  | none => []

/-- The calls of `s'` are those of `s` followed by new ones, of which the tracked ones
are `X`, in this order. -/
def Adds (s s' : session σ) (X : List Call) : Prop :=
  ∃ new, s'.calls = s.calls ++ new ∧ new.filter Call.tracked = X

/-- Whether a transition to `nextState` stops the state machine: the next state is not
connected and a stop is pending. -/
def stateMachine.stopping (sm : stateMachine) (nextState : sessionState) : Bool :=
  !nextState.IsConnected && sm.pendingStop

/-- A step that leaves the state machine and the channel counter alone. -/
def Keeps (s s' : session σ) : Prop :=
  s'.stateMachine = s.stateMachine ∧ s'.chans = s.chans ∧ s'.InitiateLogon = s.InitiateLogon

/-! ### The calls and configurations the other methods are about -/

/-- Whether a call is one that `setState` makes: `OnLogout`, `onDisconnect`, the close of
the notification channel, the log of the state change. -/
def Call.fromSetState : Call → Bool
  | .OnLogout => true
  | .onDisconnect => true
  | .close _ => true
  | .OnEventParams _ _ _ => true
  | _ => false

/-- Whether a call belongs to the logon of an initiator: `store.Refresh`, `sendLogon`,
the scheduling of the logon timeout. -/
def Call.isConnectCall : Call → Bool
  | .Refresh => true
  | .sendLogon => true
  | .AfterFunc _ => true
  | _ => false

/-- Whether a call handles an inbound message: the log of the bytes, the log of a parse
error, `FixMsgIn` of a state, the reset of the peer timer. -/
def Call.isInboundCall : Call → Bool
  | .OnIncoming _ => true
  | .OnErrorEventParams _ _ => true
  | .FixMsgIn _ _ => true
  | .peerTimerReset _ => true
  | _ => false

/-- Whether a call resets the peer timer. -/
def Call.isPeerTimerReset : Call → Bool
  | .peerTimerReset _ => true
  | _ => false

/-- Whether a call changes the queue of outbound application messages. -/
def Call.isQueueCall : Call → Bool
  | .sendQueued => true
  | .dropQueued => true
  | _ => false

/-- Whether a call is one that `CheckSessionTime` makes: a log event, `ShutdownNow` of a
state and what the mix-in `loggedOn` does there, the store calls, the making of the
notification channel, and the calls of `setState`. -/
def Call.fromCheckSessionTime : Call → Bool
  | .OnEvent _ => true
  | .ShutdownNow _ => true
  | .sendLogout _ => true
  | .logError _ _ => true
  | .CreationTime => true
  | .dropAndReset => true
  | .make _ => true
  | c => c.fromSetState

/-- The calls of `s'` are those of `s` followed by new ones that all satisfy `p`. -/
def AddsOnly (p : Call → Bool) (s s' : session σ) : Prop :=
  ∃ new, s'.calls = s.calls ++ new ∧ ∀ c ∈ new, p c = true

/-- Lines 32-37 of `Connect`: the store after the refresh (when `RefreshOnLogon` is set)
and its error, if any. -/
def stateMachine.refreshed (env : Env σ) (s : session σ) : σ × Option Err :=
  if s.RefreshOnLogon then env.Refresh s.world else (s.world, none)

/-- The state in which `CheckSessionTime` leaves a state machine that was in state `st`:
`notSessionTime` out of range; in range `latentState` when `st` was not in session time
or the store was created in another range, and `st` itself otherwise. -/
def stateMachine.stateAfterCheck (env : Env σ) (s : session σ) (now : Time)
    (st : sessionState) : sessionState :=
  if !env.IsInRange now then .notSessionTime
  else if !st.IsSessionTime then .latentState
  else if !env.IsInSameRange (env.CreationTime s.world) now then .latentState
  else st

/-- How `pendingStop` and `stopped` may change in a step that is not `Stop` or `Start`:
`pendingStop` is kept, and `stopped` is set only if a stop is pending. -/
def Evolves (sm sm' : stateMachine) : Prop :=
  sm'.pendingStop = sm.pendingStop ∧
  (sm'.stopped = true → sm.stopped = true ∨ sm.pendingStop = true)

/-- The configurations reachable from `Start` through the methods of the state machine. -/
inductive Reachable (env : Env σ) : session σ → Prop where
  | Start (s s' : session σ) (now : Time) :
      stateMachine.Start env s now = some s' → Reachable env s'
  | Connect (s s' : session σ) :
      Reachable env s → stateMachine.Connect env s = some s' → Reachable env s'
  | Stop (s s' : session σ) :
      Reachable env s → stateMachine.Stop env s = some s' → Reachable env s'
  | Disconnected (s s' : session σ) :
      Reachable env s → stateMachine.Disconnected env s = some s' → Reachable env s'
  | Incoming (s s' : session σ) (m : fixIn) (now : Time) :
      Reachable env s → stateMachine.Incoming env s m now = some s' → Reachable env s'
  | SendAppMessages (s s' : session σ) (now : Time) :
      Reachable env s → stateMachine.SendAppMessages env s now = some s' → Reachable env s'
  | Timeout (s s' : session σ) (e : internal.Event) (now : Time) :
      Reachable env s → stateMachine.Timeout env s e now = some s' → Reachable env s'
  | CheckSessionTime (s s' : session σ) (now : Time) :
      Reachable env s → stateMachine.CheckSessionTime env s now = some s' → Reachable env s'

/-- The configurations reachable from `Start` without a call of `Stop`. -/
inductive ReachableWithoutStop (env : Env σ) : session σ → Prop where
  | Start (s s' : session σ) (now : Time) :
      stateMachine.Start env s now = some s' → ReachableWithoutStop env s'
  | Connect (s s' : session σ) :
      ReachableWithoutStop env s → stateMachine.Connect env s = some s' →
      ReachableWithoutStop env s'
  | Disconnected (s s' : session σ) :
      ReachableWithoutStop env s → stateMachine.Disconnected env s = some s' →
      ReachableWithoutStop env s'
  | Incoming (s s' : session σ) (m : fixIn) (now : Time) :
      ReachableWithoutStop env s → stateMachine.Incoming env s m now = some s' →
      ReachableWithoutStop env s'
  | SendAppMessages (s s' : session σ) (now : Time) :
      ReachableWithoutStop env s → stateMachine.SendAppMessages env s now = some s' →
      ReachableWithoutStop env s'
  | Timeout (s s' : session σ) (e : internal.Event) (now : Time) :
      ReachableWithoutStop env s → stateMachine.Timeout env s e now = some s' →
      ReachableWithoutStop env s'
  | CheckSessionTime (s s' : session σ) (now : Time) :
      ReachableWithoutStop env s → stateMachine.CheckSessionTime env s now = some s' →
      ReachableWithoutStop env s'

/-- Lines 130-131 of `CheckSessionTime`, on the rest of the session: `dropAndReset` is
called on the session as `ShutdownNow` on the state `cur` leaves it. The result is the rest
of the session after the reset and the error of `dropAndReset`, if any. -/
def stateMachine.resetStore (env : Env σ) (s : session σ) (cur : sessionState) :
    σ × Option Err :=
  env.dropAndReset (cur.ShutdownNow env s).world

/-! ### A concrete session, for the scenarios -/

/-- The rest of an example session: the heartbeat interval, the store's creation time
and counters, the number of queued application messages, whether the store is broken,
the messages sent. -/
structure World where
  HeartBtInt : Int
  CreationTime : Time
  nextSender : Int
  nextTarget : Int
  queued : Nat
  storeBroken : Bool
  sent : List String
  deriving DecidableEq, Repr

/-- An example session window, in hours since the epoch: every day from 08:00 to 17:00. -/
def exampleIsInRange (t : Time) : Bool := decide (8 ≤ t % 24) && decide (t % 24 < 17)

/-- Two instants are in the same range when both are in the window of the same day. -/
def exampleIsInSameRange (a b : Time) : Bool :=
  exampleIsInRange a && exampleIsInRange b && decide (a / 24 = b / 24)

/-- An example environment over `World`: `dropAndReset` drops the queue and resets the
counters, and reports an error when the store is broken. -/
def exampleEnv : Env World where
  HeartBtInt := fun w => w.HeartBtInt
  IsInRange := exampleIsInRange
  IsInSameRange := exampleIsInSameRange
  CreationTime := fun w => w.CreationTime
  dropAndReset := fun w =>
    ({ w with queued := 0, nextSender := 1, nextTarget := 1 },
     if w.storeBroken then some "store reset failed" else none)
  sendLogout := fun w reason => ({ w with sent := w.sent ++ ["Logout " ++ reason] }, none)
  initiateLogout := fun w reason => ({ w with sent := w.sent ++ ["Logout " ++ reason] }, none)
  OnLogout := fun w => w
  onDisconnect := fun w => w
  Refresh := fun w => (w, if w.storeBroken then some "store refresh failed" else none)
  sendLogon := fun w => ({ w with sent := w.sent ++ ["Logon"] }, none)
  sendQueued := fun w => { w with queued := 0, sent := w.sent ++ ["queued"] }
  dropQueued := fun w => { w with queued := 0 }
  ParseMessageWithDataDictionary := fun _ bytes =>
    if bytes = [] then .error "empty message" else .ok ⟨[], 0⟩
  String := fun st =>
    match st with
    | .latentState => "Latent State"
    | .notSessionTime => "Not session time"
    | .logonState => "Logon State"
    | .inSession => "In Session"
    | .resendState => "Resend"
    | .pendingTimeout => "Pending Timeout"
    | .logoutState => "Logout State"
  ShutdownNow := fun _ w => w
  Stop := fun st w => (w, st)
  FixMsgIn := fun st w _ => (w, st)
  Timeout := fun st w _ => (w, st)

/-- An example session in the given state, with the given pending stop and notification
channel; its heartbeat interval is 30 s, its store was created at hour 9 of day 0 and is
broken. -/
def exampleSession (st : sessionState) (pendingStop : Bool) (notify : Option Chan) :
    session World :=
  { stateMachine := ⟨some st, pendingStop, false, notify, true⟩,
    InitiateLogon := false, RefreshOnLogon := false, LogonTimeout := 10,
    world := ⟨30 * time.Second, 9, 5, 5, 2, true, []⟩, calls := [], chans := 1 }

/-- An example initiator in `latentState`, with the given `RefreshOnLogon` and the given
state of the store. -/
def exampleInitiator (refreshOnLogon storeBroken : Bool) : session World :=
  { stateMachine := ⟨some .latentState, false, false, none, true⟩,
    InitiateLogon := true, RefreshOnLogon := refreshOnLogon, LogonTimeout := 10,
    world := ⟨30 * time.Second, 9, 5, 5, 2, storeBroken, []⟩, calls := [], chans := 0 }

/-- A logged-on example session with the given heartbeat interval, in nanoseconds. -/
def exampleSessionWithHeartBtInt (heartBtInt : Int) : session World :=
  { exampleSession .inSession false none with
    world := ⟨heartBtInt, 9, 5, 5, 2, true, []⟩ }

end quickfix

/-! ## Theorems: logon state -/

namespace session

open message

theorem handleLogon_ret (env : Env) (s : session) (msg : Message) :
    (logonState.handleLogon env s msg).ret = env.verifyIgnoreSeqNumTooHigh (resetOnLogon s) msg := by
  unfold logonState.handleLogon
  cases h : env.verifyIgnoreSeqNumTooHigh (resetOnLogon s) msg <;> simp [h]

/-- C1: `logonState.FixMsgIn` returns `inSession` exactly when the header's MsgType is
present and equals "A" and `handleLogon` returns no error, which is exactly when
`verifyIgnoreSeqNumTooHigh` accepts the message; in every other case it returns
`latentState`. -/
theorem logonState_FixMsgIn_next (env : Env) (s : session) (msg : Message) :
    ((logonState.FixMsgIn env s msg).ret = state.inSession ↔
        (msg.Header.StringValue tag.MsgType = some "A" ∧
          (logonState.handleLogon env s msg).ret = none)) ∧
    ((logonState.handleLogon env s msg).ret = none ↔
        env.verifyIgnoreSeqNumTooHigh (resetOnLogon s) msg = none) ∧
    ((logonState.FixMsgIn env s msg).ret = state.inSession ∨
        (logonState.FixMsgIn env s msg).ret = state.latentState) := by
  refine ⟨?_, ?_, ?_⟩
  · unfold logonState.FixMsgIn
    by_cases hA : msg.Header.StringValue tag.MsgType = some "A"
    · cases hr : (logonState.handleLogon env s msg).ret <;> simp [hA, hr]
    · simp [hA]
  · rw [handleLogon_ret]
  · unfold logonState.FixMsgIn
    by_cases hA : msg.Header.StringValue tag.MsgType = some "A"
    · cases hr : (logonState.handleLogon env s msg).ret <;> simp [hA, hr]
    · simp [hA]

theorem handleLogon_accept (env : Env) (s : session) (msg : Message)
    (hv : env.verifyIgnoreSeqNumTooHigh (resetOnLogon s) msg = none) :
    logonState.handleLogon env s msg =
      ⟨{ (targetCheck env (sessionAtTargetCheck env s msg) msg).1 with
          expectedSeqNum :=
            wrap64 ((targetCheck env (sessionAtTargetCheck env s msg) msg).1.expectedSeqNum + 1) },
       [.OnEvent "Received logon request",
        .send (logonReply (resetOnLogon s) msg).1 (logonReply (resetOnLogon s) msg).2,
        .OnEvent "Responding to logon request",
        .OnLogon (env.send (logonReply (resetOnLogon s) msg).1
                    (logonReply (resetOnLogon s) msg).2).ID] ++
        (targetCheck env (sessionAtTargetCheck env s msg) msg).2,
       none⟩ := by
  unfold logonState.handleLogon sessionAtTargetCheck
  simp [hv]

theorem handleLogon_reject (env : Env) (s : session) (msg : Message) (err : Err)
    (hv : env.verifyIgnoreSeqNumTooHigh (resetOnLogon s) msg = some err) :
    logonState.handleLogon env s msg = ⟨resetOnLogon s, [], some err⟩ := by
  unfold logonState.handleLogon
  simp [hv]

theorem FixMsgIn_accept (env : Env) (s : session) (msg : Message)
    (hA : msg.Header.StringValue tag.MsgType = some "A")
    (hv : env.verifyIgnoreSeqNumTooHigh (resetOnLogon s) msg = none) :
    logonState.FixMsgIn env s msg =
      ⟨(logonState.handleLogon env s msg).session, (logonState.handleLogon env s msg).calls,
       .inSession⟩ := by
  have hr : (logonState.handleLogon env s msg).ret = none := by rw [handleLogon_ret, hv]
  unfold logonState.FixMsgIn
  simp [hA, hr]

theorem wrap64_of_inInt64 (x : Int) (h : inInt64 x) : wrap64 x = x := by
  unfold inInt64 at h
  unfold wrap64
  norm_num at h ⊢
  omega

theorem seconds_of_bound (h : Int) (h1 : -9223372036 ≤ h) (h2 : h ≤ 9223372036) :
    time.seconds h = h * time.Second := by
  unfold time.seconds
  have e1 : wrap64 h = h := wrap64_of_inInt64 h (by unfold inInt64; norm_num; omega)
  rw [e1]
  apply wrap64_of_inInt64
  unfold inInt64 time.Second
  norm_num
  omega

theorem targetCheck_heartBeatTimeout (env : Env) (hf : env.keepsHeartBeatTimeout)
    (s : session) (msg : Message) :
    (targetCheck env s msg).1.heartBeatTimeout = s.heartBeatTimeout := by
  unfold targetCheck
  split
  · exact hf.2.2 _ _
  · rfl

theorem targetCheck_calls_not_send (env : Env) (s : session) (msg : Message) :
    ∀ c ∈ (targetCheck env s msg).2, c.isSend = false := by
  unfold targetCheck
  split <;> simp [Call.isSend]

theorem targetCheck_calls_not_OnLogon (env : Env) (s : session) (msg : Message) :
    ∀ c ∈ (targetCheck env s msg).2, c.isOnLogon = false := by
  unfold targetCheck
  split <;> simp [Call.isOnLogon]

theorem handleLogon_final_heartBeatTimeout (env : Env) (hf : env.keepsHeartBeatTimeout)
    (s : session) (msg : Message)
    (hv : env.verifyIgnoreSeqNumTooHigh (resetOnLogon s) msg = none) :
    (logonState.handleLogon env s msg).session.heartBeatTimeout =
      (logonReply (resetOnLogon s) msg).1.heartBeatTimeout := by
  rw [handleLogon_accept env s msg hv]
  simp only []
  rw [targetCheck_heartBeatTimeout env hf]
  unfold sessionAtTargetCheck
  simp only []
  rw [hf.2.1, hf.1]

theorem logonReply_ID (s : session) (msg : Message) : (logonReply s msg).1.ID = s.ID := by
  unfold logonReply
  cases msg.Body.IntValue tag.HeartBtInt <;> rfl

/-- C2 (counterexample): a Logon from CLIENT with MsgSeqNum 8 passes verification and the
target check reports `TargetTooHigh`, yet `FixMsgIn` returns `inSession`, not the resend
state. -/
theorem logon_targetTooHigh_not_resend :
    (exampleLogon 8 30).Header.StringValue tag.MsgType = some "A" ∧
    exampleEnv.verifyIgnoreSeqNumTooHigh (resetOnLogon exampleSession) (exampleLogon 8 30) = none ∧
    exampleEnv.checkTargetTooHigh
        (sessionAtTargetCheck exampleEnv exampleSession (exampleLogon 8 30)) (exampleLogon 8 30)
      = some (.TargetTooHigh "MsgSeqNum too high") ∧
    (logonState.FixMsgIn exampleEnv exampleSession (exampleLogon 8 30)).ret = state.inSession ∧
    (logonState.FixMsgIn exampleEnv exampleSession (exampleLogon 8 30)).ret ≠ state.resendState := by
  decide

/-- C2 (amended): for every Logon that passes `verifyIgnoreSeqNumTooHigh` and for which
`checkTargetTooHigh` reports `TargetTooHigh`, the logon state calls
`session.DoTargetTooHigh` with that error as its last call, after the reply and `OnLogon`,
and the next state returned by `FixMsgIn` is `inSession`. -/
theorem logon_targetTooHigh_inSession (env : Env) (s : session) (msg : Message) (t : String)
    (hA : msg.Header.StringValue tag.MsgType = some "A")
    (hv : env.verifyIgnoreSeqNumTooHigh (resetOnLogon s) msg = none)
    (hc : env.checkTargetTooHigh (sessionAtTargetCheck env s msg) msg = some (.TargetTooHigh t)) :
    (logonState.FixMsgIn env s msg).calls =
      [.OnEvent "Received logon request",
       .send (logonReply (resetOnLogon s) msg).1 (logonReply (resetOnLogon s) msg).2,
       .OnEvent "Responding to logon request",
       .OnLogon (env.send (logonReply (resetOnLogon s) msg).1
                   (logonReply (resetOnLogon s) msg).2).ID,
       .DoTargetTooHigh (.TargetTooHigh t)] ∧
    (logonState.FixMsgIn env s msg).ret = state.inSession ∧
    (logonState.FixMsgIn env s msg).session =
      { env.DoTargetTooHigh (sessionAtTargetCheck env s msg) (.TargetTooHigh t) with
        expectedSeqNum :=
          wrap64 ((env.DoTargetTooHigh (sessionAtTargetCheck env s msg)
                    (.TargetTooHigh t)).expectedSeqNum + 1) } := by
  have htc : targetCheck env (sessionAtTargetCheck env s msg) msg =
      (env.DoTargetTooHigh (sessionAtTargetCheck env s msg) (.TargetTooHigh t),
       [.DoTargetTooHigh (.TargetTooHigh t)]) := by
    unfold targetCheck
    rw [hc]
  rw [FixMsgIn_accept env s msg hA hv, handleLogon_accept env s msg hv, htc]
  simp

/-- Witness of `logon_targetTooHigh_inSession`: the Logon with MsgSeqNum 8. -/
theorem logon_targetTooHigh_inSession_witness :
    (logonState.FixMsgIn exampleEnv exampleSession (exampleLogon 8 30)).calls =
      [.OnEvent "Received logon request",
       .send (logonReply (resetOnLogon exampleSession) (exampleLogon 8 30)).1
         (logonReply (resetOnLogon exampleSession) (exampleLogon 8 30)).2,
       .OnEvent "Responding to logon request",
       .OnLogon (exampleEnv.send (logonReply (resetOnLogon exampleSession) (exampleLogon 8 30)).1
                   (logonReply (resetOnLogon exampleSession) (exampleLogon 8 30)).2).ID,
       .DoTargetTooHigh (.TargetTooHigh "MsgSeqNum too high")] ∧
    (logonState.FixMsgIn exampleEnv exampleSession (exampleLogon 8 30)).ret = state.inSession ∧
    (logonState.FixMsgIn exampleEnv exampleSession (exampleLogon 8 30)).session =
      { exampleEnv.DoTargetTooHigh
          (sessionAtTargetCheck exampleEnv exampleSession (exampleLogon 8 30))
          (.TargetTooHigh "MsgSeqNum too high") with
        expectedSeqNum :=
          wrap64 ((exampleEnv.DoTargetTooHigh
                    (sessionAtTargetCheck exampleEnv exampleSession (exampleLogon 8 30))
                    (.TargetTooHigh "MsgSeqNum too high")).expectedSeqNum + 1) } :=
  logon_targetTooHigh_inSession exampleEnv exampleSession (exampleLogon 8 30)
    "MsgSeqNum too high" (by decide) (by decide) (by decide)

/-- C3: for every session, whatever its counters, and every Logon accepted by
`verifyIgnoreSeqNumTooHigh`, `handleLogon` returns nil and leaves `expectedSeqNum` equal
to 2, provided `send`, `OnLogon` and `DoTargetTooHigh` do not modify `expectedSeqNum`. -/
theorem handleLogon_expectedSeqNum (env : Env) (s : session) (msg : Message)
    (hsend : ∀ s m, (env.send s m).expectedSeqNum = s.expectedSeqNum)
    (hOnLogon : ∀ s i, (env.OnLogon s i).expectedSeqNum = s.expectedSeqNum)
    (hDo : ∀ s e, (env.DoTargetTooHigh s e).expectedSeqNum = s.expectedSeqNum)
    (hv : env.verifyIgnoreSeqNumTooHigh (resetOnLogon s) msg = none) :
    (logonState.handleLogon env s msg).ret = none ∧
    (logonState.handleLogon env s msg).session.expectedSeqNum = 2 := by
  have hreply : (logonReply (resetOnLogon s) msg).1.expectedSeqNum = 1 := by
    unfold logonReply
    cases msg.Body.IntValue tag.HeartBtInt <;> rfl
  have hat : (sessionAtTargetCheck env s msg).expectedSeqNum = 1 := by
    unfold sessionAtTargetCheck
    simp only []
    rw [hOnLogon, hsend, hreply]
  have htc : (targetCheck env (sessionAtTargetCheck env s msg) msg).1.expectedSeqNum = 1 := by
    unfold targetCheck
    split
    · rw [hDo, hat]
    · exact hat
  rw [handleLogon_accept env s msg hv]
  refine ⟨rfl, ?_⟩
  simp only []
  rw [htc]
  decide

/-- Witness of `handleLogon_expectedSeqNum`: scenario S1, an inbound Logon with 34=1 on a
session whose counters were 5 and 7. -/
theorem handleLogon_expectedSeqNum_witness :
    exampleSession.expectedSeqNum = 5 ∧
    (logonState.handleLogon exampleEnv exampleSession (exampleLogon 1 30)).ret = none ∧
    (logonState.handleLogon exampleEnv exampleSession (exampleLogon 1 30)).session.expectedSeqNum
      = 2 :=
  ⟨rfl, handleLogon_expectedSeqNum exampleEnv exampleSession (exampleLogon 1 30)
    (fun _ _ => rfl) (fun _ _ => rfl) (fun _ _ => rfl) (by decide)⟩

theorem logonReply_header (s : session) (msg : Message) :
    (logonReply s msg).2.Header.lookup tag.MsgType = some (.str "A") ∧
    (logonReply s msg).2.Header.lookup tag.BeginString = some (.str s.ID.BeginString) ∧
    (logonReply s msg).2.Header.lookup tag.SenderCompID = some (.str s.ID.SenderCompID) ∧
    (logonReply s msg).2.Header.lookup tag.TargetCompID = some (.str s.ID.TargetCompID) ∧
    (logonReply s msg).2.Header.lookup tag.HeartBtInt = none ∧
    (logonReply s msg).2.Header.lookup tag.DefaultApplVerID = none := by
  unfold logonReply
  cases msg.Body.IntValue tag.HeartBtInt <;>
    by_cases hd : s.ID.DefaultApplVerID = "" <;>
    simp [hd, FieldMap.SetField, FieldMap.lookup, basic.NewMessage, basic.NewStringField,
      basic.NewIntField, tag.MsgType, tag.BeginString, tag.SenderCompID, tag.TargetCompID,
      tag.HeartBtInt, tag.DefaultApplVerID, tag.EncryptMethod]

theorem logonReply_body_some (s : session) (msg : Message) (h : Int)
    (hh : msg.Body.IntValue tag.HeartBtInt = some h) :
    (logonReply s msg).2.Body.lookup tag.EncryptMethod = some (.int 0) ∧
    (logonReply s msg).2.Body.lookup tag.HeartBtInt = some (.int h) ∧
    (logonReply s msg).2.Body.lookup tag.DefaultApplVerID = none ∧
    (logonReply s msg).1.heartBeatTimeout = time.seconds h := by
  unfold logonReply
  simp only [hh]
  by_cases hd : s.ID.DefaultApplVerID = "" <;>
    simp [hd, FieldMap.SetField, FieldMap.lookup, basic.NewMessage, basic.NewStringField,
      basic.NewIntField, tag.HeartBtInt, tag.DefaultApplVerID, tag.EncryptMethod]

theorem logonReply_body_none (s : session) (msg : Message)
    (hh : msg.Body.IntValue tag.HeartBtInt = none) :
    (logonReply s msg).2.Body.lookup tag.EncryptMethod = some (.int 0) ∧
    (logonReply s msg).2.Body.lookup tag.HeartBtInt = none ∧
    (logonReply s msg).2.Body.lookup tag.DefaultApplVerID = none ∧
    (logonReply s msg).1.heartBeatTimeout = s.heartBeatTimeout := by
  unfold logonReply
  simp only [hh]
  by_cases hd : s.ID.DefaultApplVerID = "" <;>
    simp [hd, FieldMap.SetField, FieldMap.lookup, basic.NewMessage, basic.NewStringField,
      basic.NewIntField, tag.HeartBtInt, tag.DefaultApplVerID, tag.EncryptMethod]

theorem logonReply_trailer (s : session) (msg : Message) :
    (logonReply s msg).2.Trailer.lookup tag.HeartBtInt = none ∧
    (s.ID.DefaultApplVerID ≠ "" →
      (logonReply s msg).2.Trailer.lookup tag.DefaultApplVerID
        = some (.str s.ID.DefaultApplVerID)) ∧
    (s.ID.DefaultApplVerID = "" →
      (logonReply s msg).2.Trailer.lookup tag.DefaultApplVerID = none) := by
  unfold logonReply
  cases msg.Body.IntValue tag.HeartBtInt <;>
    by_cases hd : s.ID.DefaultApplVerID = "" <;>
    simp [hd, FieldMap.SetField, FieldMap.lookup, basic.NewMessage, basic.NewStringField,
      basic.NewIntField, tag.HeartBtInt, tag.DefaultApplVerID, tag.EncryptMethod]

/-- C4 (counterexample): an accepted Logon whose body carries the integer HeartBtInt
9223372037; the product with `time.Second` wraps in `time.Duration`, and
`heartBeatTimeout` becomes a negative duration instead of 9223372037 seconds. -/
theorem handleLogon_heartBeatTimeout_wraps :
    (exampleLogon 1 9223372037).Body.IntValue tag.HeartBtInt = some 9223372037 ∧
    exampleEnv.verifyIgnoreSeqNumTooHigh (resetOnLogon exampleSession)
      (exampleLogon 1 9223372037) = none ∧
    (logonState.handleLogon exampleEnv exampleSession
      (exampleLogon 1 9223372037)).session.heartBeatTimeout = -9223372036709551616 ∧
    (logonState.handleLogon exampleEnv exampleSession
      (exampleLogon 1 9223372037)).session.heartBeatTimeout ≠ 9223372037 * time.Second := by
  decide

/-- C4 (amended): for every accepted Logon, the reply handed to `send` is a Logon
(MsgType "A") stamped with the session's BeginString, SenderCompID and TargetCompID and
EncryptMethod 0. When the body carries an integer HeartBtInt `h`, the reply carries
HeartBtInt `h`, and if `-9223372036 ≤ h ≤ 9223372036` the session's `heartBeatTimeout`
is `h` seconds when `send` is called and (the collaborators leaving it alone) when
`handleLogon` returns. When the body has no readable integer HeartBtInt the reply carries
no HeartBtInt and `heartBeatTimeout` is unchanged. The reply carries DefaultApplVerID
exactly when the session's DefaultApplVerID is non-empty. -/
theorem handleLogon_reply (env : Env) (s : session) (msg : Message)
    (hv : env.verifyIgnoreSeqNumTooHigh (resetOnLogon s) msg = none) :
    (∃ rest, (logonState.handleLogon env s msg).calls =
        .OnEvent "Received logon request" ::
        .send (logonReply (resetOnLogon s) msg).1 (logonReply (resetOnLogon s) msg).2 :: rest ∧
        ∀ c ∈ rest, c.isSend = false) ∧
    (logonReply (resetOnLogon s) msg).2.Header.lookup tag.MsgType = some (.str "A") ∧
    (logonReply (resetOnLogon s) msg).2.Header.lookup tag.BeginString
      = some (.str s.ID.BeginString) ∧
    (logonReply (resetOnLogon s) msg).2.Header.lookup tag.SenderCompID
      = some (.str s.ID.SenderCompID) ∧
    (logonReply (resetOnLogon s) msg).2.Header.lookup tag.TargetCompID
      = some (.str s.ID.TargetCompID) ∧
    (logonReply (resetOnLogon s) msg).2.Body.lookup tag.EncryptMethod = some (.int 0) ∧
    (∀ h, msg.Body.IntValue tag.HeartBtInt = some h →
      (logonReply (resetOnLogon s) msg).2.Body.lookup tag.HeartBtInt = some (.int h) ∧
      (-9223372036 ≤ h ∧ h ≤ 9223372036 →
        (logonReply (resetOnLogon s) msg).1.heartBeatTimeout = h * time.Second ∧
        (env.keepsHeartBeatTimeout →
          (logonState.handleLogon env s msg).session.heartBeatTimeout = h * time.Second))) ∧
    (msg.Body.IntValue tag.HeartBtInt = none →
      (logonReply (resetOnLogon s) msg).2.Header.lookup tag.HeartBtInt = none ∧
      (logonReply (resetOnLogon s) msg).2.Body.lookup tag.HeartBtInt = none ∧
      (logonReply (resetOnLogon s) msg).2.Trailer.lookup tag.HeartBtInt = none ∧
      (logonReply (resetOnLogon s) msg).1.heartBeatTimeout = s.heartBeatTimeout ∧
      (env.keepsHeartBeatTimeout →
        (logonState.handleLogon env s msg).session.heartBeatTimeout = s.heartBeatTimeout)) ∧
    (s.ID.DefaultApplVerID ≠ "" →
      (logonReply (resetOnLogon s) msg).2.Trailer.lookup tag.DefaultApplVerID
        = some (.str s.ID.DefaultApplVerID)) ∧
    (s.ID.DefaultApplVerID = "" →
      (logonReply (resetOnLogon s) msg).2.Header.lookup tag.DefaultApplVerID = none ∧
      (logonReply (resetOnLogon s) msg).2.Body.lookup tag.DefaultApplVerID = none ∧
      (logonReply (resetOnLogon s) msg).2.Trailer.lookup tag.DefaultApplVerID = none) := by
  have hH := logonReply_header (resetOnLogon s) msg
  have hT := logonReply_trailer (resetOnLogon s) msg
  have hID : (resetOnLogon s).ID = s.ID := rfl
  have hhb : (resetOnLogon s).heartBeatTimeout = s.heartBeatTimeout := rfl
  rw [hID] at hH hT
  refine ⟨?_, hH.1, hH.2.1, hH.2.2.1, hH.2.2.2.1, ?_, ?_, ?_, hT.2.1, ?_⟩
  · rw [handleLogon_accept env s msg hv]
    refine ⟨[Call.OnEvent "Responding to logon request",
        Call.OnLogon (env.send (logonReply (resetOnLogon s) msg).1
                    (logonReply (resetOnLogon s) msg).2).ID] ++
        (targetCheck env (sessionAtTargetCheck env s msg) msg).2, rfl, ?_⟩
    intro c hc
    rcases List.mem_append.mp hc with hc | hc
    · simp only [List.mem_cons] at hc
      rcases hc with hc | hc | hc
      · subst hc; rfl
      · subst hc; rfl
      · exact absurd hc (List.not_mem_nil c)
    · exact targetCheck_calls_not_send env _ msg c hc
  · cases hh : msg.Body.IntValue tag.HeartBtInt with
    | none => exact (logonReply_body_none _ msg hh).1
    | some h => exact (logonReply_body_some _ msg h hh).1
  · intro h hh
    have hB := logonReply_body_some (resetOnLogon s) msg h hh
    refine ⟨hB.2.1, ?_⟩
    intro hb
    have e := seconds_of_bound h hb.1 hb.2
    refine ⟨by rw [hB.2.2.2, e], ?_⟩
    intro hf
    rw [handleLogon_final_heartBeatTimeout env hf s msg hv, hB.2.2.2, e]
  · intro hh
    have hB := logonReply_body_none (resetOnLogon s) msg hh
    refine ⟨hH.2.2.2.2.1, hB.2.1, hT.1, by rw [hB.2.2.2, hhb], ?_⟩
    intro hf
    rw [handleLogon_final_heartBeatTimeout env hf s msg hv, hB.2.2.2, hhb]
  · intro hd
    refine ⟨hH.2.2.2.2.2, ?_, hT.2.2 hd⟩
    cases hh : msg.Body.IntValue tag.HeartBtInt with
    | none => exact (logonReply_body_none _ msg hh).2.2.1
    | some h => exact (logonReply_body_some _ msg h hh).2.2.1

/-- Witness of `handleLogon_reply`: scenario S1, HeartBtInt 30 is mirrored and the
heartbeat timeout becomes 30 seconds. -/
theorem handleLogon_reply_witness :
    (logonReply (resetOnLogon exampleSession) (exampleLogon 1 30)).2.Body.lookup tag.HeartBtInt
      = some (.int 30) ∧
    (logonReply (resetOnLogon exampleSession) (exampleLogon 1 30)).1.heartBeatTimeout
      = 30 * time.Second ∧
    (logonState.handleLogon exampleEnv exampleSession (exampleLogon 1 30)).session.heartBeatTimeout
      = 30 * time.Second :=
  have h := (handleLogon_reply exampleEnv exampleSession (exampleLogon 1 30) (by decide)).2.2.2.2.2.2.1
    30 (by decide)
  ⟨h.1, (h.2 (by decide)).1,
   (h.2 (by decide)).2 ⟨fun _ _ => rfl, fun _ _ => rfl, fun _ _ => rfl⟩⟩

/-- C5: for every Logon that passes `verifyIgnoreSeqNumTooHigh`, `handleLogon` invokes
`OnLogon(session.ID)` exactly once, after the reply has been handed to `session.send`;
when verification fails it returns the error and invokes neither `send` nor `OnLogon`. -/
theorem handleLogon_OnLogon_once (env : Env) (s : session) (msg : Message) :
    (env.verifyIgnoreSeqNumTooHigh (resetOnLogon s) msg = none →
      (∃ pre post, (logonState.handleLogon env s msg).calls =
          pre ++ Call.OnLogon (env.send (logonReply (resetOnLogon s) msg).1
                    (logonReply (resetOnLogon s) msg).2).ID :: post ∧
          Call.send (logonReply (resetOnLogon s) msg).1 (logonReply (resetOnLogon s) msg).2 ∈ pre ∧
          (∀ c ∈ pre, c.isOnLogon = false) ∧ (∀ c ∈ post, c.isOnLogon = false)) ∧
      ((logonState.handleLogon env s msg).calls.filter Call.isOnLogon).length = 1 ∧
      ((∀ s m, (env.send s m).ID = s.ID) →
        (env.send (logonReply (resetOnLogon s) msg).1
          (logonReply (resetOnLogon s) msg).2).ID = s.ID)) ∧
    (∀ err, env.verifyIgnoreSeqNumTooHigh (resetOnLogon s) msg = some err →
      (logonState.handleLogon env s msg).ret = some err ∧
      (logonState.handleLogon env s msg).calls = []) := by
  constructor
  · intro hv
    have hno := targetCheck_calls_not_OnLogon env (sessionAtTargetCheck env s msg) msg
    refine ⟨⟨[Call.OnEvent "Received logon request",
        Call.send (logonReply (resetOnLogon s) msg).1 (logonReply (resetOnLogon s) msg).2,
        Call.OnEvent "Responding to logon request"],
        (targetCheck env (sessionAtTargetCheck env s msg) msg).2, ?_, ?_, ?_, hno⟩, ?_, ?_⟩
    · rw [handleLogon_accept env s msg hv]
      rfl
    · simp
    · intro c hc
      simp only [List.mem_cons] at hc
      rcases hc with hc | hc | hc | hc
      · subst hc; rfl
      · subst hc; rfl
      · subst hc; rfl
      · exact absurd hc (List.not_mem_nil c)
    · rw [handleLogon_accept env s msg hv]
      have hnil : (targetCheck env (sessionAtTargetCheck env s msg) msg).2.filter Call.isOnLogon
          = [] := List.filter_eq_nil_iff.mpr (fun c hc => by simp [hno c hc])
      simp [List.filter_cons, Call.isOnLogon, hnil]
    · intro hs
      rw [hs, logonReply_ID]
      rfl
  · intro err hv
    rw [handleLogon_reject env s msg err hv]
    exact ⟨rfl, rfl⟩

/-- Witness of `handleLogon_OnLogon_once`: the S1 Logon fires `OnLogon` once, the Logon
of an unknown counterparty fires nothing. -/
theorem handleLogon_OnLogon_once_witness :
    ((logonState.handleLogon exampleEnv exampleSession (exampleLogon 1 30)).calls.filter
      Call.isOnLogon).length = 1 ∧
    (logonState.handleLogon exampleEnv exampleSession strangerLogon).calls = [] :=
  ⟨((handleLogon_OnLogon_once exampleEnv exampleSession (exampleLogon 1 30)).1 (by decide)).2.1,
   ((handleLogon_OnLogon_once exampleEnv exampleSession strangerLogon).2
      (.other "CompID problem") (by decide)).2⟩

/-- C6: for every session and timer event `e`, `logonState.Timeout` returns `latentState`
when `e` is `logonTimeout` and the logon state itself for every other event; the session
is not modified. -/
theorem logonState_Timeout_next (s : session) (e : event) :
    (logonState.Timeout s e).ret = (if e = event.logonTimeout then state.latentState
      else state.logonState) ∧
    (logonState.Timeout s e).session = s := by
  unfold logonState.Timeout
  by_cases h : e = event.logonTimeout <;> simp [h]

end session

/-! ## Theorems: trailer field order -/

namespace basic

theorem trailerFieldOrder_trans (i j k : tag.Tag)
    (hij : trailerFieldOrder i j = true) (hjk : trailerFieldOrder j k = true) :
    trailerFieldOrder i k = true := by
  unfold trailerFieldOrder at *
  by_cases hi : i = tag.CheckSum
  · simp [hi] at hij
  · by_cases hj : j = tag.CheckSum
    · simp [hj] at hjk
    · by_cases hk : k = tag.CheckSum
      · simp [hi, hk]
      · simp [hi, hj, hk] at hij hjk ⊢
        exact Int.lt_trans hij hjk

theorem trailerFieldOrder_checkSum_left (t : tag.Tag) :
    trailerFieldOrder tag.CheckSum t = false := by
  simp [trailerFieldOrder]

theorem trailerFieldOrder_pairwise (l : List tag.Tag)
    (hs : l.Chain' (fun i j => trailerFieldOrder i j = true)) :
    l.Pairwise (fun i j => trailerFieldOrder i j = true) := by
  haveI : IsTrans tag.Tag (fun i j => trailerFieldOrder i j = true) :=
    ⟨trailerFieldOrder_trans⟩
  exact List.chain'_iff_pairwise.mp hs

/-- C7: in every list of trailer tags arranged in the order given by `trailerFieldOrder`,
CheckSum (tag 10), if present, is the last element and the other tags appear in ascending
numeric order; for every tag `t` other than CheckSum, `trailerFieldOrder t CheckSum` is
true and `trailerFieldOrder CheckSum t` is false, and for tags `i`, `j` both different
from CheckSum, `trailerFieldOrder i j` holds iff `i < j`. -/
theorem trailerFieldOrder_checkSum_last (l : List tag.Tag)
    (hs : l.Chain' (fun i j => trailerFieldOrder i j = true)) :
    (tag.CheckSum ∈ l → l.getLast? = some tag.CheckSum) ∧
    (l.filter (fun t => decide (t ≠ tag.CheckSum))).Pairwise (fun i j => i < j) ∧
    l.Nodup ∧
    (∀ t, t ≠ tag.CheckSum →
      trailerFieldOrder t tag.CheckSum = true ∧ trailerFieldOrder tag.CheckSum t = false) ∧
    (∀ i j, i ≠ tag.CheckSum → j ≠ tag.CheckSum → (trailerFieldOrder i j = true ↔ i < j)) := by
  have hp := trailerFieldOrder_pairwise l hs
  refine ⟨?_, ?_, ?_, ?_, ?_⟩
  · intro hmem
    obtain ⟨l1, l2, rfl⟩ := List.append_of_mem hmem
    have h2 := (List.pairwise_append.mp hp).2.1
    cases l2 with
    | nil => simp
    | cons b l2 =>
      have hb := (List.pairwise_cons.mp h2).1 b (List.mem_cons_self b l2)
      rw [trailerFieldOrder_checkSum_left] at hb
      exact absurd hb (by decide)
  · refine (hp.filter _).imp_of_mem ?_
    intro a b ha hb hab
    have ha2 : a ≠ tag.CheckSum := by simpa using (List.mem_filter.mp ha).2
    have hb2 : b ≠ tag.CheckSum := by simpa using (List.mem_filter.mp hb).2
    unfold trailerFieldOrder at hab
    simpa [ha2, hb2] using hab
  · refine hp.imp ?_
    intro a b hab hEq
    subst hEq
    unfold trailerFieldOrder at hab
    by_cases ha : a = tag.CheckSum <;> simp [ha] at hab
  · intro t ht
    simp [trailerFieldOrder, ht]
  · intro i j hi hj
    simp [trailerFieldOrder, hi, hj]

/-- Witness of `trailerFieldOrder_checkSum_last`: Signature (89), SignatureLength (93)
and CheckSum (10) in trailer order. -/
theorem trailerFieldOrder_checkSum_last_witness :
    ([89, 93, 10] : List tag.Tag).getLast? = some tag.CheckSum ∧
    (([89, 93, 10] : List tag.Tag).filter (fun t => decide (t ≠ tag.CheckSum))).Pairwise
      (fun i j => i < j) :=
  have h := trailerFieldOrder_checkSum_last [89, 93, 10] (by simp [trailerFieldOrder, tag.CheckSum])
  ⟨h.1 (by decide), h.2.1⟩

end basic

/-! ## Theorems: session state machine -/

namespace quickfix

variable {σ : Type}

theorem Adds.nothing (s : session σ) : Adds s s [] := ⟨[], by simp, rfl⟩

theorem Adds.of_eq {s s' : session σ} (h : s'.calls = s.calls) : Adds s s' [] :=
  ⟨[], by simp [h], rfl⟩

theorem Adds.andThen {s s1 s2 : session σ} {X Y : List Call}
    (h1 : Adds s s1 X) (h2 : Adds s1 s2 Y) : Adds s s2 (X ++ Y) := by
  obtain ⟨n1, e1, f1⟩ := h1
  obtain ⟨n2, e2, f2⟩ := h2
  exact ⟨n1 ++ n2, by rw [e2, e1, List.append_assoc], by rw [List.filter_append, f1, f2]⟩

theorem Adds.call_tracked (s : session σ) (c : Call) (h : c.tracked = true) :
    Adds s (s.call c) [c] :=
  ⟨[c], rfl, by simp [List.filter, h]⟩

theorem Adds.call_untracked (s : session σ) (c : Call) (h : c.tracked = false) :
    Adds s (s.call c) [] :=
  ⟨[c], rfl, by simp [List.filter, h]⟩

theorem Keeps.same (s : session σ) : Keeps s s := ⟨rfl, rfl, rfl⟩

theorem Keeps.andKeeps {s s1 s2 : session σ} (h1 : Keeps s s1) (h2 : Keeps s1 s2) : Keeps s s2 :=
  ⟨h2.1.trans h1.1, h2.2.1.trans h1.2.1, h2.2.2.trans h1.2.2⟩

theorem Keeps.call (s : session σ) (c : Call) : Keeps s (s.call c) := ⟨rfl, rfl, rfl⟩

theorem loggedOn_ShutdownNow_spec (env : Env σ) (s : session σ) :
    Keeps s (loggedOn.ShutdownNow env s) ∧ Adds s (loggedOn.ShutdownNow env s) [] := by
  unfold loggedOn.ShutdownNow
  cases h : (env.sendLogout s.world "").2 with
  | none =>
    simp only [h]
    exact ⟨⟨rfl, rfl, rfl⟩, ⟨[.sendLogout ""], rfl, rfl⟩⟩
  | some err =>
    simp only [h]
    exact ⟨⟨rfl, rfl, rfl⟩,
      ⟨[.sendLogout "", .logError "sendLogout failed" err],
        by simp [session.logError, session.call], rfl⟩⟩

theorem ShutdownNow_spec (env : Env σ) (st : sessionState) (s : session σ) :
    Keeps s (st.ShutdownNow env s) ∧ Adds s (st.ShutdownNow env s) [.ShutdownNow st] := by
  have h0 : Adds s (s.call (.ShutdownNow st)) [.ShutdownNow st] :=
    Adds.call_tracked s _ rfl
  unfold sessionState.ShutdownNow
  cases st.mixin with
  | loggedOn =>
    have h := loggedOn_ShutdownNow_spec env (s.call (.ShutdownNow st))
    exact ⟨(Keeps.call s _).andKeeps h.1, by simpa using h0.andThen h.2⟩
  | connectedNotLoggedOn => exact ⟨Keeps.call s _, h0⟩
  | inSessionTime => exact ⟨⟨rfl, rfl, rfl⟩, h0⟩
  | none => exact ⟨⟨rfl, rfl, rfl⟩, h0⟩

theorem handleDisconnectState_spec (env : Env σ) (s : session σ) :
    Keeps s (stateMachine.handleDisconnectState env s) ∧
    Adds s (stateMachine.handleDisconnectState env s) [] := by
  unfold stateMachine.handleDisconnectState
  cases h : stateMachine.doOnLogout s with
  | true =>
    simp only [h, if_true]
    exact ⟨⟨rfl, rfl, rfl⟩, ⟨[.OnLogout, .onDisconnect], by simp [session.call], rfl⟩⟩
  | false =>
    simp only [h]
    exact ⟨⟨rfl, rfl, rfl⟩, ⟨[.onDisconnect], rfl, rfl⟩⟩

theorem notifyInSessionTime_spec (s : session σ) :
    (stateMachine.notifyInSessionTime s).stateMachine =
      { s.stateMachine with notifyOnInSessionTime := none } ∧
    (stateMachine.notifyInSessionTime s).chans = s.chans ∧
    (stateMachine.notifyInSessionTime s).world = s.world ∧
    (stateMachine.notifyInSessionTime s).InitiateLogon = s.InitiateLogon ∧
    Adds s (stateMachine.notifyInSessionTime s) (closeCalls s.stateMachine.notifyOnInSessionTime) := by
  unfold stateMachine.notifyInSessionTime
  cases h : s.stateMachine.notifyOnInSessionTime with
  | none => exact ⟨rfl, rfl, rfl, rfl, Adds.nothing s⟩
  | some c => exact ⟨rfl, rfl, rfl, rfl, Adds.call_tracked s _ rfl⟩

theorem forceStop_spec (s : session σ) :
    (stateMachine.forceStop s).stateMachine =
      { s.stateMachine with stopped := true, notifyOnInSessionTime := none } ∧
    (stateMachine.forceStop s).chans = s.chans ∧
    (stateMachine.forceStop s).world = s.world ∧
    Adds s (stateMachine.forceStop s) (closeCalls s.stateMachine.notifyOnInSessionTime) := by
  unfold stateMachine.forceStop
  have h := notifyInSessionTime_spec
    ({ s with stateMachine := { s.stateMachine with stopped := true } } : session σ)
  refine ⟨h.1, h.2.1, h.2.2.1, ?_⟩
  obtain ⟨new, e, f⟩ := h.2.2.2.2
  exact ⟨new, e, f⟩

theorem leaveConnected_spec (env : Env σ) (s : session σ) (next : sessionState) :
    (stateMachine.leaveConnected env s next).stateMachine =
      { s.stateMachine with
        stopped := s.stateMachine.stopped || s.stateMachine.stopping next,
        notifyOnInSessionTime :=
          if s.stateMachine.stopping next then none
          else s.stateMachine.notifyOnInSessionTime } ∧
    (stateMachine.leaveConnected env s next).chans = s.chans ∧
    Adds s (stateMachine.leaveConnected env s next)
      (if s.stateMachine.stopping next then closeCalls s.stateMachine.notifyOnInSessionTime
       else []) ∧
    (s.stateMachine.IsConnected = false ∨ next.IsConnected = true →
      (stateMachine.leaveConnected env s next).world = s.world) := by
  unfold stateMachine.leaveConnected stateMachine.stopping
  cases hn : next.IsConnected with
  | true =>
    simp only [Bool.not_true, Bool.false_and, Bool.or_false]
    exact ⟨rfl, rfl, Adds.nothing s, fun _ => rfl⟩
  | false =>
    simp only [Bool.not_false, Bool.true_and, if_true]
    have key : ∀ s1 : session σ, Keeps s s1 → Adds s s1 [] →
        (if s1.stateMachine.pendingStop = true then stateMachine.forceStop s1 else s1).stateMachine =
          { s.stateMachine with
            stopped := s.stateMachine.stopped || s.stateMachine.pendingStop,
            notifyOnInSessionTime :=
              if s.stateMachine.pendingStop = true then none
              else s.stateMachine.notifyOnInSessionTime } ∧
        (if s1.stateMachine.pendingStop = true then stateMachine.forceStop s1 else s1).chans
          = s.chans ∧
        Adds s (if s1.stateMachine.pendingStop = true then stateMachine.forceStop s1 else s1)
          (if s.stateMachine.pendingStop = true then
            closeCalls s.stateMachine.notifyOnInSessionTime else []) ∧
        (if s1.stateMachine.pendingStop = true then stateMachine.forceStop s1 else s1).world
          = s1.world := by
      intro s1 hk ha
      have hf := forceStop_spec s1
      rw [hk.1]
      cases hp : s.stateMachine.pendingStop with
      | false =>
        simp only [Bool.false_eq_true, if_false, Bool.or_false]
        exact ⟨hk.1, hk.2.1, ha, trivial⟩
      | true =>
        simp only [if_true, Bool.or_true]
        refine ⟨?_, ?_, ?_, hf.2.2.1⟩
        · rw [hf.1, hk.1]
        · rw [hf.2.1, hk.2.1]
        · have := ha.andThen hf.2.2.2
          rw [hk.1] at this
          simpa using this
    cases hc : s.stateMachine.IsConnected with
    | false =>
      simp only [Bool.false_eq_true, if_false]
      have k := key s (Keeps.same s) (Adds.nothing s)
      exact ⟨k.1, k.2.1, k.2.2.1, fun _ => k.2.2.2⟩
    | true =>
      simp only [if_true]
      have hd := handleDisconnectState_spec env s
      have k := key _ hd.1 hd.2
      refine ⟨k.1, k.2.1, k.2.2.1, ?_⟩
      intro h
      rcases h with h | h <;> exact absurd h (by simp)

theorem setState_spec (env : Env σ) (s : session σ) (next cur : sessionState)
    (hst : s.stateMachine.State = some cur) :
    ∃ s', stateMachine.setState env s next = some s' ∧
      s'.stateMachine =
        { s.stateMachine with
          State := some next,
          stopped := s.stateMachine.stopped || s.stateMachine.stopping next,
          notifyOnInSessionTime :=
            if s.stateMachine.stopping next then none
            else s.stateMachine.notifyOnInSessionTime } ∧
      s'.chans = s.chans ∧
      Adds s s'
        (if s.stateMachine.stopping next then closeCalls s.stateMachine.notifyOnInSessionTime
         else []) ∧
      (s.stateMachine.IsConnected = false ∨ next.IsConnected = true → s'.world = s.world) := by
  have h := leaveConnected_spec env s next
  have hS : (stateMachine.leaveConnected env s next).stateMachine.State = some cur := by
    rw [h.1]; exact hst
  unfold stateMachine.setState
  simp only [hS]
  split
  · refine ⟨_, rfl, ?_, h.2.1, ?_, h.2.2.2⟩
    · simp only [session.call]
      rw [h.1]
    · have := h.2.2.1.andThen (Adds.call_untracked (stateMachine.leaveConnected env s next)
        (.OnEventParams "change state" (env.String cur) (env.String next)) rfl)
      simpa using this
  · refine ⟨_, rfl, ?_, h.2.1, h.2.2.1, h.2.2.2⟩
    rw [h.1]

theorem ensureNotify_spec (s : session σ) :
    (stateMachine.ensureNotify s).stateMachine =
      { s.stateMachine with
        notifyOnInSessionTime := some (s.stateMachine.notifyOnInSessionTime.getD s.chans) } ∧
    Adds s (stateMachine.ensureNotify s)
      (if s.stateMachine.notifyOnInSessionTime = none then [.make s.chans] else []) := by
  unfold stateMachine.ensureNotify
  cases h : s.stateMachine.notifyOnInSessionTime with
  | none => exact ⟨rfl, Adds.call_tracked s _ rfl⟩
  | some c =>
    refine ⟨?_, by simpa using Adds.nothing s⟩
    simp only [Option.getD_some]
    rw [← h]

theorem not_sessionTime_not_connected (st : sessionState) (h : st.IsSessionTime = false) :
    st.IsConnected = false := by
  cases st <;> simp_all [sessionState.IsSessionTime, sessionState.IsConnected,
    sessionState.mixin, connected.IsSessionTime, inSessionTime.IsSessionTime]

theorem filter_tracked (p : Call → Bool) (hp : ∀ c, p c = true → c.tracked = true)
    (l : List Call) : l.filter p = (l.filter Call.tracked).filter p := by
  rw [List.filter_filter]
  apply List.filter_congr
  intro c _
  cases h : p c
  · simp
  · simp [hp c h]

theorem tracked_of_isShutdownNow (c : Call) (h : c.isShutdownNow = true) : c.tracked = true := by
  simp [Call.tracked, h]

theorem tracked_of_isStoreCall (c : Call) (h : c.isStoreCall = true) : c.tracked = true := by
  simp [Call.tracked, h]

theorem tracked_of_isChanCall (c : Call) (h : c.isChanCall = true) : c.tracked = true := by
  simp [Call.tracked, h]

/-- Out of range: the outcome of `CheckSessionTime` and its tracked calls. -/
theorem CheckSessionTime_notInRange_spec (env : Env σ) (s : session σ) (now : Time)
    (st : sessionState) (hst : s.stateMachine.State = some st)
    (hr : env.IsInRange now = false) :
    ∃ s', stateMachine.CheckSessionTime env s now = some s' ∧
      s'.stateMachine =
        { s.stateMachine with
          State := some .notSessionTime,
          stopped := s.stateMachine.stopped || s.stateMachine.pendingStop,
          notifyOnInSessionTime :=
            some ((if s.stateMachine.pendingStop then none
                   else s.stateMachine.notifyOnInSessionTime).getD s.chans) } ∧
      Adds s s'
        (.ShutdownNow st ::
          ((if s.stateMachine.pendingStop then closeCalls s.stateMachine.notifyOnInSessionTime
            else []) ++
           (if (if s.stateMachine.pendingStop then none
                else s.stateMachine.notifyOnInSessionTime) = none
            then [.make s.chans] else []))) := by
  have h0 : ∃ s0 : session σ,
      (if s.stateMachine.IsSessionTime = true then s.call (.OnEvent "Not in session") else s) = s0 ∧
      Keeps s s0 ∧ Adds s s0 [] := by
    cases s.stateMachine.IsSessionTime
    · exact ⟨s, by simp, Keeps.same s, Adds.nothing s⟩
    · exact ⟨s.call (.OnEvent "Not in session"), by simp, Keeps.call s _,
        Adds.call_untracked s _ rfl⟩
  obtain ⟨s0, e0, k0, a0⟩ := h0
  have h1 := ShutdownNow_spec env st s0
  have hst1 : (st.ShutdownNow env s0).stateMachine.State = some st := by
    rw [h1.1.1, k0.1]; exact hst
  obtain ⟨s2, e2, m2, c2, a2, _⟩ := setState_spec env (st.ShutdownNow env s0) .notSessionTime st hst1
  have h3 := ensureNotify_spec s2
  have hstop : ∀ sm : stateMachine, sm.stopping .notSessionTime = sm.pendingStop := by
    intro sm; rfl
  rw [hstop, h1.1.1, k0.1] at m2
  rw [hstop, h1.1.1, k0.1] at a2
  refine ⟨stateMachine.ensureNotify s2, ?_, ?_, ?_⟩
  · unfold stateMachine.CheckSessionTime
    simp only [hr, Bool.not_false, if_true, e0]
    have hs0 : s0.stateMachine.State = some st := by rw [k0.1]; exact hst
    simp only [hs0, e2]
  · have hc : s2.chans = s.chans := by rw [c2, h1.1.2.1, k0.2.1]
    rw [h3.1, m2, hc]
  · have hc : s2.chans = s.chans := by rw [c2, h1.1.2.1, k0.2.1]
    have hn : s2.stateMachine.notifyOnInSessionTime =
        (if s.stateMachine.pendingStop then none
         else s.stateMachine.notifyOnInSessionTime) := by rw [m2]
    have a3 := h3.2
    rw [hn, hc] at a3
    have := ((a0.andThen h1.2).andThen a2).andThen a3
    simpa using this

/-- C8 (amended): for every state machine with a current state `st` and every instant
`now` that is not in range, `CheckSessionTime` calls `ShutdownNow` on `st` (once, and on no
other state), leaves the current state equal to `notSessionTime`, leaves
`notifyOnInSessionTime` non-nil, and makes no call to the store's `CreationTime` or to
`dropAndReset`. The channel is made when the field is nil at the test of line 116, which
is not only when it was nil on entry: a channel that is there on entry is kept, and none is
made, when no stop is pending; with no channel on entry one is made; and with a pending
stop a channel that is there on entry is closed and cleared by `forceStop`, and a new one
is made. -/
theorem CheckSessionTime_not_in_range (env : Env σ) (s : session σ) (now : Time)
    (st : sessionState) (hst : s.stateMachine.State = some st)
    (hr : env.IsInRange now = false) :
    ∃ s' new, stateMachine.CheckSessionTime env s now = some s' ∧
      s'.calls = s.calls ++ new ∧
      new.filter Call.isShutdownNow = [.ShutdownNow st] ∧
      s'.stateMachine.State = some .notSessionTime ∧
      s'.stateMachine.notifyOnInSessionTime ≠ none ∧
      new.filter Call.isStoreCall = [] ∧
      (∀ c, s.stateMachine.notifyOnInSessionTime = some c →
        s.stateMachine.pendingStop = false →
        s'.stateMachine.notifyOnInSessionTime = some c ∧ new.filter Call.isChanCall = []) ∧
      (s.stateMachine.notifyOnInSessionTime = none →
        s'.stateMachine.notifyOnInSessionTime = some s.chans ∧
        new.filter Call.isChanCall = [.make s.chans]) ∧
      (∀ c, s.stateMachine.notifyOnInSessionTime = some c →
        s.stateMachine.pendingStop = true →
        s'.stateMachine.notifyOnInSessionTime = some s.chans ∧
        new.filter Call.isChanCall = [.close c, .make s.chans]) := by
  obtain ⟨s', e, m, new, hc, hf⟩ := CheckSessionTime_notInRange_spec env s now st hst hr
  refine ⟨s', new, e, hc, ?_, ?_, ?_, ?_, ?_, ?_, ?_⟩
  · rw [filter_tracked _ tracked_of_isShutdownNow, hf]
    cases s.stateMachine.pendingStop <;> cases s.stateMachine.notifyOnInSessionTime <;>
      simp [closeCalls, Call.isShutdownNow]
  · rw [m]
  · rw [m]; simp
  · rw [filter_tracked _ tracked_of_isStoreCall, hf]
    cases s.stateMachine.pendingStop <;> cases s.stateMachine.notifyOnInSessionTime <;>
      simp [closeCalls, Call.isStoreCall]
  · intro c hn hp
    rw [filter_tracked _ tracked_of_isChanCall, hf, m]
    simp [hn, hp, Call.isChanCall]
  · intro hn
    rw [filter_tracked _ tracked_of_isChanCall, hf, m]
    cases s.stateMachine.pendingStop <;> simp [hn, closeCalls, Call.isChanCall]
  · intro c hn hp
    rw [filter_tracked _ tracked_of_isChanCall, hf, m]
    simp [hn, hp, closeCalls, Call.isChanCall]

/-- Witness of `CheckSessionTime_not_in_range`: a logged-on session with the notification
channel 0, checked at hour 20, outside the window; first with no stop pending (the channel
is kept), then with a stop pending (the channel is closed and channel 1 is made). -/
theorem CheckSessionTime_not_in_range_witness :
    (∃ s' new, stateMachine.CheckSessionTime exampleEnv
        (exampleSession .inSession false (some 0)) 20 = some s' ∧
      s'.calls = (exampleSession .inSession false (some 0)).calls ++ new ∧
      new.filter Call.isShutdownNow = [.ShutdownNow .inSession] ∧
      s'.stateMachine.State = some .notSessionTime ∧
      s'.stateMachine.notifyOnInSessionTime = some 0 ∧
      new.filter Call.isStoreCall = [] ∧
      new.filter Call.isChanCall = []) ∧
    (∃ s' new, stateMachine.CheckSessionTime exampleEnv
        (exampleSession .inSession true (some 0)) 20 = some s' ∧
      s'.calls = (exampleSession .inSession true (some 0)).calls ++ new ∧
      new.filter Call.isShutdownNow = [.ShutdownNow .inSession] ∧
      s'.stateMachine.State = some .notSessionTime ∧
      s'.stateMachine.notifyOnInSessionTime = some 1 ∧
      new.filter Call.isStoreCall = [] ∧
      new.filter Call.isChanCall = [.close 0, .make 1]) := by
  obtain ⟨s', new, h⟩ := CheckSessionTime_not_in_range exampleEnv
    (exampleSession .inSession false (some 0)) 20 .inSession rfl (by decide)
  obtain ⟨t', new', g⟩ := CheckSessionTime_not_in_range exampleEnv
    (exampleSession .inSession true (some 0)) 20 .inSession rfl (by decide)
  exact ⟨⟨s', new, h.1, h.2.1, h.2.2.1, h.2.2.2.1, (h.2.2.2.2.2.2.1 0 rfl rfl).1,
      h.2.2.2.2.2.1, (h.2.2.2.2.2.2.1 0 rfl rfl).2⟩,
    ⟨t', new', g.1, g.2.1, g.2.2.1, g.2.2.2.1, (g.2.2.2.2.2.2.2.2 0 rfl rfl).1,
      g.2.2.2.2.2.1, (g.2.2.2.2.2.2.2.2 0 rfl rfl).2⟩⟩

/-- C8 (counterexample): the claim has a channel made only if the field was nil. A
logged-on session whose stop is pending and whose notification channel is 0, not nil, is
checked at hour 20, outside the window. `setState` runs `forceStop`, which closes channel
0 and clears the field, and line 116 then makes channel 1: a channel is made although the
field was not nil on entry. -/
theorem CheckSessionTime_not_in_range_makes_channel :
    (exampleSession .inSession true (some 0)).stateMachine.State = some .inSession ∧
    exampleEnv.IsInRange 20 = false ∧
    (exampleSession .inSession true (some 0)).stateMachine.notifyOnInSessionTime = some 0 ∧
    ∃ s', stateMachine.CheckSessionTime exampleEnv
        (exampleSession .inSession true (some 0)) 20 = some s' ∧
      s'.calls =
        [.OnEvent "Not in session", .ShutdownNow .inSession, .sendLogout "", .OnLogout,
         .onDisconnect, .close 0,
         .OnEventParams "change state" "In Session" "Not session time", .make 1] ∧
      s'.calls.filter Call.isChanCall = [.close 0, .make 1] ∧
      s'.stateMachine.notifyOnInSessionTime = some 1 :=
  ⟨rfl, by decide, rfl, _, rfl, by decide, by decide, by decide⟩

theorem stopping_latentState (sm : stateMachine) :
    sm.stopping .latentState = sm.pendingStop := rfl

/-- Lines 128-135: the outcome of the reset step and its tracked calls. -/
theorem checkReset_spec (env : Env σ) (s : session σ) (now : Time) (cur : sessionState)
    (hst : s.stateMachine.State = some cur) :
    (env.IsInSameRange (env.CreationTime s.world) now = true →
      stateMachine.checkReset env s now = some (s.call .CreationTime)) ∧
    (env.IsInSameRange (env.CreationTime s.world) now = false →
      ∃ s', stateMachine.checkReset env s now = some s' ∧
        s'.stateMachine =
          { s.stateMachine with
            State := some .latentState,
            stopped := s.stateMachine.stopped || s.stateMachine.pendingStop,
            notifyOnInSessionTime :=
              if s.stateMachine.pendingStop then none
              else s.stateMachine.notifyOnInSessionTime } ∧
        Adds s s'
          ([.CreationTime, .ShutdownNow cur, .dropAndReset] ++
            (if s.stateMachine.pendingStop then closeCalls s.stateMachine.notifyOnInSessionTime
             else []))) := by
  constructor
  · intro h
    unfold stateMachine.checkReset
    have h' : env.IsInSameRange (env.CreationTime (s.call Call.CreationTime).world) now = true := h
    simp only [h', Bool.not_true, Bool.false_eq_true, if_false]
  · intro h
    have h' : env.IsInSameRange (env.CreationTime (s.call Call.CreationTime).world) now = false := h
    have a1 : Adds s ((s.call .CreationTime).call (.OnEvent "Session reset")) [.CreationTime] := by
      simpa using (Adds.call_tracked s .CreationTime rfl).andThen
        (Adds.call_untracked (s.call .CreationTime) (.OnEvent "Session reset") rfl)
    have hs := ShutdownNow_spec env cur ((s.call .CreationTime).call (.OnEvent "Session reset"))
    have hd : ∃ s4 : session σ,
        (match (env.dropAndReset
            (cur.ShutdownNow env ((s.call .CreationTime).call (.OnEvent "Session reset"))).world).2 with
          | some err =>
            session.logError
              { (cur.ShutdownNow env ((s.call .CreationTime).call
                  (.OnEvent "Session reset"))).call .dropAndReset with
                world := (env.dropAndReset (cur.ShutdownNow env ((s.call .CreationTime).call
                  (.OnEvent "Session reset"))).world).1 }
              "dropAndReset failed" err
          | none =>
              { (cur.ShutdownNow env ((s.call .CreationTime).call
                  (.OnEvent "Session reset"))).call .dropAndReset with
                world := (env.dropAndReset (cur.ShutdownNow env ((s.call .CreationTime).call
                  (.OnEvent "Session reset"))).world).1 }) = s4 ∧
        Keeps (cur.ShutdownNow env ((s.call .CreationTime).call (.OnEvent "Session reset"))) s4 ∧
        Adds (cur.ShutdownNow env ((s.call .CreationTime).call (.OnEvent "Session reset"))) s4
          [.dropAndReset] := by
      cases (env.dropAndReset
          (cur.ShutdownNow env ((s.call .CreationTime).call (.OnEvent "Session reset"))).world).2 with
      | none => exact ⟨_, rfl, ⟨rfl, rfl, rfl⟩, ⟨[.dropAndReset], rfl, rfl⟩⟩
      | some err =>
        exact ⟨_, rfl, ⟨rfl, rfl, rfl⟩,
          ⟨[.dropAndReset, .logError "dropAndReset failed" err],
            by simp [session.logError, session.call], rfl⟩⟩
    obtain ⟨s4, e4, k4, a4⟩ := hd
    have hsm : s4.stateMachine = s.stateMachine := by rw [k4.1, hs.1.1]; rfl
    have hst4 : s4.stateMachine.State = some cur := by rw [hsm]; exact hst
    obtain ⟨s5, e5, m5, _, a5, _⟩ := setState_spec env s4 .latentState cur hst4
    rw [stopping_latentState, hsm] at m5 a5
    refine ⟨s5, ?_, m5, ?_⟩
    · unfold stateMachine.checkReset
      have hS : ((s.call Call.CreationTime).call (Call.OnEvent "Session reset")).stateMachine.State
          = some cur := hst
      simp only [h', Bool.not_false, if_true, hS, e4, e5]
    · have := ((a1.andThen hs.2).andThen a4).andThen a5
      simpa using this

/-- In range: the outcome of `CheckSessionTime` and its tracked calls. -/
theorem CheckSessionTime_inRange_spec (env : Env σ) (s : session σ) (now : Time)
    (st : sessionState) (hst : s.stateMachine.State = some st)
    (hr : env.IsInRange now = true) :
    ∃ s1 : session σ,
      s1.stateMachine =
        (if st.IsSessionTime then s.stateMachine
         else { s.stateMachine with
                State := some .latentState,
                stopped := s.stateMachine.stopped || s.stateMachine.pendingStop,
                notifyOnInSessionTime := none }) ∧
      s1.world = s.world ∧
      Adds s s1 (if st.IsSessionTime then [] else closeCalls s.stateMachine.notifyOnInSessionTime) ∧
      stateMachine.CheckSessionTime env s now = stateMachine.checkReset env s1 now := by
  have hIs : s.stateMachine.IsSessionTime = st.IsSessionTime := by
    unfold stateMachine.IsSessionTime; rw [hst]
  cases hb : st.IsSessionTime with
  | true =>
    refine ⟨s, by simp, rfl, by simpa using Adds.nothing s, ?_⟩
    unfold stateMachine.CheckSessionTime
    simp [hr, hIs, hb]
  | false =>
    have hn := notifyInSessionTime_spec (s.call (.OnEvent "In session"))
    have hst1 : (stateMachine.notifyInSessionTime (s.call (.OnEvent "In session"))).stateMachine.State
        = some st := by rw [hn.1]; exact hst
    obtain ⟨s1, e1, m1, _, a1, w1⟩ := setState_spec env
      (stateMachine.notifyInSessionTime (s.call (.OnEvent "In session"))) .latentState st hst1
    have hnc : (stateMachine.notifyInSessionTime
        (s.call (.OnEvent "In session"))).stateMachine.IsConnected = false := by
      unfold stateMachine.IsConnected
      rw [hst1]
      exact not_sessionTime_not_connected st hb
    refine ⟨s1, ?_, ?_, ?_, ?_⟩
    · rw [m1, stopping_latentState, hn.1]
      simp
      exact ⟨rfl, rfl, rfl⟩
    · rw [w1 (Or.inl hnc), hn.2.2.1]; rfl
    · rw [stopping_latentState, hn.1] at a1
      have h0 : Adds s (s.call (.OnEvent "In session")) [] := Adds.call_untracked s _ rfl
      have := (h0.andThen hn.2.2.2.2).andThen a1
      simpa [closeCalls] using this
    · unfold stateMachine.CheckSessionTime
      simp [hr, hIs, hb, e1]

theorem count_dropAndReset_of_storeCalls (l : List Call) :
    l.count .dropAndReset = (l.filter Call.isStoreCall).count .dropAndReset :=
  (List.count_filter (show Call.isStoreCall .dropAndReset = true from rfl)).symm

theorem loggedOn_ShutdownNow_world (env : Env σ) (s : session σ) :
    (loggedOn.ShutdownNow env s).world = (env.sendLogout s.world "").1 := by
  unfold loggedOn.ShutdownNow
  cases h : (env.sendLogout s.world "").2 with
  | none => simp only [h]
  | some err => simp only [h]; rfl

theorem ShutdownNow_world_congr (env : Env σ) (st : sessionState) (a b : session σ)
    (h : a.world = b.world) : (st.ShutdownNow env a).world = (st.ShutdownNow env b).world := by
  have ha : (a.call (.ShutdownNow st)).world = a.world := rfl
  have hb : (b.call (.ShutdownNow st)).world = b.world := rfl
  unfold sessionState.ShutdownNow
  cases st.mixin with
  | loggedOn =>
    simp only [loggedOn_ShutdownNow_world, ha, hb, h]
  | connectedNotLoggedOn => exact h
  | inSessionTime => simp only [ha, hb, h]
  | none => simp only [ha, hb, h]

theorem doOnLogout_congr (a b : session σ) (h1 : a.stateMachine = b.stateMachine)
    (h2 : a.InitiateLogon = b.InitiateLogon) :
    stateMachine.doOnLogout a = stateMachine.doOnLogout b := by
  unfold stateMachine.doOnLogout
  rw [h1, h2]

theorem handleDisconnectState_world (env : Env σ) (s : session σ) :
    (stateMachine.handleDisconnectState env s).world =
      env.onDisconnect (if stateMachine.doOnLogout s then env.OnLogout s.world else s.world) := by
  unfold stateMachine.handleDisconnectState
  cases h : stateMachine.doOnLogout s with
  | true => simp only [h, if_true]
  | false => simp only [h, Bool.false_eq_true, if_false]

theorem leaveConnected_world (env : Env σ) (s : session σ) (next : sessionState)
    (hn : next.IsConnected = false) (hc : s.stateMachine.IsConnected = true) :
    (stateMachine.leaveConnected env s next).world =
      (stateMachine.handleDisconnectState env s).world := by
  unfold stateMachine.leaveConnected
  simp only [hn, hc, Bool.not_false, if_true]
  split
  · exact (forceStop_spec _).2.2.1
  · rfl

theorem setState_world (env : Env σ) (s s' : session σ) (next : sessionState)
    (h : stateMachine.setState env s next = some s') :
    s'.world = (stateMachine.leaveConnected env s next).world := by
  unfold stateMachine.setState at h
  simp only [] at h
  split at h
  · cases h
  · split at h <;> (cases h; rfl)

/-- Lines 131-134: the session after `dropAndReset` and the log of its error. -/
theorem dropAndReset_step (env : Env σ) (s3 : session σ) :
    ∃ s4 : session σ,
      (match (env.dropAndReset s3.world).2 with
        | some err =>
          session.logError
            { s3.call .dropAndReset with world := (env.dropAndReset s3.world).1 }
            "dropAndReset failed" err
        | none => { s3.call .dropAndReset with world := (env.dropAndReset s3.world).1 }) = s4 ∧
      s4.world = (env.dropAndReset s3.world).1 ∧
      Keeps s3 s4 ∧
      (∀ err, (env.dropAndReset s3.world).2 = some err →
        s4.calls = s3.calls ++ [.dropAndReset, .logError "dropAndReset failed" err]) ∧
      ((env.dropAndReset s3.world).2 = none → s4.calls = s3.calls ++ [.dropAndReset]) := by
  cases h : (env.dropAndReset s3.world).2 with
  | none =>
    exact ⟨_, rfl, rfl, ⟨rfl, rfl, rfl⟩, (fun err he => by cases he), (fun _ => rfl)⟩
  | some err =>
    refine ⟨_, rfl, rfl, ⟨rfl, rfl, rfl⟩, ?_, (fun he => by cases he)⟩
    intro err' he
    cases he
    simp [session.logError, session.call]

/-- Lines 128-135, when the store was created in another range: the rest of the session
after the reset step, and the log of the error of `dropAndReset`. -/
theorem checkReset_world (env : Env σ) (s s' : session σ) (now : Time) (cur : sessionState)
    (hst : s.stateMachine.State = some cur)
    (hsame : env.IsInSameRange (env.CreationTime s.world) now = false)
    (h : stateMachine.checkReset env s now = some s') :
    s'.world =
      (if cur.IsConnected then
        env.onDisconnect
          (if stateMachine.doOnLogout s then env.OnLogout (stateMachine.resetStore env s cur).1
           else (stateMachine.resetStore env s cur).1)
       else (stateMachine.resetStore env s cur).1) ∧
    (∀ err, (stateMachine.resetStore env s cur).2 = some err →
      ∃ new, s'.calls = s.calls ++ new ∧ Call.logError "dropAndReset failed" err ∈ new) := by
  have h' : env.IsInSameRange (env.CreationTime (s.call Call.CreationTime).world) now = false :=
    hsame
  have hS : ((s.call Call.CreationTime).call (Call.OnEvent "Session reset")).stateMachine.State
      = some cur := hst
  have hs := ShutdownNow_spec env cur ((s.call .CreationTime).call (.OnEvent "Session reset"))
  have hw3 : (cur.ShutdownNow env ((s.call .CreationTime).call (.OnEvent "Session reset"))).world
      = (cur.ShutdownNow env s).world := ShutdownNow_world_congr env cur _ _ rfl
  obtain ⟨s4, e4, w4, k4, c4, c4n⟩ := dropAndReset_step env
    (cur.ShutdownNow env ((s.call .CreationTime).call (.OnEvent "Session reset")))
  unfold stateMachine.checkReset at h
  simp only [h', Bool.not_false, if_true, hS, e4] at h
  have hsm : s4.stateMachine = s.stateMachine := by rw [k4.1, hs.1.1]; rfl
  have hil : s4.InitiateLogon = s.InitiateLogon := by rw [k4.2.2, hs.1.2.2]; rfl
  have hst4 : s4.stateMachine.State = some cur := by rw [hsm]; exact hst
  have hw := setState_world env s4 s' .latentState h
  rw [hw3] at w4 c4 c4n
  obtain ⟨n3, hn3, f3⟩ := hs.2
  have hn3' : (cur.ShutdownNow env ((s.call .CreationTime).call (.OnEvent "Session reset"))).calls
      = s.calls ++ ([Call.CreationTime, Call.OnEvent "Session reset"] ++ n3) := by
    rw [hn3]
    simp [session.call]
  obtain ⟨s5, e5, _, _, ⟨n5, hn5, f5⟩, _⟩ := setState_spec env s4 .latentState cur hst4
  have es : s5 = s' := Option.some.inj (e5.symm.trans h)
  subst es
  refine ⟨?_, ?_⟩
  · cases hc : cur.IsConnected with
    | true =>
      have hc4 : s4.stateMachine.IsConnected = true := by
        unfold stateMachine.IsConnected
        rw [hst4]
        exact hc
      rw [hw, leaveConnected_world env s4 .latentState rfl hc4, handleDisconnectState_world,
        doOnLogout_congr s4 s hsm hil, w4]
      simp only [stateMachine.resetStore, if_true]
    | false =>
      have hc4 : s4.stateMachine.IsConnected = false := by
        unfold stateMachine.IsConnected
        rw [hst4]
        exact hc
      rw [hw, (leaveConnected_spec env s4 .latentState).2.2.2 (Or.inl hc4), w4]
      simp only [stateMachine.resetStore, Bool.false_eq_true, if_false]
  · intro err he
    refine ⟨[Call.CreationTime, Call.OnEvent "Session reset"] ++ n3 ++
      [Call.dropAndReset, Call.logError "dropAndReset failed" err] ++ n5, ?_, by simp⟩
    rw [hn5, c4 err he, hn3']
    simp

theorem CheckSessionTime_inSession (env : Env σ) (s : session σ) (now : Time)
    (st : sessionState) (hst : s.stateMachine.State = some st)
    (hb : st.IsSessionTime = true) (hr : env.IsInRange now = true) :
    stateMachine.CheckSessionTime env s now = stateMachine.checkReset env s now := by
  have hIs : s.stateMachine.IsSessionTime = true := by
    unfold stateMachine.IsSessionTime; rw [hst]; exact hb
  unfold stateMachine.CheckSessionTime
  simp [hr, hIs]

theorem mem_of_calls_eq {s s' : session σ} {new new' : List Call} {c : Call}
    (h1 : s'.calls = s.calls ++ new) (h2 : s'.calls = s.calls ++ new') (hm : c ∈ new') :
    c ∈ new := by
  have : new = new' := List.append_cancel_left (h1.symm.trans h2)
  rw [this]
  exact hm

/-- C9: for every instant `now` that is in range, if the store's `CreationTime` and `now`
are not in the same range, `CheckSessionTime` reads `CreationTime`, calls `ShutdownNow` on
the current state (the entry state, or `latentState` when the entry state was not in
session time), then calls `dropAndReset` exactly once, on the session as `ShutdownNow`
left it, and ends with current state `latentState`, whatever `dropAndReset` returns. The
rest of the session is then what `dropAndReset` made of it, after `OnLogout` (when due) and
`onDisconnect` if the entry state was connected; an error of `dropAndReset` is logged; a
pending stop stops the state machine and clears the notification channel. If they are in
the same range, `dropAndReset` and `ShutdownNow` are not called and the rest of the
session is unchanged. -/
theorem CheckSessionTime_new_range (env : Env σ) (s : session σ) (now : Time)
    (st : sessionState) (hst : s.stateMachine.State = some st)
    (hr : env.IsInRange now = true) :
    (env.IsInSameRange (env.CreationTime s.world) now = false →
      ∃ s' new, stateMachine.CheckSessionTime env s now = some s' ∧
        s'.calls = s.calls ++ new ∧
        new.filter Call.isShutdownNow =
          [.ShutdownNow (if st.IsSessionTime then st else .latentState)] ∧
        new.count .dropAndReset = 1 ∧
        new.filter Call.isStoreCall = [.CreationTime, .dropAndReset] ∧
        s'.stateMachine.State = some .latentState ∧
        new.filter (fun c => c.isShutdownNow || c.isStoreCall) =
          [.CreationTime, .ShutdownNow (if st.IsSessionTime then st else .latentState),
           .dropAndReset] ∧
        s'.world =
          (if st.IsConnected then
            env.onDisconnect
              (if stateMachine.doOnLogout s then
                env.OnLogout (stateMachine.resetStore env s
                  (if st.IsSessionTime then st else .latentState)).1
               else (stateMachine.resetStore env s
                  (if st.IsSessionTime then st else .latentState)).1)
           else (stateMachine.resetStore env s
                  (if st.IsSessionTime then st else .latentState)).1) ∧
        (∀ err, (stateMachine.resetStore env s
            (if st.IsSessionTime then st else .latentState)).2 = some err →
          Call.logError "dropAndReset failed" err ∈ new) ∧
        s'.stateMachine.pendingStop = s.stateMachine.pendingStop ∧
        s'.stateMachine.stopped = (s.stateMachine.stopped || s.stateMachine.pendingStop) ∧
        s'.stateMachine.notifyOnInSessionTime =
          (if s.stateMachine.pendingStop || !st.IsSessionTime then none
           else s.stateMachine.notifyOnInSessionTime)) ∧
    (env.IsInSameRange (env.CreationTime s.world) now = true →
      ∃ s' new, stateMachine.CheckSessionTime env s now = some s' ∧
        s'.calls = s.calls ++ new ∧
        new.count .dropAndReset = 0 ∧
        new.filter Call.isShutdownNow = [] ∧
        s'.stateMachine.State = some (if st.IsSessionTime then st else .latentState) ∧
        new.filter Call.isStoreCall = [.CreationTime] ∧
        s'.world = s.world) := by
  obtain ⟨s1, m1, w1, a1, e1⟩ := CheckSessionTime_inRange_spec env s now st hst hr
  have hst1 : s1.stateMachine.State = some (if st.IsSessionTime then st else .latentState) := by
    rw [m1]
    cases st.IsSessionTime <;> simp [hst]
  have hc := checkReset_spec env s1 now _ hst1
  rw [w1] at hc
  constructor
  · intro h
    obtain ⟨s', e', m', a'⟩ := hc.2 h
    obtain ⟨new, hcalls, hf⟩ := a1.andThen a'
    have hstore : new.filter Call.isStoreCall = [.CreationTime, .dropAndReset] := by
      rw [filter_tracked _ tracked_of_isStoreCall, hf]
      cases st.IsSessionTime <;> cases s1.stateMachine.pendingStop <;>
        cases s.stateMachine.notifyOnInSessionTime <;>
        cases s1.stateMachine.notifyOnInSessionTime <;>
        simp [closeCalls, Call.isStoreCall]
    have hE : stateMachine.CheckSessionTime env s now = some s' := by rw [e1, e']
    refine ⟨s', new, hE, hcalls, ?_, ?_, hstore, by rw [m'], ?_, ?_, ?_, ?_, ?_, ?_⟩
    · rw [filter_tracked _ tracked_of_isShutdownNow, hf]
      cases st.IsSessionTime <;> cases s1.stateMachine.pendingStop <;>
        cases s.stateMachine.notifyOnInSessionTime <;>
        cases s1.stateMachine.notifyOnInSessionTime <;>
        simp [closeCalls, Call.isShutdownNow]
    · rw [count_dropAndReset_of_storeCalls, hstore]
      decide
    · rw [filter_tracked _ (fun c hc => by
        simp only [Bool.or_eq_true] at hc
        rcases hc with hc | hc
        · exact tracked_of_isShutdownNow c hc
        · exact tracked_of_isStoreCall c hc), hf]
      cases st.IsSessionTime <;> cases s1.stateMachine.pendingStop <;>
        cases s.stateMachine.notifyOnInSessionTime <;>
        cases s1.stateMachine.notifyOnInSessionTime <;>
        simp [closeCalls, Call.isShutdownNow, Call.isStoreCall]
    · cases hb : st.IsSessionTime with
      | true =>
        have e2 : stateMachine.checkReset env s now = some s' := by
          rw [← CheckSessionTime_inSession env s now st hst hb hr]; exact hE
        simp only [if_true]
        exact (checkReset_world env s s' now st hst h e2).1
      | false =>
        have hnc := not_sessionTime_not_connected st hb
        simp only [hb, Bool.false_eq_true, if_false] at hst1
        have hw := (checkReset_world env s1 s' now .latentState hst1 (by rw [w1]; exact h) e').1
        rw [hw]
        simp only [hnc, Bool.false_eq_true, if_false, stateMachine.resetStore]
        have : sessionState.latentState.IsConnected = false := rfl
        simp only [this, Bool.false_eq_true, if_false]
        rw [ShutdownNow_world_congr env .latentState s1 s w1]
    · intro err he
      cases hb : st.IsSessionTime with
      | true =>
        have e2 : stateMachine.checkReset env s now = some s' := by
          rw [← CheckSessionTime_inSession env s now st hst hb hr]; exact hE
        simp only [hb, if_true] at he
        obtain ⟨new2, hc2, hm2⟩ := (checkReset_world env s s' now st hst h e2).2 err he
        exact mem_of_calls_eq hcalls hc2 hm2
      | false =>
        simp only [hb, Bool.false_eq_true, if_false] at hst1 he
        have he1 : (stateMachine.resetStore env s1 .latentState).2 = some err := by
          unfold stateMachine.resetStore at he ⊢
          rw [ShutdownNow_world_congr env .latentState s1 s w1]
          exact he
        obtain ⟨new2, hc2, hm2⟩ :=
          (checkReset_world env s1 s' now .latentState hst1 (by rw [w1]; exact h) e').2 err he1
        obtain ⟨n1, hn1, _⟩ := a1
        have hc3 : s'.calls = s.calls ++ (n1 ++ new2) := by
          rw [hc2, hn1, List.append_assoc]
        exact mem_of_calls_eq hcalls hc3 (List.mem_append_right _ hm2)
    · rw [m', m1]
      cases st.IsSessionTime <;> simp
    · rw [m', m1]
      cases st.IsSessionTime <;> cases hp : s.stateMachine.pendingStop <;>
        cases hq : s.stateMachine.stopped <;> simp [hp, hq]
    · rw [m', m1]
      cases st.IsSessionTime <;> cases hp : s.stateMachine.pendingStop <;> simp [hp]
  · intro h
    have e' := hc.1 h
    obtain ⟨new, hcalls, hf⟩ := a1.andThen (Adds.call_tracked s1 .CreationTime rfl)
    have hstore : new.filter Call.isStoreCall = [.CreationTime] := by
      rw [filter_tracked _ tracked_of_isStoreCall, hf]
      cases st.IsSessionTime <;> cases s.stateMachine.notifyOnInSessionTime <;>
        simp [closeCalls, Call.isStoreCall]
    refine ⟨s1.call .CreationTime, new, by rw [e1, e'], hcalls, ?_, ?_, hst1, hstore, w1⟩
    · rw [count_dropAndReset_of_storeCalls, hstore]
      decide
    · rw [filter_tracked _ tracked_of_isShutdownNow, hf]
      cases st.IsSessionTime <;> cases s.stateMachine.notifyOnInSessionTime <;>
        simp [closeCalls, Call.isShutdownNow]

/-- Witness of `CheckSessionTime_new_range`: the store was created at hour 9 of day 0, the
session is logged on and checked at hour 34 (10:00 of day 1), and the store is broken, so
that `dropAndReset` returns an error. After the check the Logout of `ShutdownNow` is sent,
the queue is empty, both sequence numbers are 1, the error is logged and the state is
`latentState`. -/
theorem CheckSessionTime_new_range_witness :
    (exampleEnv.dropAndReset (exampleSession .inSession false none).world).2
      = some "store reset failed" ∧
    (exampleSession .inSession false none).world = ⟨30 * time.Second, 9, 5, 5, 2, true, []⟩ ∧
    ∃ s' new, stateMachine.CheckSessionTime exampleEnv
        (exampleSession .inSession false none) 34 = some s' ∧
      s'.calls = (exampleSession .inSession false none).calls ++ new ∧
      new.filter Call.isShutdownNow = [.ShutdownNow .inSession] ∧
      new.count .dropAndReset = 1 ∧
      s'.stateMachine.State = some .latentState ∧
      new.filter (fun c => c.isShutdownNow || c.isStoreCall) =
        [.CreationTime, .ShutdownNow .inSession, .dropAndReset] ∧
      s'.world = ⟨30 * time.Second, 9, 1, 1, 0, true, ["Logout "]⟩ ∧
      Call.logError "dropAndReset failed" "store reset failed" ∈ new := by
  obtain ⟨s', new, h⟩ := (CheckSessionTime_new_range exampleEnv
    (exampleSession .inSession false none) 34 .inSession rfl (by decide)).1 (by decide)
  exact ⟨by decide, rfl, s', new, h.1, h.2.1, h.2.2.1, h.2.2.2.1, h.2.2.2.2.2.1,
    h.2.2.2.2.2.2.1, h.2.2.2.2.2.2.2.1.trans (by decide),
    h.2.2.2.2.2.2.2.2.1 "store reset failed" (by decide)⟩

/-- C10: for every instant `now` that is in range, if the current state is not in session
time (`notSessionTime`), `CheckSessionTime` closes the `notifyOnInSessionTime` channel
when it is non-nil (and makes no other call on a channel), leaves
`notifyOnInSessionTime` nil, and leaves the current state equal to `latentState`. -/
theorem CheckSessionTime_back_in_range (env : Env σ) (s : session σ) (now : Time)
    (st : sessionState) (hst : s.stateMachine.State = some st)
    (hns : st.IsSessionTime = false) (hr : env.IsInRange now = true) :
    st = .notSessionTime ∧
    ∃ s' new, stateMachine.CheckSessionTime env s now = some s' ∧
      s'.calls = s.calls ++ new ∧
      new.filter Call.isChanCall = closeCalls s.stateMachine.notifyOnInSessionTime ∧
      s'.stateMachine.notifyOnInSessionTime = none ∧
      s'.stateMachine.State = some .latentState := by
  refine ⟨by cases st <;> simp_all [sessionState.IsSessionTime, sessionState.mixin,
    connected.IsSessionTime, inSessionTime.IsSessionTime], ?_⟩
  obtain ⟨s1, m1, w1, a1, e1⟩ := CheckSessionTime_inRange_spec env s now st hst hr
  simp only [hns, Bool.false_eq_true, if_false] at m1 a1
  have hst1 : s1.stateMachine.State = some .latentState := by rw [m1]
  have hn1 : s1.stateMachine.notifyOnInSessionTime = none := by rw [m1]
  have hc := checkReset_spec env s1 now _ hst1
  cases h : env.IsInSameRange (env.CreationTime s1.world) now with
  | true =>
    have e' := hc.1 h
    obtain ⟨new, hcalls, hf⟩ := a1.andThen (Adds.call_tracked s1 .CreationTime rfl)
    refine ⟨s1.call .CreationTime, new, by rw [e1, e'], hcalls, ?_, hn1, hst1⟩
    rw [filter_tracked _ tracked_of_isChanCall, hf]
    cases s.stateMachine.notifyOnInSessionTime <;> simp [closeCalls, Call.isChanCall]
  | false =>
    obtain ⟨s', e', m', a'⟩ := hc.2 h
    obtain ⟨new, hcalls, hf⟩ := a1.andThen a'
    refine ⟨s', new, by rw [e1, e'], hcalls, ?_, ?_, by rw [m']⟩
    · rw [filter_tracked _ tracked_of_isChanCall, hf, hn1]
      cases s.stateMachine.notifyOnInSessionTime <;> cases s1.stateMachine.pendingStop <;>
        simp [closeCalls, Call.isChanCall]
    · rw [m', hn1]
      simp

/-- Witness of `CheckSessionTime_back_in_range`: a session outside its window, with the
notification channel 0, checked at hour 33 (09:00 of day 1). -/
theorem CheckSessionTime_back_in_range_witness :
    ∃ s' new, stateMachine.CheckSessionTime exampleEnv
        (exampleSession .notSessionTime false (some 0)) 33 = some s' ∧
      s'.calls = (exampleSession .notSessionTime false (some 0)).calls ++ new ∧
      new.filter Call.isChanCall = [.close 0] ∧
      s'.stateMachine.notifyOnInSessionTime = none ∧
      s'.stateMachine.State = some .latentState :=
  (CheckSessionTime_back_in_range exampleEnv
    (exampleSession .notSessionTime false (some 0)) 33 .notSessionTime rfl rfl (by decide)).2

end quickfix

/-! ## Theorems: trailer field order is a strict total order -/

namespace basic

/-- C18: `trailerFieldOrder` is a strict total order on tags: it is irreflexive (also at
CheckSum), asymmetric and transitive, and of two distinct tags exactly one is ordered
before the other. -/
theorem trailerFieldOrder_strict_total :
    (∀ t, trailerFieldOrder t t = false) ∧
    (∀ i j, trailerFieldOrder i j = true → trailerFieldOrder j i = false) ∧
    (∀ i j k, trailerFieldOrder i j = true → trailerFieldOrder j k = true →
      trailerFieldOrder i k = true) ∧
    (∀ i j, i ≠ j →
      (trailerFieldOrder i j = true ∧ trailerFieldOrder j i = false) ∨
      (trailerFieldOrder i j = false ∧ trailerFieldOrder j i = true)) := by
  refine ⟨?_, ?_, trailerFieldOrder_trans, ?_⟩
  · intro t
    unfold trailerFieldOrder
    by_cases ht : t = tag.CheckSum <;> simp [ht]
  · intro i j h
    unfold trailerFieldOrder at *
    by_cases hi : i = tag.CheckSum
    · simp [hi] at h
    · by_cases hj : j = tag.CheckSum
      · simp [hj]
      · simp [hi, hj] at h ⊢
        exact Int.le_of_lt h
  · intro i j hij
    unfold trailerFieldOrder
    by_cases hi : i = tag.CheckSum
    · have hj : ¬ j = tag.CheckSum := fun h => hij (hi.trans h.symm)
      simp [hi, hj]
    · by_cases hj : j = tag.CheckSum
      · simp [hi, hj]
      · simp only [hi, hj, if_false, decide_eq_true_eq, decide_eq_false_iff_not]
        rcases Int.lt_or_gt_of_ne hij with h | h
        · exact Or.inl ⟨h, Int.not_lt.mpr (Int.le_of_lt h)⟩
        · exact Or.inr ⟨Int.not_lt.mpr (Int.le_of_lt h), h⟩

end basic

/-! ## Theorems: a rejected logon -/

namespace session

open message

/-- C19: when `verifyIgnoreSeqNumTooHigh` rejects a Logon, `handleLogon` returns that
error and makes no call (no reply is sent), but the session is changed: `expectedSeqNum`
and `seqNum` are both 1 afterwards, whatever they were; `FixMsgIn` then logs the error
and returns `latentState`, with the counters still 1. -/
theorem handleLogon_rejected_resets (env : Env) (s : session) (msg : Message) (err : Err)
    (hv : env.verifyIgnoreSeqNumTooHigh (resetOnLogon s) msg = some err) :
    (logonState.handleLogon env s msg).ret = some err ∧
    (logonState.handleLogon env s msg).calls = [] ∧
    (logonState.handleLogon env s msg).session.expectedSeqNum = 1 ∧
    (logonState.handleLogon env s msg).session.seqNum = 1 ∧
    (logonState.handleLogon env s msg).session.ID = s.ID ∧
    (logonState.handleLogon env s msg).session.heartBeatTimeout = s.heartBeatTimeout ∧
    (msg.Header.StringValue tag.MsgType = some "A" →
      (logonState.FixMsgIn env s msg).ret = state.latentState ∧
      (logonState.FixMsgIn env s msg).calls = [Call.OnEvent err.Error] ∧
      (logonState.FixMsgIn env s msg).session.expectedSeqNum = 1 ∧
      (logonState.FixMsgIn env s msg).session.seqNum = 1) := by
  have h := handleLogon_reject env s msg err hv
  refine ⟨by rw [h], by rw [h], by rw [h]; rfl, by rw [h]; rfl, by rw [h]; rfl,
    by rw [h]; rfl, ?_⟩
  intro hA
  unfold logonState.FixMsgIn
  simp only [hA, if_true, h]
  simp [resetOnLogon]

/-- Witness of `handleLogon_rejected_resets`: the Logon of an unknown counterparty on a
session whose counters were 5 and 7. -/
theorem handleLogon_rejected_resets_witness :
    exampleSession.expectedSeqNum = 5 ∧ exampleSession.seqNum = 7 ∧
    (logonState.handleLogon exampleEnv exampleSession strangerLogon).ret
      = some (.other "CompID problem") ∧
    (logonState.handleLogon exampleEnv exampleSession strangerLogon).calls = [] ∧
    (logonState.handleLogon exampleEnv exampleSession strangerLogon).session.expectedSeqNum = 1 ∧
    (logonState.handleLogon exampleEnv exampleSession strangerLogon).session.seqNum = 1 :=
  have h := handleLogon_rejected_resets exampleEnv exampleSession strangerLogon
    (.other "CompID problem") (by decide)
  ⟨rfl, rfl, h.1, h.2.1, h.2.2.1, h.2.2.2.1⟩

end session

/-! ## Theorems: predicates, ShutdownNow and Stop -/

namespace quickfix

variable {σ : Type}

/-- C14: the three state predicates are mutually consistent: for every state,
`IsLoggedOn` implies `IsConnected` and `IsConnected` implies `IsSessionTime`; the mix-in
`loggedOn` yields true/true/true, `connectedNotLoggedOn` yields false/true/true and
`inSessionTime` yields `IsSessionTime` true; the state machine's `IsLoggedOn`,
`IsConnected` and `IsSessionTime` are all false when the current state is nil and are
otherwise the answers of the current state. -/
theorem predicates_consistent :
    (∀ st : sessionState,
      (st.IsLoggedOn = true → st.IsConnected = true) ∧
      (st.IsConnected = true → st.IsSessionTime = true)) ∧
    (loggedOn.IsLoggedOn = true ∧ connected.IsConnected = true ∧
      connected.IsSessionTime = true ∧ connectedNotLoggedOn.IsLoggedOn = false ∧
      inSessionTime.IsSessionTime = true) ∧
    (∀ st : sessionState, st.mixin = mixin.loggedOn →
      st.IsLoggedOn = true ∧ st.IsConnected = true ∧ st.IsSessionTime = true) ∧
    (∀ st : sessionState, st.mixin = mixin.connectedNotLoggedOn →
      st.IsLoggedOn = false ∧ st.IsConnected = true ∧ st.IsSessionTime = true) ∧
    (∀ st : sessionState, st.mixin = mixin.inSessionTime → st.IsSessionTime = true) ∧
    (∀ sm : stateMachine, sm.State = none →
      sm.IsLoggedOn = false ∧ sm.IsConnected = false ∧ sm.IsSessionTime = false) ∧
    (∀ (sm : stateMachine) (st : sessionState), sm.State = some st →
      sm.IsLoggedOn = st.IsLoggedOn ∧ sm.IsConnected = st.IsConnected ∧
      sm.IsSessionTime = st.IsSessionTime) := by
  refine ⟨?_, ⟨rfl, rfl, rfl, rfl, rfl⟩, ?_, ?_, ?_, ?_, ?_⟩
  · intro st
    cases st <;> decide
  · intro st h
    simp [sessionState.IsLoggedOn, sessionState.IsConnected, sessionState.IsSessionTime, h,
      loggedOn.IsLoggedOn, connected.IsConnected, connected.IsSessionTime]
  · intro st h
    simp [sessionState.IsLoggedOn, sessionState.IsConnected, sessionState.IsSessionTime, h,
      connectedNotLoggedOn.IsLoggedOn, connected.IsConnected, connected.IsSessionTime]
  · intro st h
    simp [sessionState.IsSessionTime, h, inSessionTime.IsSessionTime]
  · intro sm h
    simp [stateMachine.IsLoggedOn, stateMachine.IsConnected, stateMachine.IsSessionTime, h]
  · intro sm st h
    simp [stateMachine.IsLoggedOn, stateMachine.IsConnected, stateMachine.IsSessionTime, h]

/-- C13 (counterexample): on a logged-on session, `ShutdownNow` of the mix-in `loggedOn`
invoked once sends one Logout, invoked twice it sends two. -/
theorem loggedOn_ShutdownNow_twice_differs :
    (loggedOn.ShutdownNow exampleEnv (exampleSession .inSession false none)).world.sent
      = ["Logout "] ∧
    (loggedOn.ShutdownNow exampleEnv
      (loggedOn.ShutdownNow exampleEnv (exampleSession .inSession false none))).world.sent
      = ["Logout ", "Logout "] ∧
    loggedOn.ShutdownNow exampleEnv
      (loggedOn.ShutdownNow exampleEnv (exampleSession .inSession false none)) ≠
    loggedOn.ShutdownNow exampleEnv (exampleSession .inSession false none) := by
  refine ⟨by decide, by decide, ?_⟩
  intro h
  have h2 := congrArg (fun s => s.world.sent) h
  revert h2
  decide

/-- C13 (amended): `ShutdownNow` of `connectedNotLoggedOn` does nothing, so invoking it
twice is as invoking it once; `ShutdownNow` of `loggedOn` leaves the state machine
unchanged and calls `sendLogout("")` once per invocation, so invoking it twice calls
`sendLogout` twice, the second time on what the first left. -/
theorem ShutdownNow_twice (env : Env σ) (s : session σ) :
    connectedNotLoggedOn.ShutdownNow (connectedNotLoggedOn.ShutdownNow s)
      = connectedNotLoggedOn.ShutdownNow s ∧
    connectedNotLoggedOn.ShutdownNow s = s ∧
    (loggedOn.ShutdownNow env s).stateMachine = s.stateMachine ∧
    (loggedOn.ShutdownNow env s).world = (env.sendLogout s.world "").1 ∧
    (loggedOn.ShutdownNow env s).calls.count (.sendLogout "")
      = s.calls.count (.sendLogout "") + 1 ∧
    (loggedOn.ShutdownNow env (loggedOn.ShutdownNow env s)).stateMachine = s.stateMachine ∧
    (loggedOn.ShutdownNow env (loggedOn.ShutdownNow env s)).world
      = (env.sendLogout (env.sendLogout s.world "").1 "").1 ∧
    (loggedOn.ShutdownNow env (loggedOn.ShutdownNow env s)).calls.count (.sendLogout "")
      = s.calls.count (.sendLogout "") + 2 := by
  have once : ∀ t : session σ,
      (loggedOn.ShutdownNow env t).stateMachine = t.stateMachine ∧
      (loggedOn.ShutdownNow env t).world = (env.sendLogout t.world "").1 ∧
      (loggedOn.ShutdownNow env t).calls.count (.sendLogout "")
        = t.calls.count (.sendLogout "") + 1 := by
    intro t
    unfold loggedOn.ShutdownNow
    cases h : (env.sendLogout t.world "").2 with
    | none => simp [h, session.call]
    | some err => simp [h, session.call, session.logError]
  have h1 := once s
  have h2 := once (loggedOn.ShutdownNow env s)
  refine ⟨rfl, rfl, h1.1, h1.2.1, h1.2.2, ?_, ?_, ?_⟩
  · rw [h2.1, h1.1]
  · rw [h2.2.1, h1.2.1]
  · rw [h2.2.2, h1.2.2]

theorem loggedOn_Stop_spec (env : Env σ) (s : session σ) :
    (loggedOn.Stop env s).1.stateMachine = s.stateMachine ∧
    (loggedOn.Stop env s).1.chans = s.chans ∧
    (loggedOn.Stop env s).2 =
      (if (env.initiateLogout s.world "").2 = none then sessionState.logoutState
       else sessionState.latentState) := by
  unfold loggedOn.Stop
  cases h : (env.initiateLogout s.world "").2 with
  | none => simp [h, session.call]
  | some err => simp [h, session.call, handleStateError, session.logError]

theorem sessionState_Stop_spec (env : Env σ) (st : sessionState) (s : session σ) :
    (st.Stop env s).1.stateMachine = s.stateMachine ∧
    (st.Stop env s).1.chans = s.chans ∧
    (st.mixin = mixin.loggedOn →
      (st.Stop env s).2 =
        (if (env.initiateLogout s.world "").2 = none then sessionState.logoutState
         else sessionState.latentState)) := by
  unfold sessionState.Stop
  cases hm : st.mixin with
  | loggedOn =>
    have h := loggedOn_Stop_spec env (s.call (.Stop st))
    exact ⟨h.1, h.2.1, fun _ => h.2.2⟩
  | connectedNotLoggedOn => exact ⟨rfl, rfl, fun h => by cases h⟩
  | inSessionTime => exact ⟨rfl, rfl, fun h => by cases h⟩
  | none => exact ⟨rfl, rfl, fun h => by cases h⟩

/-- C12: `stateMachine.Stop` sets `pendingStop` to true and replaces the current state by
the result of the current state's `Stop`; for every state that embeds `loggedOn` that
result is `logoutState` when `initiateLogout` succeeds and `latentState` when it fails;
and whenever the resulting state is not connected, `Stopped()` is true afterwards. -/
theorem Stop_next_state (env : Env σ) (s : session σ) (st : sessionState)
    (hst : s.stateMachine.State = some st) :
    ∃ s', stateMachine.Stop env s = some s' ∧
      s'.stateMachine.pendingStop = true ∧
      s'.stateMachine.State = some
        (st.Stop env
          { s.call (.OnEvent "call Stop") with
            stateMachine := { s.stateMachine with pendingStop := true } }).2 ∧
      (st.mixin = mixin.loggedOn →
        s'.stateMachine.State = some
          (if (env.initiateLogout s.world "").2 = none then sessionState.logoutState
           else sessionState.latentState)) ∧
      (s'.stateMachine.IsConnected = false → s'.stateMachine.Stopped = true) := by
  have hs := sessionState_Stop_spec env st
    { s.call (.OnEvent "call Stop") with
      stateMachine := { s.stateMachine with pendingStop := true } }
  have hst1 : (st.Stop env
      { s.call (.OnEvent "call Stop") with
        stateMachine := { s.stateMachine with pendingStop := true } }).1.stateMachine.State
      = some st := by rw [hs.1]; exact hst
  obtain ⟨s', e, m, _, _, _⟩ := setState_spec env _
    (st.Stop env
      { s.call (.OnEvent "call Stop") with
        stateMachine := { s.stateMachine with pendingStop := true } }).2 st hst1
  refine ⟨s', ?_, ?_, ?_, ?_, ?_⟩
  · unfold stateMachine.Stop
    simp only []
    split
    · rename_i h
      exact absurd (h.symm.trans hst) (by simp)
    · rename_i cur h
      have hc : cur = st := Option.some.inj (h.symm.trans hst)
      subst hc
      exact e
  · rw [m, hs.1]
  · rw [m]
  · intro hm
    rw [m, hs.2.2 hm]
    rfl
  · intro hc
    rw [m] at hc ⊢
    unfold stateMachine.IsConnected at hc
    simp only [] at hc
    simp [stateMachine.Stopped, stateMachine.stopping, hs.1, hc]

/-- Witness of `Stop_next_state`: a logged-on session is asked to stop and enters
`logoutState`. -/
theorem Stop_next_state_witness :
    ∃ s', stateMachine.Stop exampleEnv (exampleSession .inSession false none) = some s' ∧
      s'.stateMachine.pendingStop = true ∧
      s'.stateMachine.State = some sessionState.logoutState := by
  obtain ⟨s', h⟩ := Stop_next_state exampleEnv (exampleSession .inSession false none)
    .inSession rfl
  exact ⟨s', h.1, h.2.1, h.2.2.2.1 rfl⟩

theorem AddsOnly.nothingNew (p : Call → Bool) (s : session σ) : AddsOnly p s s :=
  ⟨[], by simp, by simp⟩

theorem AddsOnly.sameCalls (p : Call → Bool) {s s' : session σ} (h : s'.calls = s.calls) :
    AddsOnly p s s' :=
  ⟨[], by simp [h], by simp⟩

theorem AddsOnly.followedBy {p : Call → Bool} {s s1 s2 : session σ}
    (h1 : AddsOnly p s s1) (h2 : AddsOnly p s1 s2) : AddsOnly p s s2 := by
  obtain ⟨n1, e1, f1⟩ := h1
  obtain ⟨n2, e2, f2⟩ := h2
  refine ⟨n1 ++ n2, by rw [e2, e1, List.append_assoc], ?_⟩
  intro c hc
  rcases List.mem_append.mp hc with h | h
  · exact f1 c h
  · exact f2 c h

theorem AddsOnly.oneCall (p : Call → Bool) (s : session σ) (c : Call) (h : p c = true) :
    AddsOnly p s (s.call c) :=
  ⟨[c], rfl, by simpa using h⟩

theorem AddsOnly.weaken {p q : Call → Bool} {s s' : session σ}
    (hpq : ∀ c, p c = true → q c = true) (h : AddsOnly p s s') : AddsOnly q s s' := by
  obtain ⟨n, e, f⟩ := h
  exact ⟨n, e, fun c hc => hpq c (f c hc)⟩

theorem filter_eq_nil_of_all {p q : Call → Bool} (hpq : ∀ c, p c = true → q c = false)
    (l : List Call) (h : ∀ c ∈ l, p c = true) : l.filter q = [] :=
  List.filter_eq_nil_iff.mpr (fun c hc => by simp [hpq c (h c hc)])

theorem setState_connected (env : Env σ) (s : session σ) (next cur : sessionState)
    (hst : s.stateMachine.State = some cur) (hn : next.IsConnected = true) :
    ∃ s', stateMachine.setState env s next = some s' ∧
      s'.stateMachine = { s.stateMachine with State := some next } ∧
      s'.world = s.world ∧ s'.LogonTimeout = s.LogonTimeout ∧ s'.chans = s.chans ∧
      AddsOnly Call.fromSetState s s' := by
  have hl : stateMachine.leaveConnected env s next = s := by
    unfold stateMachine.leaveConnected
    simp [hn]
  unfold stateMachine.setState
  simp only [hl, hst]
  split
  · exact ⟨_, rfl, rfl, rfl, rfl, rfl, AddsOnly.oneCall _ s _ rfl⟩
  · exact ⟨_, rfl, rfl, rfl, rfl, rfl, AddsOnly.nothingNew _ s⟩

theorem connectCalls_of_fromSetState (c : Call) (h : c.fromSetState = true) :
    c.isConnectCall = false := by
  cases c <;> simp_all [Call.fromSetState, Call.isConnectCall]

/-- C11: `stateMachine.Connect`. For an acceptor the state becomes `logonState`, with no
store refresh, no Logon sent and no timeout scheduled. For an initiator, `store.Refresh`
is called exactly when `RefreshOnLogon` is set and before `sendLogon`; when it fails the
state machine is unchanged and neither `sendLogon` nor the timeout follows; when
`sendLogon` fails the state machine is unchanged and no timeout is scheduled; when both
succeed the state becomes `logonState` and the logon timeout is scheduled. So, from a state
other than `logonState`, the state becomes `logonState` if and only if both succeed. -/
theorem Connect_logon (env : Env σ) (s : session σ) (st : sessionState)
    (hst : s.stateMachine.State = some st) :
    ∃ s' new, stateMachine.Connect env s = some s' ∧ s'.calls = s.calls ++ new ∧
      (s.InitiateLogon = false →
        s'.stateMachine.State = some .logonState ∧ new.filter Call.isConnectCall = [] ∧
        s'.world = s.world) ∧
      (s.InitiateLogon = true →
        (∀ err, (stateMachine.refreshed env s).2 = some err →
          s.RefreshOnLogon = true ∧ s'.stateMachine = s.stateMachine ∧
          new.filter Call.isConnectCall = [.Refresh]) ∧
        ((stateMachine.refreshed env s).2 = none →
          ∀ err, (env.sendLogon (stateMachine.refreshed env s).1).2 = some err →
          s'.stateMachine = s.stateMachine ∧
          new.filter Call.isConnectCall =
            (if s.RefreshOnLogon then [Call.Refresh] else []) ++ [.sendLogon]) ∧
        ((stateMachine.refreshed env s).2 = none →
          (env.sendLogon (stateMachine.refreshed env s).1).2 = none →
          s'.stateMachine = { s.stateMachine with State := some .logonState } ∧
          new.filter Call.isConnectCall =
            (if s.RefreshOnLogon then [Call.Refresh] else []) ++
              [.sendLogon, .AfterFunc s.LogonTimeout]) ∧
        (st ≠ .logonState →
          (s'.stateMachine.State = some .logonState ↔
            (stateMachine.refreshed env s).2 = none ∧
            (env.sendLogon (stateMachine.refreshed env s).1).2 = none))) := by
  have hne : ∀ e : Err, (some e : Option Err) ≠ none := fun e h => by cases h
  cases hI : s.InitiateLogon with
  | false =>
    obtain ⟨s', e, m, w, _, _, new, hc, hf⟩ :=
      setState_connected env s .logonState st hst rfl
    refine ⟨s', new, ?_, hc, ?_, fun h => by cases h⟩
    · unfold stateMachine.Connect
      simp [hI, e]
    · intro _
      exact ⟨by rw [m], filter_eq_nil_of_all connectCalls_of_fromSetState new hf, w⟩
  | true =>
    cases hR : s.RefreshOnLogon with
    | false =>
      have hr : stateMachine.refreshed env s = (s.world, none) := by
        unfold stateMachine.refreshed; simp [hR]
      cases hS : (env.sendLogon s.world).2 with
      | some err =>
        have hC : stateMachine.Connect env s = some
            (({ (s.call (.OnEvent "Sending logon request")).call .sendLogon with
                world := (env.sendLogon s.world).1 } : session σ).logError
              "sendLogon failed" err) := by
          unfold stateMachine.Connect
          simp only [hI, hR, Bool.not_true, Bool.false_eq_true, if_false, session.call, hS]
        refine ⟨_, [.OnEvent "Sending logon request", .sendLogon,
          .logError "sendLogon failed" err], hC, ?_, (fun h => by cases h), fun _ => ?_⟩
        · simp [session.logError, session.call]
        · rw [hr]
          refine ⟨(fun e h => by cases h), fun _ e _ => ⟨rfl, by simp [Call.isConnectCall]⟩,
            fun _ h => absurd (hS.symm.trans h) (hne err), fun hst' => ?_⟩
          simp only [session.logError, session.call, hst, hS]
          constructor
          · intro h
            exact absurd (Option.some.inj h) hst'
          · intro h
            exact absurd h.2 (hne err)
      | none =>
        have hst1 : ({ (s.call (.OnEvent "Sending logon request")).call .sendLogon with
            world := (env.sendLogon s.world).1 } : session σ).stateMachine.State = some st := hst
        obtain ⟨s', e, m, w, lt, _, new, hc, hf⟩ := setState_connected env
          ({ (s.call (.OnEvent "Sending logon request")).call .sendLogon with
            world := (env.sendLogon s.world).1 } : session σ) .logonState st hst1 rfl
        refine ⟨s'.call (.AfterFunc s'.LogonTimeout),
          [.OnEvent "Sending logon request", .sendLogon] ++ new ++ [.AfterFunc s.LogonTimeout],
          ?_, ?_, (fun h => by cases h), fun _ => ?_⟩
        · unfold stateMachine.Connect
          simp only [hI, hR, Bool.not_true, Bool.false_eq_true, if_false, session.call, hS]
          simp only [session.call, hI, hR] at e
          simp only [e]
        · simp only [session.call, hc, lt]
          simp
        · rw [hr]
          have hfil : new.filter Call.isConnectCall = [] :=
            filter_eq_nil_of_all connectCalls_of_fromSetState new hf
          refine ⟨(fun e h => by cases h), fun _ e h => absurd (hS.symm.trans h) (by simp),
            fun _ _ => ⟨m, by simp [List.filter_append, hfil, Call.isConnectCall]⟩,
            fun _ => ?_⟩
          simp only [session.call, m, hS]
          simp
    | true =>
      have hr : stateMachine.refreshed env s = env.Refresh s.world := by
        unfold stateMachine.refreshed; simp [hR]
      cases hF : (env.Refresh s.world).2 with
      | some rerr =>
        have hC : stateMachine.Connect env s = some
            (({ s.call .Refresh with world := (env.Refresh s.world).1 } : session σ).logError
              "store.Refresh failed" rerr) := by
          unfold stateMachine.Connect
          simp only [hI, hR, Bool.not_true, Bool.false_eq_true, if_false, if_true, hF,
            Bool.not_false]
        refine ⟨_, [.Refresh, .logError "store.Refresh failed" rerr], hC, ?_,
          (fun h => by cases h), fun _ => ?_⟩
        · simp [session.logError, session.call]
        · rw [hr]
          refine ⟨fun e _ => ⟨rfl, rfl, by simp [Call.isConnectCall]⟩,
            fun h => absurd (hF.symm.trans h) (hne rerr),
            fun h => absurd (hF.symm.trans h) (hne rerr), fun hst' => ?_⟩
          simp only [session.logError, session.call, hst, hF]
          constructor
          · intro h
            exact absurd (Option.some.inj h) hst'
          · intro h
            exact absurd h.1 (hne rerr)
      | none =>
        cases hS : (env.sendLogon (env.Refresh s.world).1).2 with
        | some err =>
          have hC : stateMachine.Connect env s = some
              (({ (({ s.call .Refresh with world := (env.Refresh s.world).1 } :
                session σ).call (.OnEvent "Sending logon request")).call .sendLogon with
                world := (env.sendLogon (env.Refresh s.world).1).1 } : session σ).logError
                "sendLogon failed" err) := by
            unfold stateMachine.Connect
            simp only [hI, hR, Bool.not_true, Bool.false_eq_true, if_false, if_true, hF,
              session.call, hS]
          refine ⟨_, [.Refresh, .OnEvent "Sending logon request", .sendLogon,
            .logError "sendLogon failed" err], hC, ?_, (fun h => by cases h), fun _ => ?_⟩
          · simp [session.logError, session.call]
          · rw [hr]
            refine ⟨fun e h => absurd (hF.symm.trans h) (by simp),
              fun _ e _ => ⟨rfl, by simp [Call.isConnectCall]⟩,
              fun _ h => absurd (hS.symm.trans h) (hne err), fun hst' => ?_⟩
            simp only [session.logError, session.call, hst, hS]
            constructor
            · intro h
              exact absurd (Option.some.inj h) hst'
            · intro h
              exact absurd h.2 (hne err)
        | none =>
          have hst1 : ({ (({ s.call .Refresh with world := (env.Refresh s.world).1 } :
              session σ).call (.OnEvent "Sending logon request")).call .sendLogon with
              world := (env.sendLogon (env.Refresh s.world).1).1 } :
              session σ).stateMachine.State = some st := hst
          obtain ⟨s', e, m, w, lt, _, new, hc, hf⟩ := setState_connected env
            ({ (({ s.call .Refresh with world := (env.Refresh s.world).1 } :
              session σ).call (.OnEvent "Sending logon request")).call .sendLogon with
              world := (env.sendLogon (env.Refresh s.world).1).1 } : session σ)
            .logonState st hst1 rfl
          refine ⟨s'.call (.AfterFunc s'.LogonTimeout),
            [.Refresh, .OnEvent "Sending logon request", .sendLogon] ++ new ++
              [.AfterFunc s.LogonTimeout],
            ?_, ?_, (fun h => by cases h), fun _ => ?_⟩
          · unfold stateMachine.Connect
            simp only [hI, hR, Bool.not_true, Bool.false_eq_true, if_false, if_true, hF,
              session.call, hS]
            simp only [session.call, hI, hR] at e
            simp only [e]
          · simp only [session.call, hc, lt]
            simp
          · rw [hr]
            have hfil : new.filter Call.isConnectCall = [] :=
              filter_eq_nil_of_all connectCalls_of_fromSetState new hf
            refine ⟨fun e h => absurd (hF.symm.trans h) (by simp),
              fun _ e h => absurd (hS.symm.trans h) (by simp),
              fun _ _ => ⟨m, by simp [List.filter_append, hfil, Call.isConnectCall]⟩,
              fun _ => ?_⟩
            simp only [session.call, m, hS, hF]
            simp

/-- Witness of `Connect_logon`: an initiator with `RefreshOnLogon` whose store cannot be
refreshed stays in `latentState` and sends no Logon; with a sound store it enters
`logonState`. -/
theorem Connect_logon_witness :
    (∃ s' new, stateMachine.Connect exampleEnv (exampleInitiator true true) = some s' ∧
      s'.calls = (exampleInitiator true true).calls ++ new ∧
      s'.stateMachine = (exampleInitiator true true).stateMachine ∧
      new.filter Call.isConnectCall = [.Refresh]) ∧
    (∃ s' new, stateMachine.Connect exampleEnv (exampleInitiator true false) = some s' ∧
      s'.calls = (exampleInitiator true false).calls ++ new ∧
      s'.stateMachine.State = some .logonState ∧
      new.filter Call.isConnectCall = [.Refresh, .sendLogon, .AfterFunc 10]) := by
  constructor
  · obtain ⟨s', new, h⟩ := Connect_logon exampleEnv (exampleInitiator true true)
      .latentState rfl
    have h2 := (h.2.2.2 rfl).1 "store refresh failed" (by decide)
    exact ⟨s', new, h.1, h.2.1, h2.2.1, h2.2.2⟩
  · obtain ⟨s', new, h⟩ := Connect_logon exampleEnv (exampleInitiator true false)
      .latentState rfl
    have h2 := (h.2.2.2 rfl).2.2.1 (by decide) (by decide)
    exact ⟨s', new, h.1, h.2.1, by rw [h2.1], h2.2⟩

theorem fromCheckSessionTime_of_fromSetState (c : Call) (h : c.fromSetState = true) :
    c.fromCheckSessionTime = true := by
  cases c <;> simp_all [Call.fromSetState, Call.fromCheckSessionTime]

theorem handleDisconnectState_only (env : Env σ) (s : session σ) :
    AddsOnly Call.fromSetState s (stateMachine.handleDisconnectState env s) := by
  unfold stateMachine.handleDisconnectState
  cases h : stateMachine.doOnLogout s with
  | true =>
    simp only [h, if_true]
    exact ⟨[.OnLogout, .onDisconnect], by simp [session.call], by simp [Call.fromSetState]⟩
  | false =>
    simp only [h]
    exact ⟨[.onDisconnect], rfl, by simp [Call.fromSetState]⟩

theorem notifyInSessionTime_only (s : session σ) :
    AddsOnly Call.fromSetState s (stateMachine.notifyInSessionTime s) := by
  unfold stateMachine.notifyInSessionTime
  cases h : s.stateMachine.notifyOnInSessionTime with
  | none => exact AddsOnly.nothingNew _ s
  | some c => exact AddsOnly.oneCall _ s _ rfl

theorem forceStop_only (s : session σ) :
    AddsOnly Call.fromSetState s (stateMachine.forceStop s) := by
  unfold stateMachine.forceStop
  obtain ⟨new, e, f⟩ := notifyInSessionTime_only
    ({ s with stateMachine := { s.stateMachine with stopped := true } } : session σ)
  exact ⟨new, e, f⟩

theorem leaveConnected_only (env : Env σ) (s : session σ) (next : sessionState) :
    AddsOnly Call.fromSetState s (stateMachine.leaveConnected env s next) := by
  unfold stateMachine.leaveConnected
  cases next.IsConnected with
  | true => exact AddsOnly.nothingNew _ s
  | false =>
    simp only [Bool.not_false, if_true]
    have key : ∀ s1 : session σ, AddsOnly Call.fromSetState s s1 →
        AddsOnly Call.fromSetState s
          (if s1.stateMachine.pendingStop = true then stateMachine.forceStop s1 else s1) := by
      intro s1 h1
      cases s1.stateMachine.pendingStop with
      | false => exact h1
      | true => exact h1.followedBy (forceStop_only s1)
    cases s.stateMachine.IsConnected with
    | false => exact key s (AddsOnly.nothingNew _ s)
    | true => exact key _ (handleDisconnectState_only env s)

theorem setState_only (env : Env σ) (s s' : session σ) (next : sessionState)
    (h : stateMachine.setState env s next = some s') :
    (∃ cur, s.stateMachine.State = some cur) ∧ AddsOnly Call.fromSetState s s' := by
  have hl := leaveConnected_spec env s next
  have ho := leaveConnected_only env s next
  unfold stateMachine.setState at h
  simp only [] at h
  have hS : (stateMachine.leaveConnected env s next).stateMachine.State
      = s.stateMachine.State := by rw [hl.1]
  cases hst : s.stateMachine.State with
  | none =>
    rw [hst] at hS
    simp [hS] at h
  | some cur =>
    rw [hst] at hS
    simp only [hS] at h
    refine ⟨⟨cur, rfl⟩, ?_⟩
    split at h
    · have e := Option.some.inj h
      subst e
      exact ho.followedBy (AddsOnly.oneCall _ _ _ rfl)
    · have e := Option.some.inj h
      subst e
      exact ho

theorem loggedOn_ShutdownNow_only (env : Env σ) (s : session σ) :
    AddsOnly Call.fromCheckSessionTime s (loggedOn.ShutdownNow env s) := by
  unfold loggedOn.ShutdownNow
  cases h : (env.sendLogout s.world "").2 with
  | none =>
    simp only [h]
    exact ⟨[.sendLogout ""], rfl, by simp [Call.fromCheckSessionTime]⟩
  | some err =>
    simp only [h]
    exact ⟨[.sendLogout "", .logError "sendLogout failed" err],
      by simp [session.logError, session.call], by simp [Call.fromCheckSessionTime]⟩

theorem ShutdownNow_only (env : Env σ) (st : sessionState) (s : session σ) :
    AddsOnly Call.fromCheckSessionTime s (st.ShutdownNow env s) := by
  have h0 : AddsOnly Call.fromCheckSessionTime s (s.call (.ShutdownNow st)) :=
    AddsOnly.oneCall _ s _ rfl
  unfold sessionState.ShutdownNow
  cases st.mixin with
  | loggedOn => exact h0.followedBy (loggedOn_ShutdownNow_only env _)
  | connectedNotLoggedOn => exact h0
  | inSessionTime => exact h0
  | none => exact h0

theorem ensureNotify_only (s : session σ) :
    AddsOnly Call.fromCheckSessionTime s (stateMachine.ensureNotify s) := by
  unfold stateMachine.ensureNotify
  cases h : s.stateMachine.notifyOnInSessionTime with
  | none => exact AddsOnly.oneCall _ s _ rfl
  | some c => exact AddsOnly.nothingNew _ s

theorem checkReset_only (env : Env σ) (s s' : session σ) (now : Time)
    (h : stateMachine.checkReset env s now = some s') :
    AddsOnly Call.fromCheckSessionTime s s' := by
  have h1 : AddsOnly Call.fromCheckSessionTime s (s.call .CreationTime) :=
    AddsOnly.oneCall _ s _ rfl
  have h2 : AddsOnly Call.fromCheckSessionTime s
      ((s.call .CreationTime).call (.OnEvent "Session reset")) :=
    h1.followedBy (AddsOnly.oneCall _ _ _ rfl)
  unfold stateMachine.checkReset at h
  simp only [] at h
  split at h
  · split at h
    · cases h
    · rename_i cur hcur
      obtain ⟨_, ho⟩ := setState_only env _ s' _ h
      refine AddsOnly.followedBy ?_ (ho.weaken fromCheckSessionTime_of_fromSetState)
      have h3 := h2.followedBy (ShutdownNow_only env cur _)
      split
      · rename_i err _
        exact h3.followedBy ⟨[.dropAndReset, .logError "dropAndReset failed" err],
          by simp [session.logError, session.call], by simp [Call.fromCheckSessionTime]⟩
      · exact h3.followedBy ⟨[.dropAndReset], rfl, by simp [Call.fromCheckSessionTime]⟩
  · have e := Option.some.inj h
    subst e
    exact h1

theorem CheckSessionTime_only (env : Env σ) (s s' : session σ) (now : Time)
    (h : stateMachine.CheckSessionTime env s now = some s') :
    (∃ st, s.stateMachine.State = some st) ∧ AddsOnly Call.fromCheckSessionTime s s' := by
  unfold stateMachine.CheckSessionTime at h
  split at h
  · have h0 : AddsOnly Call.fromCheckSessionTime s
        (if s.stateMachine.IsSessionTime = true then s.call (.OnEvent "Not in session")
         else s) := by
      cases s.stateMachine.IsSessionTime
      · exact AddsOnly.nothingNew _ s
      · exact AddsOnly.oneCall _ s _ rfl
    have hS : (if s.stateMachine.IsSessionTime = true then s.call (.OnEvent "Not in session")
         else s).stateMachine.State = s.stateMachine.State := by
      cases s.stateMachine.IsSessionTime <;> rfl
    simp only [] at h
    split at h
    · cases h
    · rename_i cur hcur
      split at h
      · cases h
      · rename_i s2 hs2
        have e := Option.some.inj h
        subst e
        obtain ⟨_, ho⟩ := setState_only env _ s2 _ hs2
        refine ⟨⟨cur, hS.symm.trans hcur⟩, ?_⟩
        exact ((h0.followedBy (ShutdownNow_only env cur _)).followedBy
          (ho.weaken fromCheckSessionTime_of_fromSetState)).followedBy (ensureNotify_only s2)
  · simp only [] at h
    split at h
    · cases h
    · rename_i s1 hs1
      have hc := checkReset_only env s1 s' now h
      split at hs1
      · obtain ⟨⟨cur, hcur⟩, ho⟩ := setState_only env _ s1 _ hs1
        have hn := notifyInSessionTime_spec (s.call (.OnEvent "In session"))
        refine ⟨⟨cur, ?_⟩, ?_⟩
        · rw [hn.1] at hcur
          exact hcur
        · have h0 : AddsOnly Call.fromCheckSessionTime s (s.call (.OnEvent "In session")) :=
            AddsOnly.oneCall _ s _ rfl
          exact ((h0.followedBy ((notifyInSessionTime_only _).weaken
            fromCheckSessionTime_of_fromSetState)).followedBy
            (ho.weaken fromCheckSessionTime_of_fromSetState)).followedBy hc
      · have e := Option.some.inj hs1
        subst e
        rename_i hIs
        refine ⟨?_, hc⟩
        cases hst : s.stateMachine.State with
        | none => simp [stateMachine.IsSessionTime, hst] at hIs
        | some st => exact ⟨st, rfl⟩

theorem Evolves.unchanged (sm : stateMachine) : Evolves sm sm := ⟨rfl, fun h => Or.inl h⟩

theorem Evolves.andEvolves {a b c : stateMachine} (h1 : Evolves a b) (h2 : Evolves b c) :
    Evolves a c := by
  refine ⟨h2.1.trans h1.1, fun h => ?_⟩
  rcases h2.2 h with h | h
  · exact h1.2 h
  · exact Or.inr (h1.1 ▸ h)

theorem Evolves.of_stopped {a b : stateMachine} (hp : b.pendingStop = a.pendingStop)
    (hs : b.stopped = (a.stopped || a.pendingStop) ∨ b.stopped = a.stopped) : Evolves a b := by
  refine ⟨hp, fun h => ?_⟩
  rcases hs with hs | hs
  · rw [hs] at h
    cases ha : a.stopped <;> cases hb : a.pendingStop <;> simp_all
  · exact Or.inl (hs ▸ h)

/-- The outcome of `CheckSessionTime` on a state machine with a current state. -/
theorem CheckSessionTime_total (env : Env σ) (s : session σ) (now : Time)
    (st : sessionState) (hst : s.stateMachine.State = some st) :
    ∃ s', stateMachine.CheckSessionTime env s now = some s' ∧
      s'.stateMachine.State = some (stateMachine.stateAfterCheck env s now st) ∧
      Evolves s.stateMachine s'.stateMachine := by
  unfold stateMachine.stateAfterCheck
  cases hr : env.IsInRange now with
  | false =>
    obtain ⟨s', e, m, _⟩ := CheckSessionTime_notInRange_spec env s now st hst hr
    refine ⟨s', e, by rw [m]; rfl, Evolves.of_stopped (by rw [m]) (Or.inl (by rw [m]))⟩
  | true =>
    obtain ⟨s1, m1, w1, _, e1⟩ := CheckSessionTime_inRange_spec env s now st hst hr
    have hst1 : s1.stateMachine.State = some (if st.IsSessionTime then st else .latentState) := by
      rw [m1]
      cases st.IsSessionTime <;> simp [hst]
    have ev1 : Evolves s.stateMachine s1.stateMachine := by
      rw [m1]
      cases st.IsSessionTime
      · exact Evolves.of_stopped rfl (Or.inl rfl)
      · exact Evolves.unchanged _
    have hc := checkReset_spec env s1 now _ hst1
    rw [w1] at hc
    cases hsame : env.IsInSameRange (env.CreationTime s.world) now with
    | true =>
      refine ⟨s1.call .CreationTime, by rw [e1, hc.1 hsame], ?_, ev1⟩
      show s1.stateMachine.State = _
      rw [hst1]
      cases st.IsSessionTime <;> simp
    | false =>
      obtain ⟨s', e', m', _⟩ := hc.2 hsame
      refine ⟨s', by rw [e1, e'], ?_, ev1.andEvolves
        (Evolves.of_stopped (by rw [m']) (Or.inl (by rw [m'])))⟩
      rw [m']
      cases st.IsSessionTime <;> simp

theorem stateAfterCheck_IsSessionTime (env : Env σ) (s : session σ) (now : Time)
    (st : sessionState) :
    (stateMachine.stateAfterCheck env s now st).IsSessionTime = env.IsInRange now := by
  unfold stateMachine.stateAfterCheck
  cases env.IsInRange now <;> cases h : st.IsSessionTime <;>
    cases env.IsInSameRange (env.CreationTime s.world) now <;> simp [h] <;> rfl

/-- C16: for every state machine with a current state and every instant `now`,
`CheckSessionTime` returns and afterwards `IsSessionTime()` equals
`SessionTime.IsInRange(now)`; `Start` returns for every session, and afterwards the
current state is `latentState` when `now` is in range and `notSessionTime` otherwise,
with `pendingStop` and `stopped` both false. -/
theorem CheckSessionTime_IsSessionTime (env : Env σ) (s : session σ) (now : Time) :
    (∀ st, s.stateMachine.State = some st →
      ∃ s', stateMachine.CheckSessionTime env s now = some s' ∧
        s'.stateMachine.IsSessionTime = env.IsInRange now) ∧
    (∃ s', stateMachine.Start env s now = some s' ∧
      s'.stateMachine.State =
        some (if env.IsInRange now then sessionState.latentState
              else sessionState.notSessionTime) ∧
      s'.stateMachine.IsSessionTime = env.IsInRange now ∧
      s'.stateMachine.pendingStop = false ∧ s'.stateMachine.stopped = false) := by
  constructor
  · intro st hst
    obtain ⟨s', e, m, _⟩ := CheckSessionTime_total env s now st hst
    refine ⟨s', e, ?_⟩
    unfold stateMachine.IsSessionTime
    rw [m]
    exact stateAfterCheck_IsSessionTime env s now st
  · obtain ⟨s', e, m, ev⟩ := CheckSessionTime_total env
      ({ s with stateMachine := { s.stateMachine with
          pendingStop := false, stopped := false, State := some .latentState } } : session σ)
      now .latentState rfl
    have hstate : stateMachine.stateAfterCheck env
        ({ s with stateMachine := { s.stateMachine with
          pendingStop := false, stopped := false, State := some .latentState } } : session σ)
        now .latentState =
        (if env.IsInRange now then sessionState.latentState
         else sessionState.notSessionTime) := by
      unfold stateMachine.stateAfterCheck
      cases env.IsInRange now <;>
        cases env.IsInSameRange (env.CreationTime s.world) now <;> simp
    refine ⟨s', e, by rw [m, hstate], ?_, ev.1, ?_⟩
    · unfold stateMachine.IsSessionTime
      rw [m]
      exact stateAfterCheck_IsSessionTime env _ now _
    · cases hs : s'.stateMachine.stopped with
      | false => rfl
      | true =>
        rcases ev.2 hs with h | h <;> cases h

/-- Witness of `CheckSessionTime_IsSessionTime`: a logged-on session checked at hour 20,
outside the window, and a session started at hour 10, inside it. -/
theorem CheckSessionTime_IsSessionTime_witness :
    (∃ s', stateMachine.CheckSessionTime exampleEnv (exampleSession .inSession false none) 20
        = some s' ∧ s'.stateMachine.IsSessionTime = false) ∧
    (∃ s', stateMachine.Start exampleEnv (exampleSession .inSession true none) 10 = some s' ∧
      s'.stateMachine.State = some sessionState.latentState ∧
      s'.stateMachine.pendingStop = false ∧ s'.stateMachine.stopped = false) := by
  constructor
  · obtain ⟨s', h⟩ := (CheckSessionTime_IsSessionTime exampleEnv
      (exampleSession .inSession false none) 20).1 .inSession rfl
    exact ⟨s', h.1, h.2⟩
  · obtain ⟨s', h⟩ := (CheckSessionTime_IsSessionTime exampleEnv
      (exampleSession .inSession true none) 10).2
    exact ⟨s', h.1, h.2.1, h.2.2.2.1, h.2.2.2.2⟩

theorem queueCalls_of_fromCheckSessionTime (c : Call) (h : c.fromCheckSessionTime = true) :
    c.isQueueCall = false := by
  cases c <;> simp_all [Call.fromSetState, Call.fromCheckSessionTime, Call.isQueueCall]

/-- C20: `stateMachine.SendAppMessages` performs exactly one of `sendQueued` and
`dropQueued`, chosen by the state after the session-time check: the queue is sent if the
session is then logged on and dropped otherwise, between `Lock` and `Unlock`; the state
machine is as the session-time check left it. -/
theorem SendAppMessages_one_of (env : Env σ) (s : session σ) (now : Time)
    (st : sessionState) (hst : s.stateMachine.State = some st) :
    ∃ s1 s', stateMachine.CheckSessionTime env s now = some s1 ∧
      stateMachine.SendAppMessages env s now = some s' ∧
      s'.calls = s1.calls ++
        [.Lock, (if s1.stateMachine.IsLoggedOn then Call.sendQueued else Call.dropQueued),
         .Unlock] ∧
      s'.stateMachine = s1.stateMachine ∧
      s'.world = (if s1.stateMachine.IsLoggedOn then env.sendQueued s1.world
                  else env.dropQueued s1.world) ∧
      (∃ new, s'.calls = s.calls ++ new ∧
        new.filter Call.isQueueCall =
          [if s1.stateMachine.IsLoggedOn then Call.sendQueued else Call.dropQueued]) := by
  obtain ⟨s1, e1, _, _⟩ := CheckSessionTime_total env s now st hst
  obtain ⟨_, new1, hc1, hf1⟩ := CheckSessionTime_only env s s1 now e1
  have hfil : new1.filter Call.isQueueCall = [] :=
    filter_eq_nil_of_all queueCalls_of_fromCheckSessionTime new1 hf1
  have hL : (s1.call Call.Lock).stateMachine.IsLoggedOn = s1.stateMachine.IsLoggedOn := rfl
  cases hlog : s1.stateMachine.IsLoggedOn with
  | true =>
    refine ⟨s1, ({ (s1.call .Lock).call .sendQueued with
      world := env.sendQueued s1.world } : session σ).call .Unlock,
      e1, ?_, ?_, ?_, ?_, new1 ++ [.Lock, .sendQueued, .Unlock], ?_, ?_⟩
    · unfold stateMachine.SendAppMessages
      simp only [e1, hL, hlog, if_true]
      rfl
    · simp [session.call, hlog]
    · rfl
    · simp [session.call, hlog]
    · simp [session.call, hc1]
    · simp [List.filter_append, hfil, Call.isQueueCall, hlog]
  | false =>
    refine ⟨s1, ({ (s1.call .Lock).call .dropQueued with
      world := env.dropQueued s1.world } : session σ).call .Unlock,
      e1, ?_, ?_, ?_, ?_, new1 ++ [.Lock, .dropQueued, .Unlock], ?_, ?_⟩
    · unfold stateMachine.SendAppMessages
      simp only [e1, hL, hlog]
      rfl
    · simp [session.call, hlog]
    · rfl
    · simp [session.call, hlog]
    · simp [session.call, hc1]
    · simp [List.filter_append, hfil, Call.isQueueCall, hlog]

/-- Witness of `SendAppMessages_one_of`: a logged-on session in its window sends the
queue. -/
theorem SendAppMessages_one_of_witness :
    ∃ s', stateMachine.SendAppMessages exampleEnv (exampleSession .inSession false none) 10
        = some s' ∧
      s'.calls = [.CreationTime, .Lock, .sendQueued, .Unlock] ∧
      s'.stateMachine.State = some sessionState.inSession := by
  obtain ⟨s1, s', h⟩ := SendAppMessages_one_of exampleEnv
    (exampleSession .inSession false none) 10 .inSession rfl
  have e1 : s1 = (exampleSession .inSession false none).call .CreationTime :=
    Option.some.inj (h.1.symm.trans rfl)
  subst e1
  exact ⟨s', h.2.1, by rw [h.2.2.1]; rfl, by rw [h.2.2.2.1]; rfl⟩

theorem setState_evolves (env : Env σ) (s s' : session σ) (next : sessionState)
    (h : stateMachine.setState env s next = some s') :
    Evolves s.stateMachine s'.stateMachine ∧
    s'.stateMachine.stopped =
      (s.stateMachine.stopped || (!next.IsConnected && s.stateMachine.pendingStop)) ∧
    s'.stateMachine.State = some next := by
  obtain ⟨⟨cur, hcur⟩, _⟩ := setState_only env s s' next h
  obtain ⟨s2, e2, m2, _⟩ := setState_spec env s next cur hcur
  have e : s2 = s' := Option.some.inj (e2.symm.trans h)
  subst e
  refine ⟨⟨by rw [m2], fun hs => ?_⟩, by rw [m2]; rfl, by rw [m2]⟩
  rw [m2] at hs
  simp only [stateMachine.stopping, Bool.or_eq_true, Bool.and_eq_true] at hs
  rcases hs with hs | hs
  · exact Or.inl hs
  · exact Or.inr hs.2

theorem CheckSessionTime_evolves (env : Env σ) (s s' : session σ) (now : Time)
    (h : stateMachine.CheckSessionTime env s now = some s') :
    Evolves s.stateMachine s'.stateMachine := by
  obtain ⟨⟨st, hst⟩, _⟩ := CheckSessionTime_only env s s' now h
  obtain ⟨s2, e2, _, ev⟩ := CheckSessionTime_total env s now st hst
  have e : s2 = s' := Option.some.inj (e2.symm.trans h)
  subst e
  exact ev

theorem Start_flags (env : Env σ) (s s' : session σ) (now : Time)
    (h : stateMachine.Start env s now = some s') :
    s'.stateMachine.pendingStop = false ∧ s'.stateMachine.stopped = false := by
  unfold stateMachine.Start at h
  have ev := CheckSessionTime_evolves env _ s' now h
  refine ⟨ev.1, ?_⟩
  cases hs : s'.stateMachine.stopped with
  | false => rfl
  | true => rcases ev.2 hs with h | h <;> cases h

theorem Connect_evolves (env : Env σ) (s s' : session σ)
    (h : stateMachine.Connect env s = some s') :
    Evolves s.stateMachine s'.stateMachine := by
  have fin : ∀ x : session σ,
      (match stateMachine.setState env x .logonState with
        | none => none
        | some s2 => some (s2.call (.AfterFunc s2.LogonTimeout))) = some s' →
      x.stateMachine = s.stateMachine →
      Evolves s.stateMachine s'.stateMachine := by
    intro x hm hx
    cases hs : stateMachine.setState env x .logonState with
    | none => simp [hs] at hm
    | some s2 =>
      simp only [hs] at hm
      have e := Option.some.inj hm
      subst e
      have ev := (setState_evolves env x s2 _ hs).1
      rw [hx] at ev
      exact ev
  unfold stateMachine.Connect at h
  cases hI : s.InitiateLogon with
  | false =>
    simp only [hI, Bool.not_false, if_true] at h
    exact (setState_evolves env s s' _ h).1
  | true =>
    cases hR : s.RefreshOnLogon with
    | false =>
      simp only [hI, hR, Bool.not_true, Bool.false_eq_true, if_false] at h
      cases hS : (env.sendLogon (s.call (Call.OnEvent "Sending logon request")).world).2 with
      | some err =>
        simp only [hS] at h
        have e := Option.some.inj h
        subst e
        exact Evolves.unchanged _
      | none =>
        simp only [hS] at h
        exact fin _ h rfl
    | true =>
      simp only [hI, hR, Bool.not_true, Bool.false_eq_true, if_false, if_true] at h
      cases hF : (env.Refresh s.world).2 with
      | some rerr =>
        simp only [hF, Bool.not_false, if_true] at h
        have e := Option.some.inj h
        subst e
        exact Evolves.unchanged _
      | none =>
        simp only [hF, Bool.not_true, Bool.false_eq_true, if_false] at h
        split at h
        · have e := Option.some.inj h
          subst e
          exact Evolves.unchanged _
        · exact fin _ h rfl

theorem Disconnected_evolves (env : Env σ) (s s' : session σ)
    (h : stateMachine.Disconnected env s = some s') :
    Evolves s.stateMachine s'.stateMachine := by
  unfold stateMachine.Disconnected at h
  split at h
  · exact (setState_evolves env s s' _ h).1
  · have e := Option.some.inj h
    subst e
    exact Evolves.unchanged _

theorem fixMsgIn_evolves (env : Env σ) (s s' : session σ) (m : Message)
    (h : stateMachine.fixMsgIn env s m = some s') :
    Evolves s.stateMachine s'.stateMachine := by
  unfold stateMachine.fixMsgIn at h
  split at h
  · cases h
  · exact (setState_evolves env _ s' _ h).1

theorem Incoming_evolves (env : Env σ) (s s' : session σ) (m : fixIn) (now : Time)
    (h : stateMachine.Incoming env s m now = some s') :
    Evolves s.stateMachine s'.stateMachine := by
  unfold stateMachine.Incoming at h
  split at h
  · cases h
  · rename_i s1 hs1
    have ev1 := CheckSessionTime_evolves env s s1 now hs1
    split at h
    · have e := Option.some.inj h
      subst e
      exact ev1
    · simp only [] at h
      split at h
      · cases h
      · rename_i s2 hs2
        have e := Option.some.inj h
        subst e
        refine ev1.andEvolves ?_
        split at hs2
        · have e := Option.some.inj hs2
          subst e
          exact Evolves.unchanged _
        · have ev2 := fixMsgIn_evolves env _ s2 _ hs2
          exact ev2

theorem SendAppMessages_evolves (env : Env σ) (s s' : session σ) (now : Time)
    (h : stateMachine.SendAppMessages env s now = some s') :
    Evolves s.stateMachine s'.stateMachine := by
  unfold stateMachine.SendAppMessages at h
  split at h
  · cases h
  · rename_i s1 hs1
    have ev1 := CheckSessionTime_evolves env s s1 now hs1
    have e := Option.some.inj h
    subst e
    refine ev1.andEvolves ?_
    simp only []
    split <;> exact Evolves.unchanged _

theorem Timeout_evolves (env : Env σ) (s s' : session σ) (e : internal.Event) (now : Time)
    (h : stateMachine.Timeout env s e now = some s') :
    Evolves s.stateMachine s'.stateMachine := by
  unfold stateMachine.Timeout at h
  split at h
  · cases h
  · rename_i s1 hs1
    have ev1 := CheckSessionTime_evolves env s s1 now hs1
    split at h
    · cases h
    · exact ev1.andEvolves (setState_evolves env _ s' _ h).1

theorem Stop_pendingStop (env : Env σ) (s s' : session σ)
    (h : stateMachine.Stop env s = some s') : s'.stateMachine.pendingStop = true := by
  unfold stateMachine.Stop at h
  simp only [] at h
  split at h
  · cases h
  · rename_i cur hcur
    have ev := (setState_evolves env _ s' _ h).1
    rw [ev.1, (sessionState_Stop_spec env cur _).1]

theorem reachable_invariant (env : Env σ) (s : session σ) (h : Reachable env s) :
    s.stateMachine.stopped = true → s.stateMachine.pendingStop = true := by
  have step : ∀ a b : session σ, Evolves a.stateMachine b.stateMachine →
      (a.stateMachine.stopped = true → a.stateMachine.pendingStop = true) →
      b.stateMachine.stopped = true → b.stateMachine.pendingStop = true := by
    intro a b ev ih hb
    rw [ev.1]
    rcases ev.2 hb with h | h
    · exact ih h
    · exact h
  induction h with
  | Start s s' now h =>
    intro hs
    rw [(Start_flags env s s' now h).2] at hs
    cases hs
  | Connect s s' _ h ih => exact step s s' (Connect_evolves env s s' h) ih
  | Stop s s' _ h _ => exact fun _ => Stop_pendingStop env s s' h
  | Disconnected s s' _ h ih => exact step s s' (Disconnected_evolves env s s' h) ih
  | Incoming s s' m now _ h ih => exact step s s' (Incoming_evolves env s s' m now h) ih
  | SendAppMessages s s' now _ h ih =>
    exact step s s' (SendAppMessages_evolves env s s' now h) ih
  | Timeout s s' e now _ h ih => exact step s s' (Timeout_evolves env s s' e now h) ih
  | CheckSessionTime s s' now _ h ih =>
    exact step s s' (CheckSessionTime_evolves env s s' now h) ih

theorem reachableWithoutStop_invariant (env : Env σ) (s : session σ)
    (h : ReachableWithoutStop env s) :
    s.stateMachine.stopped = false ∧ s.stateMachine.pendingStop = false := by
  have step : ∀ a b : session σ, Evolves a.stateMachine b.stateMachine →
      (a.stateMachine.stopped = false ∧ a.stateMachine.pendingStop = false) →
      b.stateMachine.stopped = false ∧ b.stateMachine.pendingStop = false := by
    intro a b ev ih
    refine ⟨?_, by rw [ev.1]; exact ih.2⟩
    cases hb : b.stateMachine.stopped with
    | false => rfl
    | true =>
      rcases ev.2 hb with h | h
      · rw [ih.1] at h; cases h
      · rw [ih.2] at h; cases h
  induction h with
  | Start s s' now h =>
    exact ⟨(Start_flags env s s' now h).2, (Start_flags env s s' now h).1⟩
  | Connect s s' _ h ih => exact step s s' (Connect_evolves env s s' h) ih
  | Disconnected s s' _ h ih => exact step s s' (Disconnected_evolves env s s' h) ih
  | Incoming s s' m now _ h ih => exact step s s' (Incoming_evolves env s s' m now h) ih
  | SendAppMessages s s' now _ h ih =>
    exact step s s' (SendAppMessages_evolves env s s' now h) ih
  | Timeout s s' e now _ h ih => exact step s s' (Timeout_evolves env s s' e now h) ih
  | CheckSessionTime s s' now _ h ih =>
    exact step s s' (CheckSessionTime_evolves env s s' now h) ih

/-- C17: in every configuration reachable from `Start` through `Connect`, `Stop`,
`Disconnected`, `Incoming`, `SendAppMessages`, `Timeout` and `CheckSessionTime`,
`stopped` implies `pendingStop`; a session reached without a call of `Stop` is not
reported as `Stopped()` and has no pending stop; `setState` sets `stopped` exactly on a
transition to a not-connected state while `pendingStop` is set; and each of the methods
other than `Start` and `Stop` keeps `pendingStop` and sets `stopped` only while a stop is
pending. -/
theorem stopped_implies_pendingStop (env : Env σ) :
    (∀ s, Reachable env s →
      s.stateMachine.stopped = true → s.stateMachine.pendingStop = true) ∧
    (∀ s, ReachableWithoutStop env s →
      s.stateMachine.Stopped = false ∧ s.stateMachine.pendingStop = false) ∧
    (∀ s s' next, stateMachine.setState env s next = some s' →
      s'.stateMachine.pendingStop = s.stateMachine.pendingStop ∧
      s'.stateMachine.stopped =
        (s.stateMachine.stopped || (!next.IsConnected && s.stateMachine.pendingStop))) ∧
    (∀ s s', stateMachine.Connect env s = some s' →
      Evolves s.stateMachine s'.stateMachine) ∧
    (∀ s s', stateMachine.Disconnected env s = some s' →
      Evolves s.stateMachine s'.stateMachine) ∧
    (∀ s s' m now, stateMachine.Incoming env s m now = some s' →
      Evolves s.stateMachine s'.stateMachine) ∧
    (∀ s s' now, stateMachine.SendAppMessages env s now = some s' →
      Evolves s.stateMachine s'.stateMachine) ∧
    (∀ s s' e now, stateMachine.Timeout env s e now = some s' →
      Evolves s.stateMachine s'.stateMachine) ∧
    (∀ s s' now, stateMachine.CheckSessionTime env s now = some s' →
      Evolves s.stateMachine s'.stateMachine) :=
  ⟨reachable_invariant env, reachableWithoutStop_invariant env,
   fun s s' next h => ⟨(setState_evolves env s s' next h).1.1, (setState_evolves env s s' next h).2.1⟩,
   Connect_evolves env, Disconnected_evolves env, Incoming_evolves env,
   SendAppMessages_evolves env, Timeout_evolves env, CheckSessionTime_evolves env⟩

/-- Witness of `stopped_implies_pendingStop`: a session is started at hour 10 and then
asked to stop while in `latentState`; it is reachable and stopped, with a stop pending. -/
theorem stopped_implies_pendingStop_witness :
    ∃ s1 s2, stateMachine.Start exampleEnv (exampleSession .inSession false none) 10 = some s1 ∧
      stateMachine.Stop exampleEnv s1 = some s2 ∧
      s2.stateMachine.stopped = true ∧ s2.stateMachine.pendingStop = true := by
  refine ⟨_, _, rfl, rfl, rfl, ?_⟩
  exact (stopped_implies_pendingStop exampleEnv).1 _
    (Reachable.Stop _ _
      (Reachable.Start (exampleSession .inSession false none) _ 10 rfl) rfl) rfl

theorem inboundCalls_of_fromCheckSessionTime (c : Call) (h : c.fromCheckSessionTime = true) :
    c.isInboundCall = false := by
  cases c <;> simp_all [Call.fromSetState, Call.fromCheckSessionTime, Call.isInboundCall]

theorem peerTimerReset_of_fromSetState (c : Call) (h : c.fromSetState = true) :
    c.isPeerTimerReset = false := by
  cases c <;> simp_all [Call.fromSetState, Call.isPeerTimerReset]

/-- The handling of an inbound message by a connected state machine: `fixMsgIn` returns,
and its calls are `FixMsgIn` of the current state followed by calls of `setState`. -/
theorem fixMsgIn_spec (env : Env σ) (s : session σ) (msg : Message) (cur : sessionState)
    (hst : s.stateMachine.State = some cur) :
    ∃ s' rest, stateMachine.fixMsgIn env s msg = some s' ∧
      s'.calls = s.calls ++ Call.FixMsgIn cur msg :: rest ∧
      (∀ c ∈ rest, c.fromSetState = true) := by
  have hS : (cur.FixMsgIn env s msg).1.stateMachine.State = some cur := hst
  obtain ⟨s', e, _⟩ := setState_spec env (cur.FixMsgIn env s msg).1
    (cur.FixMsgIn env s msg).2 cur hS
  obtain ⟨_, rest, hc, hf⟩ := setState_only env _ s' _ e
  refine ⟨s', rest, ?_, ?_, hf⟩
  · unfold stateMachine.fixMsgIn
    simp only []
    split
    · rename_i h
      exact absurd (h.symm.trans hst) (by simp)
    · rename_i c h
      have hc' : c = cur := Option.some.inj (h.symm.trans hst)
      subst hc'
      exact e
  · rw [hc]
    simp [sessionState.FixMsgIn, session.call]

end quickfix

/-! ## Theorems: the float64 scaling of the heartbeat interval -/

namespace float64

theorem bitLenAux_zero (fuel : Nat) : bitLenAux fuel 0 = 0 := by
  cases fuel <;> simp [bitLenAux]

theorem bitLenAux_spec (fuel : Nat) : ∀ m, m ≤ fuel →
    m < 2 ^ bitLenAux fuel m ∧ (m ≠ 0 → 2 ^ (bitLenAux fuel m - 1) ≤ m) := by
  induction fuel with
  | zero =>
    intro m hm
    have : m = 0 := Nat.le_zero.mp hm
    subst this
    simp [bitLenAux]
  | succ f ih =>
    intro m hm
    by_cases h0 : m = 0
    · subst h0
      simp [bitLenAux]
    · have hle : m / 2 ≤ f := by omega
      obtain ⟨h1, h2⟩ := ih (m / 2) hle
      simp only [bitLenAux, h0, if_false]
      constructor
      · rw [Nat.pow_succ]
        omega
      · intro _
        simp only [Nat.add_sub_cancel]
        by_cases hh : m / 2 = 0
        · rw [hh, bitLenAux_zero]
          simp
          omega
        · have h3 := h2 hh
          have hb : 1 ≤ bitLenAux f (m / 2) := by
            by_contra hc
            have : bitLenAux f (m / 2) = 0 := by omega
            rw [this] at h1
            simp at h1
            exact hh h1
          have : 2 ^ bitLenAux f (m / 2) = 2 * 2 ^ (bitLenAux f (m / 2) - 1) := by
            conv_lhs => rw [show bitLenAux f (m / 2) = (bitLenAux f (m / 2) - 1) + 1 by omega]
            rw [Nat.pow_succ]
            omega
          omega

theorem bitLen_spec (m : Nat) : m < 2 ^ bitLen m ∧ (m ≠ 0 → 2 ^ (bitLen m - 1) ≤ m) :=
  bitLenAux_spec m m (Nat.le_refl m)

theorem bitLen_le (m n : Nat) (h : m < 2 ^ n) : bitLen m ≤ n := by
  by_cases h0 : m = 0
  · subst h0
    simp [bitLen, bitLenAux_zero]
  · have h2 := (bitLen_spec m).2 h0
    have h3 : 2 ^ (bitLen m - 1) < 2 ^ n := Nat.lt_of_le_of_lt h2 h
    have h4 := (Nat.pow_lt_pow_iff_right (by norm_num : 1 < 2)).mp h3
    omega

theorem bitLen_eq (m e : Nat) (he : 0 < e) (h1 : 2 ^ (e - 1) ≤ m) (h2 : m < 2 ^ e) :
    bitLen m = e := by
  have hle := bitLen_le m e h2
  have h3 : 2 ^ (e - 1) < 2 ^ bitLen m := Nat.lt_of_le_of_lt h1 (bitLen_spec m).1
  have h4 := (Nat.pow_lt_pow_iff_right (by norm_num : 1 < 2)).mp h3
  omega

theorem round53_small (m : Nat) (h : m < 2 ^ 53) : round53 m = m := by
  unfold round53
  have := bitLen_le m 53 h
  simp only []
  rw [if_pos (by omega)]

theorem round53_borrow (m k Q j : Nat) (hk : 0 < k) (hb : bitLen m = k + 53)
    (hm : m + j = Q * 2 ^ k) (hj1 : 0 < j) (hj2 : j < 2 ^ (k - 1)) :
    round53 m = Q * 2 ^ k := by
  have hP : 2 ^ k = 2 * 2 ^ (k - 1) := by
    conv_lhs => rw [show k = (k - 1) + 1 by omega]
    rw [Nat.pow_succ]
    omega
  have hQ : 0 < Q := by
    rcases Nat.eq_zero_or_pos Q with h | h
    · subst h
      simp at hm
      omega
    · exact h
  have hsub : (Q - 1) * 2 ^ k = Q * 2 ^ k - 2 ^ k := by
    rw [Nat.sub_mul, Nat.one_mul]
  have hsucc : (Q - 1 + 1) * 2 ^ k = Q * 2 ^ k := by
    rw [Nat.sub_add_cancel hQ]
  have hle : 2 ^ k ≤ Q * 2 ^ k := Nat.le_mul_of_pos_left _ hQ
  have hdiv : m / 2 ^ k = Q - 1 := by
    apply Nat.div_eq_of_lt_le
    · rw [hsub]; omega
    · rw [hsucc]; omega
  have hmod : m % 2 ^ k = 2 ^ k - j := by
    have h1 := Nat.mod_add_div m (2 ^ k)
    rw [hdiv, Nat.mul_comm, hsub] at h1
    omega
  unfold round53
  simp only [hb, Nat.add_sub_cancel]
  rw [if_neg (by omega), hdiv, hmod]
  rw [if_pos (Or.inl (by omega)), Nat.sub_add_cancel hQ]

theorem three_not_dvd_two_pow (n : Nat) : ¬ 3 ∣ 2 ^ n := by
  intro h
  have h2 : 3 ∣ 2 := Nat.Prime.dvd_of_dvd_pow Nat.prime_three h
  omega

theorem round53_mant12 (j : Nat) (h : 6 * j < 2 ^ 53) :
    round53 (mant12 * (5 * j)) = 6 * j * 2 ^ 52 := by
  rcases Nat.eq_zero_or_pos j with h0 | hj
  · subst h0
    simp [round53_small]
  · have hX0 : 6 * j ≠ 0 := by omega
    obtain ⟨hlt, hge⟩ := bitLen_spec (6 * j)
    have hge := hge hX0
    have he53 := bitLen_le (6 * j) 53 h
    have he3 : 3 ≤ bitLen (6 * j) := by
      by_contra hc
      have h2 : bitLen (6 * j) ≤ 2 := by omega
      have h3 : 2 ^ bitLen (6 * j) ≤ 2 ^ 2 := Nat.pow_le_pow_right (by norm_num) h2
      norm_num at h3
      omega
    generalize he : bitLen (6 * j) = e at hlt hge he53 he3
    have hne : 6 * j ≠ 2 ^ (e - 1) := by
      intro heq
      exact three_not_dvd_two_pow (e - 1) (heq ▸ ⟨2 * j, by ring⟩)
    have hP : 2 ^ e = 2 * 2 ^ (e - 1) := by
      conv_lhs => rw [show e = (e - 1) + 1 by omega]
      rw [Nat.pow_succ]
      omega
    have hH : 2 ^ (e - 1) = 2 * 2 ^ (e - 1 - 1) := by
      conv_lhs => rw [show e - 1 = (e - 1 - 1) + 1 by omega]
      rw [Nat.pow_succ]
      omega
    have hm : mant12 * (5 * j) + j = 6 * j * 2 ^ 52 := by
      unfold mant12
      norm_num
      ring
    have hQ : 6 * j * 2 ^ (53 - e) * 2 ^ (e - 1) = 6 * j * 2 ^ 52 := by
      rw [Nat.mul_assoc, ← Nat.pow_add, show 53 - e + (e - 1) = 52 by omega]
    have h52 : (2 : Nat) ^ 52 = 4503599627370496 := by norm_num
    have h53 : (2 : Nat) ^ 53 = 9007199254740992 := by norm_num
    have hb : bitLen (mant12 * (5 * j)) = (e - 1) + 53 := by
      apply bitLen_eq
      · omega
      · rw [show e - 1 + 53 - 1 = (e - 1) + 52 by omega, Nat.pow_add]
        rw [h52] at hm ⊢
        rw [h53] at h
        omega
      · rw [show e - 1 + 53 = e + 52 by omega, Nat.pow_add]
        rw [h52] at hm ⊢
        omega
    rw [← hQ]
    apply round53_borrow _ _ _ j (by omega) hb
    · rw [hQ, hm]
    · exact hj
    · omega

theorem toInt64_inInt64 (v : Int) : inInt64 (toInt64 v) := by
  unfold toInt64
  split
  · assumption
  · unfold inInt64
    norm_num

theorem toInt64_of_inInt64 (v : Int) (h : inInt64 v) : toInt64 v = v := by
  unfold toInt64
  rw [if_pos h]

theorem bitLen_shift (m t : Nat) (hm : 0 < m) : bitLen (m * 2 ^ t) = bitLen m + t := by
  obtain ⟨hlt, hge⟩ := bitLen_spec m
  have hge := hge (by omega)
  have hb : 1 ≤ bitLen m := by
    by_contra hc
    have h0 : bitLen m = 0 := by omega
    rw [h0] at hlt
    simp at hlt
    omega
  apply bitLen_eq
  · omega
  · rw [show bitLen m + t - 1 = (bitLen m - 1) + t by omega, Nat.pow_add]
    exact Nat.mul_le_mul_right _ hge
  · rw [Nat.pow_add]
    exact Nat.mul_lt_mul_of_pos_right hlt (by positivity)

theorem round53_shift (m t : Nat) : round53 (m * 2 ^ t) = round53 m * 2 ^ t := by
  rcases Nat.eq_zero_or_pos m with h0 | hm
  · subst h0
    simp [round53_small]
  · have hpos : ∀ x : Nat, 0 < 2 ^ x := fun x => by positivity
    unfold round53
    simp only []
    rw [bitLen_shift m t hm]
    by_cases hk : bitLen m - 53 = 0
    · rw [if_pos hk]
      by_cases hk2 : bitLen m + t - 53 = 0
      · rw [if_pos hk2]
      · rw [if_neg hk2]
        generalize hK : bitLen m + t - 53 = K at hk2
        have hKt : K ≤ t := by omega
        have e1 : m * 2 ^ t = m * 2 ^ (t - K) * 2 ^ K := by
          rw [Nat.mul_assoc, ← Nat.pow_add, Nat.sub_add_cancel hKt]
        have hdiv : m * 2 ^ t / 2 ^ K = m * 2 ^ (t - K) := by
          rw [e1, Nat.mul_div_cancel _ (hpos K)]
        have hmod : m * 2 ^ t % 2 ^ K = 0 := by
          rw [e1, Nat.mul_mod_left]
        rw [hdiv, hmod]
        have hh := hpos (K - 1)
        rw [if_neg (by omega), ← e1]
    · rw [if_neg hk, if_neg (by omega)]
      rw [show bitLen m + t - 53 = (bitLen m - 53) + t by omega]
      generalize bitLen m - 53 = k at hk
      have hk1 : k + t - 1 = (k - 1) + t := by omega
      rw [hk1, Nat.pow_add, Nat.pow_add, Nat.mul_div_mul_right _ _ (hpos t),
        Nat.mul_mod_mul_right]
      have c1 : (2 ^ (k - 1) * 2 ^ t < m % 2 ^ k * 2 ^ t) ↔ (2 ^ (k - 1) < m % 2 ^ k) :=
        Nat.mul_lt_mul_right (hpos t)
      have c2 : (m % 2 ^ k * 2 ^ t = 2 ^ (k - 1) * 2 ^ t) ↔ (m % 2 ^ k = 2 ^ (k - 1)) :=
        Nat.mul_left_inj (Nat.pos_iff_ne_zero.mp (hpos t))
      simp only [c1, c2]
      rw [Nat.mul_assoc]

theorem round53_mant12_wide (j : Nat) (h1 : 2 ^ 53 ≤ 6 * j) (h2 : 6 * j < 2 ^ 54) :
    round53 (mant12 * (5 * j)) = 6 * j * 2 ^ 52 := by
  have h52 : (2 : Nat) ^ 52 = 4503599627370496 := by norm_num
  have h53 : (2 : Nat) ^ 53 = 9007199254740992 := by norm_num
  have h54 : (2 : Nat) ^ 54 = 18014398509481984 := by norm_num
  have h105 : (2 : Nat) ^ 105 = 40564819207303340847894502572032 := by norm_num
  have h106 : (2 : Nat) ^ 106 = 81129638414606681695789005144064 := by norm_num
  rw [h53] at h1
  rw [h54] at h2
  have hm : mant12 * (5 * j) + j = 3 * j * 2 ^ 53 := by
    unfold mant12
    norm_num
    ring
  have hb : bitLen (mant12 * (5 * j)) = 53 + 53 := by
    apply bitLen_eq
    · norm_num
    · rw [show 53 + 53 - 1 = 105 by norm_num, h105]
      rw [h53] at hm
      omega
    · rw [show 53 + 53 = 106 by norm_num, h106]
      rw [h53] at hm
      omega
  rw [show 6 * j * 2 ^ 52 = 3 * j * 2 ^ 53 by ring]
  apply round53_borrow _ 53 _ j (by norm_num) hb hm
  · omega
  · rw [show 53 - 1 = 52 by norm_num, h52]
    omega

theorem round53_mant12_all (j : Nat) (h : 6 * j < 2 ^ 54) :
    round53 (mant12 * (5 * j)) = 6 * j * 2 ^ 52 := by
  by_cases h1 : 6 * j < 2 ^ 53
  · exact round53_mant12 j h1
  · exact round53_mant12_wide j (by omega) h

theorem product12_shifted (j t : Nat) (h5 : 5 * j < 2 ^ 53) (h : 6 * j < 2 ^ 54) :
    product12 ((5 * j * 2 ^ t : Nat) : Int) = ((6 * j * 2 ^ t : Nat) : Int) := by
  unfold product12
  have e1 : mant12 * (5 * j * 2 ^ t) = mant12 * (5 * j) * 2 ^ t := by ring
  have e2 : 6 * j * 2 ^ 52 * 2 ^ t = 6 * j * 2 ^ t * 2 ^ 52 := by ring
  simp only [Int.natAbs_ofNat, round53_shift (5 * j) t, round53_small _ h5, e1,
    round53_shift (mant12 * (5 * j)) t, round53_mant12_all j h, e2]
  rw [if_neg (by omega), Nat.mul_div_cancel _ (by norm_num)]

theorem scale12_seconds_small (n : Nat) (h : n ≤ 4611686018) :
    scale12 (n * time.Second) = n * 1200000000 := by
  have e1 : (n : Int) * time.Second = ((5 * (390625 * n) * 2 ^ 9 : Nat) : Int) := by
    unfold time.Second
    push_cast
    ring
  unfold scale12
  rw [e1, product12_shifted _ 9 (by norm_num; omega) (by norm_num; omega)]
  rw [toInt64_of_inInt64]
  · push_cast
    ring
  · unfold inInt64
    constructor
    · have : (0 : Int) ≤ ((6 * (390625 * n) * 2 ^ 9 : Nat) : Int) := Int.ofNat_nonneg _
      omega
    · norm_num
      omega

set_option maxRecDepth 10000 in
theorem scale12_seconds (n : Nat) (h : n ≤ 4611686020) :
    scale12 (n * time.Second) = n * 1200000000 := by
  by_cases h1 : n ≤ 4611686018
  · exact scale12_seconds_small n h1
  · have h2 : n = 4611686019 ∨ n = 4611686020 := by omega
    rcases h2 with h2 | h2
    · subst h2
      decide
    · subst h2
      decide

set_option maxRecDepth 10000 in
theorem scale12_seconds_next :
    scale12 (4611686021 * time.Second) ≠ 4611686021 * 1200000000 := by decide

end float64

/-! ## Theorems: inbound messages and the peer timer -/

namespace quickfix

variable {σ : Type}

/-- C15 (amended): for every inbound message handed to `stateMachine.Incoming`, if the
session is not connected after the session-time check, nothing more is done: the message
is not logged, parsed or passed to `FixMsgIn`, and the peer timer is not reset. If it is
connected, the bytes are logged, the message is parsed and, when it parses, passed to
`FixMsgIn` of the current state, and in both cases the last call resets the peer timer,
once, to `time.Duration(float64(1.2) * float64(HeartBtInt))`. That duration is an `int64`;
it is 36 s for a `HeartBtInt` of 30 s and exactly `1.2 n` seconds for every whole number
`n` of seconds up to 4611686020, and no longer for 4611686021 s, where the float64 product
is rounded. -/
theorem Incoming_peerTimer (env : Env σ) (s : session σ) (m : fixIn) (now : Time)
    (st : sessionState) (hst : s.stateMachine.State = some st) :
    (∃ s1, stateMachine.CheckSessionTime env s now = some s1 ∧
      (s1.stateMachine.IsConnected = false →
        stateMachine.Incoming env s m now = some s1 ∧
        ∃ new, s1.calls = s.calls ++ new ∧ new.filter Call.isInboundCall = []) ∧
      (s1.stateMachine.IsConnected = true →
        ∃ s2 mid, stateMachine.Incoming env s m now = some s2 ∧
          s2.calls = s1.calls ++ (Call.OnIncoming m.bytes :: mid) ++
            [Call.peerTimerReset (float64.scale12 (env.HeartBtInt s2.world))] ∧
          mid.filter Call.isPeerTimerReset = [] ∧
          (∀ err, env.ParseMessageWithDataDictionary s1.world m.bytes = .error err →
            mid = [Call.OnErrorEventParams "Msg Parse Error" err]) ∧
          (∀ msg, env.ParseMessageWithDataDictionary s1.world m.bytes = .ok msg →
            ∃ cur rest, s1.stateMachine.State = some cur ∧
              mid = Call.FixMsgIn cur { msg with ReceiveTime := m.receiveTime } :: rest))) ∧
    float64.scale12 (30 * time.Second) = 36 * time.Second ∧
    (∀ n : Nat, n ≤ 4611686020 → float64.scale12 (n * time.Second) = n * 1200000000) ∧
    float64.scale12 (4611686021 * time.Second) ≠ 4611686021 * 1200000000 ∧
    (∀ d : Int, inInt64 (float64.scale12 d)) := by
  refine ⟨?_, by decide, float64.scale12_seconds, float64.scale12_seconds_next,
    fun d => float64.toInt64_inInt64 _⟩
  obtain ⟨s1, e1, _, _⟩ := CheckSessionTime_total env s now st hst
  obtain ⟨_, new1, hc1, hf1⟩ := CheckSessionTime_only env s s1 now e1
  refine ⟨s1, e1, ?_, ?_⟩
  · intro hconn
    refine ⟨?_, new1, hc1, filter_eq_nil_of_all inboundCalls_of_fromCheckSessionTime new1 hf1⟩
    unfold stateMachine.Incoming
    simp only [e1, hconn, Bool.not_false, if_true]
  · intro hconn
    have hcur : ∃ cur, s1.stateMachine.State = some cur := by
      cases h : s1.stateMachine.State with
      | none => simp [stateMachine.IsConnected, h] at hconn
      | some cur => exact ⟨cur, rfl⟩
    obtain ⟨cur, hcur⟩ := hcur
    have hw : (s1.call (Call.OnIncoming m.bytes)).world = s1.world := rfl
    cases hp : env.ParseMessageWithDataDictionary s1.world m.bytes with
    | error err =>
      refine ⟨((s1.call (.OnIncoming m.bytes)).call
          (.OnErrorEventParams "Msg Parse Error" err)).call
          (.peerTimerReset (float64.scale12 (env.HeartBtInt s1.world))),
        [Call.OnErrorEventParams "Msg Parse Error" err], ?_, ?_, ?_, ?_, ?_⟩
      · unfold stateMachine.Incoming
        simp only [e1, hconn, Bool.not_true, Bool.false_eq_true, if_false, hw, hp]
        rfl
      · simp [session.call]
      · simp [Call.isPeerTimerReset]
      · intro err' h
        cases h
        rfl
      · intro msg h
        cases h
    | ok msg =>
      obtain ⟨s3, rest, e3, hc3, hf3⟩ := fixMsgIn_spec env (s1.call (.OnIncoming m.bytes))
        { msg with ReceiveTime := m.receiveTime } cur hcur
      refine ⟨s3.call (.peerTimerReset (float64.scale12 (env.HeartBtInt s3.world))),
        Call.FixMsgIn cur { msg with ReceiveTime := m.receiveTime } :: rest,
        ?_, ?_, ?_, ?_, ?_⟩
      · unfold stateMachine.Incoming
        simp only [e1, hconn, Bool.not_true, Bool.false_eq_true, if_false, hw, hp, e3]
      · simp [session.call, hc3]
      · have hr : rest.filter Call.isPeerTimerReset = [] :=
          filter_eq_nil_of_all peerTimerReset_of_fromSetState rest hf3
        simp [List.filter_cons, Call.isPeerTimerReset, hr]
      · intro err h
        cases h
      · intro msg' h
        cases h
        exact ⟨cur, rest, hcur, rfl⟩

/-- Witness of `Incoming_peerTimer`: a logged-on session with a heartbeat interval of
30 s receives a message at hour 10, in its window; the last call resets the peer timer to
36 s. -/
theorem Incoming_peerTimer_witness :
    ∃ s2 mid, stateMachine.Incoming exampleEnv (exampleSession .inSession false none)
        ⟨[56, 61, 70], 10⟩ 10 = some s2 ∧
      s2.calls = [Call.CreationTime] ++ (Call.OnIncoming [56, 61, 70] :: mid) ++
        [Call.peerTimerReset (36 * time.Second)] := by
  obtain ⟨s1, e1, _, h⟩ := (Incoming_peerTimer exampleEnv
    (exampleSession .inSession false none) ⟨[56, 61, 70], 10⟩ 10 .inSession rfl).1
  have es : s1 = (exampleSession .inSession false none).call .CreationTime :=
    Option.some.inj (e1.symm.trans rfl)
  subst es
  obtain ⟨s2, mid, e2, hc, _⟩ := h rfl
  have ew : s2.world = (exampleSession .inSession false none).world := by
    have e2' : s2 = _ := Option.some.inj (e2.symm.trans rfl)
    rw [e2']
    rfl
  refine ⟨s2, mid, e2, ?_⟩
  rw [hc, ew]
  rfl

set_option maxRecDepth 10000 in
/-- C15 (counterexample): the claim has the peer timer reset to 1.2 × HeartBtInt. A
logged-on session with a `HeartBtInt` of 7686143365 s receives a message at hour 10, in its
window, and stays connected. 1.2 × HeartBtInt is 9223372038 s, more nanoseconds than an
`int64` holds, so no `time.Duration` is 1.2 × HeartBtInt; the conversion of the float64
product is out of range, and the peer timer is reset to the smallest `int64`, a negative
duration. -/
theorem Incoming_peerTimer_overflow :
    inInt64 (7686143365 * time.Second) ∧
    5 * (9223372038 * time.Second) = 6 * (7686143365 * time.Second) ∧
    ¬ inInt64 (9223372038 * time.Second) ∧
    ∃ s2, stateMachine.Incoming exampleEnv
        (exampleSessionWithHeartBtInt (7686143365 * time.Second)) ⟨[56, 61, 70], 10⟩ 10
          = some s2 ∧
      s2.stateMachine.IsConnected = true ∧
      exampleEnv.HeartBtInt s2.world = 7686143365 * time.Second ∧
      s2.calls =
        [.CreationTime, .OnIncoming [56, 61, 70], .FixMsgIn .inSession ⟨[], 10⟩,
         .peerTimerReset (-9223372036854775808)] ∧
      (-9223372036854775808 : Int) ≠ 9223372038 * time.Second :=
  ⟨by decide, by decide, by decide, _, rfl, rfl, rfl, rfl, by decide⟩

end quickfix
